import Mathlib

/-!
# Verification of the quick-data-viz adapter core

Shallow embedding of the data-source adapter layer of the `ccabos/visualizer`
repository (layered cache, retrying fetch, per-source normalizers, catalog
search and URL-state codec), with theorems checking the natural-language
specification against the code.

Conventions used throughout:
* JavaScript strings are Lean `String`s; JS string comparison (`<`, `>=`,
  and `localeCompare` on the plain ASCII year/date strings this code
  compares) is modelled by the code-point lexicographic order `lexLt`.
* JS `number` values carried by datasets are modelled as `JsNumber`, an
  exact decimal mantissa/exponent pair in canonical form; the claims only
  propagate and compare values, never do float arithmetic on them.
* A JS `Map` is modelled as an association list in insertion order
  (`aset` updates in place or appends, exactly like `Map.set`).
* Asynchronous functions are modelled as pure state-passing functions;
  exceptions become `Except`/`Option` results.
-/

namespace Visualizer

/-! ## Generic helpers -/

/-- JavaScript `a || b` on strings: the empty string is falsy. -/
def jsOr (a b : String) : String := if a = "" then b else a

/-- Association-list lookup (first match), modelling `Map.get`. -/
def alookup {β : Type _} (k : String) : List (String × β) → Option β
  | [] => none
  | (k', v) :: rest => if k' == k then some v else alookup k rest

/-- Association-list update, modelling `Map.set`: replaces in place if the
key is present (keeping its position, as JS `Map.set` does), else appends. -/
def aset {β : Type _} (k : String) (v : β) : List (String × β) → List (String × β)
  | [] => [(k, v)]
  | (k', v') :: rest => if k' == k then (k, v) :: rest else (k', v') :: aset k v rest

/-- Association-list removal, modelling `Map.delete` (keys are unique). -/
def aerase {β : Type _} (k : String) : List (String × β) → List (String × β)
  | [] => []
  | (k', v') :: rest => if k' == k then rest else (k', v') :: aerase k rest

theorem alookup_aset_self {β : Type _} (k : String) (v : β) (l : List (String × β)) :
    alookup k (aset k v l) = some v := by
  induction l with
  | nil => simp [aset, alookup]
  | cons h t ih =>
    by_cases hk : h.1 == k
    · simp [aset, hk, alookup]
    · simp [aset, hk, alookup, ih]

theorem alookup_aset_ne {β : Type _} {k k' : String} (v : β) (l : List (String × β))
    (h : k ≠ k') : alookup k' (aset k v l) = alookup k' l := by
  induction l with
  | nil => simp [aset, alookup, h]
  | cons hd t ih =>
    by_cases hk : hd.1 == k
    · have hd1 : hd.1 = k := by simpa [beq_iff_eq] using hk
      simp [aset, hk, alookup, hd1, h]
    · simp [aset, hk, alookup, ih]

theorem mem_aset {β : Type _} {k : String} {v : β} {l : List (String × β)} {x : String × β}
    (hx : x ∈ aset k v l) : x = (k, v) ∨ x ∈ l := by
  induction l with
  | nil => simpa [aset] using hx
  | cons h t ih =>
    by_cases hk : h.1 == k
    · rcases (by simpa [aset, hk] using hx) with h1 | h2
      · exact Or.inl h1
      · exact Or.inr (List.mem_cons_of_mem _ h2)
    · rcases (by simpa [aset, hk] using hx) with h1 | h2
      · exact Or.inr (by simp [h1])
      · rcases ih h2 with h3 | h4
        · exact Or.inl h3
        · exact Or.inr (List.mem_cons_of_mem _ h4)

/-- Code-point lexicographic strict order on character lists.  Models JS
string `<`; for the pure-ASCII date/year strings compared in this code it
also coincides with `localeCompare`-based ordering. -/
def lexLt : List Char → List Char → Bool
  | [], [] => false
  | [], _ :: _ => true
  | _ :: _, [] => false
  | a :: as, b :: bs =>
    if a.toNat < b.toNat then true
    else if b.toNat < a.toNat then false
    else lexLt as bs

/-- JS `a < b` on strings. -/
def strLt (a b : String) : Bool := lexLt a.toList b.toList

/-- JS `a >= b` on strings. -/
def strGe (a b : String) : Bool := !(strLt a b)

theorem char_eq_of_toNat_eq {a b : Char} (h : a.toNat = b.toNat) : a = b := by
  have h2 : a.val.toBitVec.toNat = b.val.toBitVec.toNat := h
  exact Char.ext (UInt32.eq_of_toBitVec_eq (BitVec.eq_of_toNat_eq h2))

theorem lexLt_irrefl (l : List Char) : lexLt l l = false := by
  induction l with
  | nil => rfl
  | cons a as ih => simp [lexLt, ih]

theorem lexLt_asymm : ∀ {a b : List Char}, lexLt a b = true → lexLt b a = false
  | [], [], h => by simp [lexLt] at h
  | [], _ :: _, _ => rfl
  | _ :: _, [], h => by simp [lexLt] at h
  | a :: as, b :: bs, h => by
    by_cases h1 : a.toNat < b.toNat
    · simp [lexLt, h1, Nat.lt_asymm h1]
    · by_cases h2 : b.toNat < a.toNat
      · simp [lexLt, h1, h2] at h
      · simpa [lexLt, h1, h2] using lexLt_asymm (by simpa [lexLt, h1, h2] using h)

theorem lexLt_eq_of_not_lt : ∀ {a b : List Char},
    lexLt a b = false → lexLt b a = false → a = b
  | [], [], _, _ => rfl
  | [], _ :: _, h, _ => by simp [lexLt] at h
  | _ :: _, [], _, h => by simp [lexLt] at h
  | a :: as, b :: bs, h, h' => by
    by_cases h1 : a.toNat < b.toNat
    · simp [lexLt, h1] at h
    · by_cases h2 : b.toNat < a.toNat
      · simp [lexLt, h2] at h'
      · have hab : a = b := char_eq_of_toNat_eq (by omega)
        have := lexLt_eq_of_not_lt (a := as) (b := bs)
          (by simpa [lexLt, h1, h2] using h)
          (by simpa [lexLt, h1, h2, hab] using h')
        simp [hab, this]

theorem lexLt_trans : ∀ {a b c : List Char},
    lexLt a b = true → lexLt b c = true → lexLt a c = true
  | [], _, _ :: _, _, _ => rfl
  | [], b, [], _, h2 => by cases b <;> simp [lexLt] at h2
  | _ :: _, b, [], h1, h2 => by
    cases b with
    | nil => simp [lexLt] at h1
    | cons x xs => simp [lexLt] at h2
  | a :: as, b, c :: cs, h1, h2 => by
    cases b with
    | nil => simp [lexLt] at h1
    | cons x xs =>
      by_cases hax : a.toNat < x.toNat
      · by_cases hxc : x.toNat < c.toNat
        · simp [lexLt, Nat.lt_trans hax hxc]
        · by_cases hcx : c.toNat < x.toNat
          · simp [lexLt, hxc, hcx] at h2
          · have : x.toNat = c.toNat := by omega
            simp [lexLt, this ▸ hax]
      · by_cases hxa : x.toNat < a.toNat
        · simp [lexLt, hax, hxa] at h1
        · have hax' : a.toNat = x.toNat := by omega
          by_cases hxc : x.toNat < c.toNat
          · simp [lexLt, hax' ▸ hxc]
          · by_cases hcx : c.toNat < x.toNat
            · simp [lexLt, hxc, hcx] at h2
            · have hxc' : x.toNat = c.toNat := by omega
              have hac : ¬ a.toNat < c.toNat := by omega
              have hca : ¬ c.toNat < a.toNat := by omega
              have := lexLt_trans (a := as) (b := xs) (c := cs)
                (by simpa [lexLt, hax, hxa] using h1)
                (by simpa [lexLt, hxc, hcx] using h2)
              simpa [lexLt, hac, hca] using this

theorem strLt_irrefl (a : String) : strLt a a = false := lexLt_irrefl _

theorem strLt_asymm {a b : String} (h : strLt a b = true) : strLt b a = false :=
  lexLt_asymm h

theorem strLt_trans {a b c : String} (h1 : strLt a b = true) (h2 : strLt b c = true) :
    strLt a c = true := lexLt_trans h1 h2

theorem str_eq_of_not_lt {a b : String} (h : strLt a b = false) (h' : strLt b a = false) :
    a = b := by
  have : a.toList = b.toList := lexLt_eq_of_not_lt h h'
  cases a; cases b
  simpa [String.toList] using congrArg String.mk this

/-- `a >= b` and `b >= c` give `a >= c` (linearity of the string order). -/
theorem strGe_trans {a b c : String} (h1 : strGe a b = true) (h2 : strGe b c = true) :
    strGe a c = true := by
  simp only [strGe, Bool.not_eq_true'] at h1 h2 ⊢
  by_cases hac : strLt a c = true
  · cases hba : strLt b a with
    | true => exact absurd (strLt_trans hba hac) (by simp [h2])
    | false =>
      have hab : a = b := str_eq_of_not_lt h1 hba
      exact absurd (hab ▸ hac) (by simp [h2])
  · simpa using hac

/-- Substring test: `hay.includes needle` in JS. -/
def containsSub (hay needle : List Char) : Bool :=
  match hay with
  | [] => needle.isEmpty
  | _ :: t => needle.isPrefixOf hay || containsSub t needle

/-- JS `String.prototype.includes`. -/
def strIncludes (hay needle : String) : Bool := containsSub hay.toList needle.toList

/-- JS `String.prototype.toLowerCase`, restricted to ASCII (every string it
is applied to in this repository is plain ASCII). -/
def toLowerStr (s : String) : String := String.mk (s.toList.map Char.toLower)

/-! ## A stable sort keyed by a string

The adapters sort with `arr.sort((a, b) => key(a).localeCompare(key(b)))`.
ES2019 requires `Array.prototype.sort` to be stable, and a stable sort's
output is uniquely determined by the comparator, so stable insertion sort
is extensionally the same function. -/

/-- Insert `x` after every element whose key is `<=` the key of `x`. -/
def stableInsert {α : Type _} (k : α → String) (x : α) : List α → List α
  | [] => [x]
  | y :: ys => if strLt (k x) (k y) then x :: y :: ys else y :: stableInsert k x ys

/-- Stable sort by a string key (models JS `sort` with a `localeCompare`
comparator on that key). -/
def sortByKey {α : Type _} (k : α → String) (l : List α) : List α :=
  l.foldl (fun acc x => stableInsert k x acc) []

/-- Non-decreasing in the key: no later element's key is `<` an earlier one's. -/
def KSorted {α : Type _} (k : α → String) (l : List α) : Prop :=
  List.Pairwise (fun a b => strLt (k b) (k a) = false) l

theorem stableInsert_perm {α : Type _} (k : α → String) (x : α) (l : List α) :
    (stableInsert k x l).Perm (x :: l) := by
  induction l with
  | nil => simp [stableInsert]
  | cons y ys ih =>
    by_cases h : strLt (k x) (k y)
    · simp [stableInsert, h]
    · simp only [stableInsert, h, if_neg, Bool.false_eq_true, not_false_iff]
      exact (ih.cons y).trans (List.Perm.swap x y ys)

theorem sortByKey_perm {α : Type _} (k : α → String) (l : List α) :
    (sortByKey k l).Perm l := by
  have main : ∀ (l acc : List α), (l.foldl (fun acc x => stableInsert k x acc) acc).Perm (acc ++ l) := by
    intro l
    induction l with
    | nil => intro acc; simp
    | cons x xs ih =>
      intro acc
      have h1 := ih (stableInsert k x acc)
      have h2 : (stableInsert k x acc ++ xs).Perm ((x :: acc) ++ xs) :=
        (stableInsert_perm k x acc).append_right xs
      have h3 : ((x :: acc) ++ xs).Perm (acc ++ x :: xs) := List.perm_middle.symm
      exact (h1.trans h2).trans h3
  simpa using main l []

theorem mem_sortByKey {α : Type _} {k : α → String} {l : List α} {a : α} :
    a ∈ sortByKey k l ↔ a ∈ l := (sortByKey_perm k l).mem_iff

theorem stableInsert_sorted {α : Type _} (k : α → String) (x : α) {l : List α}
    (h : KSorted k l) : KSorted k (stableInsert k x l) := by
  induction l with
  | nil => simp [stableInsert, KSorted]
  | cons y ys ih =>
    rcases (List.pairwise_cons.mp h) with ⟨hy, hys⟩
    by_cases hxy : strLt (k x) (k y)
    · have hins : stableInsert k x (y :: ys) = x :: y :: ys := by
        simp [stableInsert, hxy]
      rw [KSorted, hins]
      refine List.pairwise_cons.mpr ⟨?_, h⟩
      intro z hz
      rcases List.mem_cons.mp hz with rfl | hz'
      · exact strLt_asymm hxy
      · by_cases hzx : strLt (k z) (k x)
        · exact absurd (strLt_trans hzx hxy) (by simp [hy _ hz'])
        · simpa using hzx
    · have hins : stableInsert k x (y :: ys) = y :: stableInsert k x ys := by
        simp [stableInsert, hxy]
      rw [KSorted, hins]
      refine List.pairwise_cons.mpr ⟨?_, ih hys⟩
      intro z hz
      have hz' : z ∈ x :: ys := (stableInsert_perm k x ys).mem_iff.mp hz
      rcases List.mem_cons.mp hz' with rfl | hz''
      · simpa using hxy
      · exact hy _ hz''

theorem sortByKey_sorted {α : Type _} (k : α → String) (l : List α) :
    KSorted k (sortByKey k l) := by
  have main : ∀ (l acc : List α), KSorted k acc →
      KSorted k (l.foldl (fun acc x => stableInsert k x acc) acc) := by
    intro l
    induction l with
    | nil => intro acc h; simpa using h
    | cons x xs ih => intro acc h; exact ih _ (stableInsert_sorted k x h)
  exact main l [] List.Pairwise.nil

theorem filter_stableInsert {α : Type _} (k : α → String) (y : String) (x : α) {l : List α}
    (h : KSorted k l) :
    (stableInsert k x l).filter (fun a => k a == y) =
      if k x == y then l.filter (fun a => k a == y) ++ [x]
      else l.filter (fun a => k a == y) := by
  induction l with
  | nil => by_cases hx : k x == y <;> simp [stableInsert, List.filter, hx]
  | cons z zs ih =>
    rcases (List.pairwise_cons.mp h) with ⟨hz, hzs⟩
    by_cases hlt : strLt (k x) (k z)
    · have hins : stableInsert k x (z :: zs) = x :: z :: zs := by
        simp [stableInsert, hlt]
      rw [hins]
      by_cases hx : k x == y
      · have hkx : k x = y := by simpa [beq_iff_eq] using hx
        have hnil : (z :: zs).filter (fun a => k a == y) = [] := by
          rw [List.filter_eq_nil_iff]
          intro w hw
          simp only [beq_iff_eq]
          intro hkw
          have hwz : strLt (k w) (k z) = false := by
            rcases List.mem_cons.mp hw with rfl | hw'
            · exact strLt_irrefl _
            · exact hz _ hw'
          rw [hkw, ← hkx] at hwz
          exact absurd hlt (by simp [hwz])
        simp [List.filter_cons, hx, hnil]
      · simp [List.filter_cons, hx]
    · have hins : stableInsert k x (z :: zs) = z :: stableInsert k x zs := by
        simp [stableInsert, hlt]
      rw [hins]
      by_cases hzq : k z == y <;> by_cases hx : k x == y <;>
        simp [List.filter_cons, hzq, hx, ih hzs]

theorem filter_sortByKey {α : Type _} (k : α → String) (y : String) (l : List α) :
    (sortByKey k l).filter (fun a => k a == y) = l.filter (fun a => k a == y) := by
  have main : ∀ (l acc : List α), KSorted k acc →
      (l.foldl (fun acc x => stableInsert k x acc) acc).filter (fun a => k a == y) =
        acc.filter (fun a => k a == y) ++ l.filter (fun a => k a == y) := by
    intro l
    induction l with
    | nil => intro acc _; simp
    | cons x xs ih =>
      intro acc h
      rw [List.foldl_cons, ih _ (stableInsert_sorted k x h), filter_stableInsert k y x h]
      by_cases hx : k x == y <;> simp [List.filter_cons, hx]
  simpa using main l [] List.Pairwise.nil

/-! ## Canonical query data model (`src/types/query.ts`) -/

inductive QueryType
  | time_series
  | cross_section
  | scatter
  | ranking
deriving Repr, DecidableEq

inductive ChartType
  | line
  | bar
  | scatter
deriving Repr, DecidableEq

structure AxisConfig where
  field : String
deriving Repr, DecidableEq

structure IndicatorConfig where
  indicatorId : String
  label : String
  unit : Option String
deriving Repr, DecidableEq

/-- `TimeRange`; the source field `end` is renamed `stop` (`end` is a Lean
keyword). -/
structure TimeRange where
  start : String
  stop : String
deriving Repr, DecidableEq

structure QueryFilters where
  timeRange : TimeRange
  regionFilter : Option String
  topN : Option Nat
deriving Repr, DecidableEq

structure RenderConfig where
  chartType : ChartType
  stack : Option Bool
  logScaleY : Option Bool
deriving Repr, DecidableEq

structure CanonicalQuery where
  version : Nat
  sourceId : String
  queryType : QueryType
  title : Option String
  entities : List String
  x : Option AxisConfig
  y : List IndicatorConfig
  filters : QueryFilters
  render : RenderConfig
deriving Repr, DecidableEq

/-- `query.y[0]`.  The CanonicalQuery invariant (spec §3) guarantees `y` is
non-empty; the default is the JS `undefined`-propagation placeholder. -/
def y0 (q : CanonicalQuery) : IndicatorConfig := q.y.headD ⟨"", "", none⟩

/-! ## Normalized dataset data model (`src/types/dataset.ts`) -/

structure AttributionConfig where
  text : String
  license : String
  url : Option String
deriving Repr, DecidableEq

/-- `retrievedAt` is an ISO-8601 timestamp string in the source; it is
modelled by the numeric clock value at fetch time. -/
structure Provenance where
  sourceId : String
  sourceName : String
  queryUrl : String
  retrievedAt : Nat
  attribution : AttributionConfig
deriving Repr, DecidableEq

/-- A JS `number`, modelled exactly as the decimal `mantissa * 10 ^ exponent`
in canonical form (mantissa not divisible by 10, zero is `⟨0, 0⟩`), so that
equal decimals have equal representations and equality is kernel-computable.
IEEE-754 rounding is not modelled; the claims only propagate values. -/
structure JsNumber where
  mantissa : Int
  exponent : Int
deriving Repr, DecidableEq

/-- Canonicalization worker; the fuel only bounds the number of factor-10
strips (at most `m.natAbs`). -/
def canonGo : Nat → Int → Int → JsNumber
  | 0, m, e => ⟨m, e⟩
  | fuel + 1, m, e => if m % 10 = 0 then canonGo fuel (m / 10) (e + 1) else ⟨m, e⟩

/-- Canonical decimal: strip factors of 10 from the mantissa into the
exponent; zero is `⟨0, 0⟩`. -/
def canonJs (m e : Int) : JsNumber :=
  if m = 0 then ⟨0, 0⟩ else canonGo m.natAbs m e

instance (n : Nat) : OfNat JsNumber n := ⟨canonJs n 0⟩

/-- `{t: string, v: number|null}`. -/
structure DataPoint where
  t : String
  v : Option JsNumber
deriving Repr, DecidableEq

structure SeriesData where
  entityId : String
  entityLabel : String
  indicatorId : String
  indicatorLabel : String
  points : List DataPoint
  unit : String
deriving Repr, DecidableEq

structure TimeSeriesDataset where
  series : List SeriesData
  provenance : Provenance
deriving Repr, DecidableEq

structure CrossSectionRow where
  entityId : String
  entityLabel : String
  value : Option JsNumber
deriving Repr, DecidableEq

structure CrossSectionDataset where
  indicatorId : String
  indicatorLabel : String
  time : String
  rows : List CrossSectionRow
  unit : String
  provenance : Provenance
deriving Repr, DecidableEq

structure ScatterAxisInfo where
  indicatorId : String
  label : String
  unit : String
deriving Repr, DecidableEq

structure ScatterPoint where
  entityId : String
  entityLabel : String
  x : Option JsNumber
  y : Option JsNumber
deriving Repr, DecidableEq

structure ScatterDataset where
  time : String
  x : ScatterAxisInfo
  y : ScatterAxisInfo
  points : List ScatterPoint
  provenance : Provenance
deriving Repr, DecidableEq

/-- The tagged union; the `kind` discriminator of the source becomes the
constructor. -/
inductive NormalizedDataset
  | timeSeries (d : TimeSeriesDataset)
  | crossSection (d : CrossSectionDataset)
  | scatterData (d : ScatterDataset)
deriving Repr, DecidableEq

/-- `points.sort((a, b) => a.t.localeCompare(b.t))`. -/
def sortPointsByT (l : List DataPoint) : List DataPoint :=
  sortByKey (fun p : DataPoint => p.t) l

/-! ## Layered cache (`src/services/cache.ts`) -/

structure CacheEntry (α : Type _) where
  data : α
  timestamp : Nat
  ttl : Nat
deriving Repr, DecidableEq

/-- The two tiers of `CacheService`: the in-memory `Map` and the IndexedDB
store, each an insertion-ordered association list.  `dbFails` models the
IndexedDB operations throwing (they are wrapped in `try`/`catch` in every
method). -/
structure CacheState (α : Type _) where
  memory : List (String × CacheEntry α)
  db : List (String × CacheEntry α)
  dbFails : Bool
deriving Repr, DecidableEq

/-- `Date.now() > entry.timestamp + entry.ttl`. -/
def isExpired {α : Type _} (now : Nat) (e : CacheEntry α) : Bool :=
  decide (e.timestamp + e.ttl < now)

/-- The IndexedDB half of `CacheService.get`: reached after a memory miss or
an expired memory entry.  On a fresh persistent entry the value is promoted
into the memory tier; on an expired one the persistent entry is deleted; a
store failure is absorbed by the `catch` and falls through to `null`. -/
def dbGetPath {α : Type _} (now : Nat) (key : String) (s : CacheState α) :
    Option α × CacheState α :=
  if s.dbFails then (none, s)
  else
    match alookup key s.db with
    | some e =>
      if isExpired now e then (none, { s with db := aerase key s.db })
      else (some e.data, { s with memory := aset key e s.memory })
    | none => (none, s)

/-- `CacheService.get`: memory tier first (evicting an expired entry), then
the persistent tier. -/
def cacheGet {α : Type _} (now : Nat) (key : String) (s : CacheState α) :
    Option α × CacheState α :=
  match alookup key s.memory with
  | some e =>
    if isExpired now e then dbGetPath now key { s with memory := aerase key s.memory }
    else (some e.data, s)
  | none => dbGetPath now key s

/-- `CacheService.set`: always writes to memory; the IndexedDB write is
best-effort (a failure is caught and ignored). -/
def cacheSet {α : Type _} (now : Nat) (key : String) (data : α) (ttl : Nat)
    (s : CacheState α) : CacheState α :=
  let e : CacheEntry α := ⟨data, now, ttl⟩
  if s.dbFails then { s with memory := aset key e s.memory }
  else { s with memory := aset key e s.memory, db := aset key e s.db }

/-- `CacheService.getCacheKey`. -/
def getCacheKey (sourceId url : String) : String := sourceId ++ ":" ++ url

/-! ## `BaseAdapter.execute` (`src/data/adapters/BaseAdapter.ts`)

The template method is modelled over an abstract adapter: `buildUrl` may
throw (`Except`), `parseResponse ∘ fetch` is the deterministic transport
`net` (the claims concern the successful-fetch path), and `normalize` is the
pure normalization hook.  `FetchMetadata.retrievedAt` is the clock value. -/

structure FetchMetadata where
  queryUrl : String
  retrievedAt : Nat
deriving Repr, DecidableEq

/-- A concrete metadata value for witnesses. -/
def mdFixture : FetchMetadata := ⟨"https://api.example.org/x", 0⟩

structure AdapterModel (Raw Data : Type _) where
  sourceId : String
  buildUrl : CanonicalQuery → Except String String
  normalize : Raw → CanonicalQuery → FetchMetadata → Data
  cacheTTL : Nat

/-- Observable adapter-layer state: the cache plus counters of transport
invocations and cache lookups. -/
structure ExecState (Data : Type _) where
  cache : CacheState Data
  fetchCount : Nat
  cacheGets : Nat
deriving Repr, DecidableEq

/-- `BaseAdapter.execute`: build URL, derive the cache key, return a fresh
cached value if present, otherwise fetch, normalize, cache, return.  (The
OWID adapter overrides `execute` for its text transport but keeps this exact
cache-check/fetch/normalize/cache-write sequencing, with the same inline
`` `${id}:${url}` `` key.) -/
def executeAdapter {Raw Data : Type _} (A : AdapterModel Raw Data) (net : String → Raw)
    (q : CanonicalQuery) (now : Nat) (s : ExecState Data) :
    Except String Data × ExecState Data :=
  match A.buildUrl q with
  | .error e => (.error e, s)
  | .ok url =>
    let key := getCacheKey A.sourceId url
    let res := cacheGet now key s.cache
    let s1 : ExecState Data :=
      { cache := res.2, fetchCount := s.fetchCount, cacheGets := s.cacheGets + 1 }
    match res.1 with
    | some d => (.ok d, s1)
    | none =>
      let raw := net url
      let meta : FetchMetadata := ⟨url, now⟩
      let d := A.normalize raw q meta
      (.ok d, { s1 with
                  cache := cacheSet now key d A.cacheTTL s1.cache,
                  fetchCount := s1.fetchCount + 1 })

theorem cacheGet_none {α : Type _} {now : Nat} {key : String} {s : CacheState α}
    (hmem : alookup key s.memory = none) (hdb : alookup key s.db = none) :
    cacheGet now key s = (none, s) := by
  cases hf : s.dbFails <;> simp [cacheGet, hmem, dbGetPath, hdb, hf]

theorem cacheSet_memory_lookup {α : Type _} (now : Nat) (key : String) (data : α)
    (ttl : Nat) (s : CacheState α) :
    alookup key (cacheSet now key data ttl s).memory = some ⟨data, now, ttl⟩ := by
  cases hf : s.dbFails <;> simp [cacheSet, hf, alookup_aset_self]

/-- C4: `CacheService.get` follows the specified layered read path: a fresh
memory entry is returned as-is; an expired memory entry is evicted and the
persistent tier consulted; a fresh persistent entry is promoted into memory
and returned; an expired persistent entry is deleted from the persistent
store; when neither tier holds a fresh entry the result is `null` (a
persistent-store failure is absorbed, so `get` is total and never throws,
which the totality of `cacheGet` witnesses). -/
theorem claim_C4_cache_read_path {α : Type _} (now : Nat) (key : String) (s : CacheState α) :
    (∀ e, alookup key s.memory = some e → isExpired now e = false →
        cacheGet now key s = (some e.data, s)) ∧
    (∀ e, alookup key s.memory = some e → isExpired now e = true →
        cacheGet now key s = dbGetPath now key { s with memory := aerase key s.memory }) ∧
    (alookup key s.memory = none → cacheGet now key s = dbGetPath now key s) ∧
    (∀ e, s.dbFails = false → alookup key s.db = some e → isExpired now e = false →
        dbGetPath now key s = (some e.data, { s with memory := aset key e s.memory })) ∧
    (∀ e, s.dbFails = false → alookup key s.db = some e → isExpired now e = true →
        dbGetPath now key s = (none, { s with db := aerase key s.db })) ∧
    (s.dbFails = true → dbGetPath now key s = (none, s)) ∧
    ((∀ e, alookup key s.memory = some e → isExpired now e = true) →
      (∀ e, alookup key s.db = some e → isExpired now e = true) →
      (cacheGet now key s).1 = none) := by
  have hdbnone : ∀ (s' : CacheState α),
      (∀ e, alookup key s'.db = some e → isExpired now e = true) →
      (dbGetPath now key s').1 = none := by
    intro s' hall
    by_cases hf : s'.dbFails
    · simp [dbGetPath, hf]
    · cases hdb : alookup key s'.db with
      | none => simp [dbGetPath, hf, hdb]
      | some e => simp [dbGetPath, hf, hdb, hall e hdb]
  refine ⟨?_, ?_, ?_, ?_, ?_, ?_, ?_⟩
  · intro e he hexp; simp [cacheGet, he, hexp]
  · intro e he hexp; simp [cacheGet, he, hexp]
  · intro he; simp [cacheGet, he]
  · intro e hf he hexp; simp [dbGetPath, hf, he, hexp]
  · intro e hf he hexp; simp [dbGetPath, hf, he, hexp]
  · intro hf; simp [dbGetPath, hf]
  · intro hmem hdb
    cases hm : alookup key s.memory with
    | some e =>
      have hexp := hmem e hm
      have := hdbnone { s with memory := aerase key s.memory } (by simpa using hdb)
      simp [cacheGet, hm, hexp, this]
    | none =>
      have := hdbnone s hdb
      simp [cacheGet, hm, this]

/-- Witness for C4: promoting a fresh persistent entry on a memory miss. -/
theorem claim_C4_witness :
    cacheGet 5 "k" (⟨[], [("k", ⟨(42 : ℕ), 0, 10⟩)], false⟩ : CacheState ℕ) =
      (some 42, ⟨[("k", ⟨42, 0, 10⟩)], [("k", ⟨42, 0, 10⟩)], false⟩) := by
  have h := claim_C4_cache_read_path (α := ℕ) 5 "k" ⟨[], [("k", ⟨42, 0, 10⟩)], false⟩
  have h3 := h.2.2.1 (by rfl)
  have h4 := h.2.2.2.1 ⟨42, 0, 10⟩ rfl (by rfl) (by decide)
  rw [h3, h4]; rfl

/-- C1: on a cold cache, `execute` fetches once, writes the normalized
dataset to the cache under the key derived from `(sourceId, resolved URL)`,
and a second `execute` with the same query within the TTL window returns the
same dataset from that cache entry without invoking the fetch layer (the
transport-invocation counter does not change on the second call). -/
theorem claim_C1_execute_idempotent {Raw Data : Type _} (A : AdapterModel Raw Data)
    (net : String → Raw) (q : CanonicalQuery) (now1 now2 : Nat) (s : ExecState Data)
    (url : String) (hurl : A.buildUrl q = .ok url)
    (hmem : alookup (getCacheKey A.sourceId url) s.cache.memory = none)
    (hdb : alookup (getCacheKey A.sourceId url) s.cache.db = none)
    (hts : now2 ≤ now1 + A.cacheTTL) :
    (executeAdapter A net q now1 s).1 = .ok (A.normalize (net url) q ⟨url, now1⟩) ∧
    (executeAdapter A net q now1 s).2.fetchCount = s.fetchCount + 1 ∧
    alookup (getCacheKey A.sourceId url) (executeAdapter A net q now1 s).2.cache.memory
      = some ⟨A.normalize (net url) q ⟨url, now1⟩, now1, A.cacheTTL⟩ ∧
    (executeAdapter A net q now2 (executeAdapter A net q now1 s).2).1
      = (executeAdapter A net q now1 s).1 ∧
    (executeAdapter A net q now2 (executeAdapter A net q now1 s).2).2.fetchCount
      = (executeAdapter A net q now1 s).2.fetchCount := by
  set key := getCacheKey A.sourceId url with hk
  set d := A.normalize (net url) q ⟨url, now1⟩ with hd
  set C := cacheSet now1 key d A.cacheTTL s.cache with hC
  have hkey : cacheGet now1 key s.cache = (none, s.cache) := cacheGet_none hmem hdb
  have h1 : executeAdapter A net q now1 s =
      (.ok d, ⟨C, s.fetchCount + 1, s.cacheGets + 1⟩) := by
    simp [executeAdapter, hurl, hkey, hC, hd]
  have hlook : alookup key C.memory = some ⟨d, now1, A.cacheTTL⟩ :=
    cacheSet_memory_lookup now1 key d A.cacheTTL s.cache
  have hfresh : isExpired now2 (⟨d, now1, A.cacheTTL⟩ : CacheEntry Data) = false := by
    show decide (now1 + A.cacheTTL < now2) = false
    simp only [decide_eq_false_iff_not]
    omega
  have h2 : cacheGet now2 key C = (some d, C) := by
    simp [cacheGet, hlook, hfresh]
  have h3 : executeAdapter A net q now2 ⟨C, s.fetchCount + 1, s.cacheGets + 1⟩ =
      (.ok d, ⟨C, s.fetchCount + 1, s.cacheGets + 2⟩) := by
    simp [executeAdapter, hurl, h2]
  refine ⟨?_, ?_, ?_, ?_, ?_⟩
  · rw [h1]
  · rw [h1]
  · rw [h1]; exact hlook
  · rw [h1, h3]
  · rw [h1, h3]

/-! ## Wikidata SPARQL adapter (`src/data/adapters/WikidataAdapter.ts`)

A SPARQL binding row: each field is the optional `binding.x?.value` string
(the RDF `type`/`datatype`/`xml:lang` metadata is never consulted by the
normalizers). -/

structure SparqlBinding where
  entity : Option String
  entityLabel : Option String
  date : Option String
  value : Option String
deriving Repr, DecidableEq

/-- `uri.match(/Q\d+$/)`: the regex matches exactly when the string ends in
`Q` followed by one or more digits, and the (leftmost) match is `Q` plus the
maximal trailing digit run; no match gives `''`. -/
def extractEntityId (uri : String) : String :=
  let rcs := uri.toList.reverse
  let ds := rcs.takeWhile Char.isDigit
  if ds.isEmpty then ""
  else
    match rcs.drop ds.length with
    | 'Q' :: _ => String.mk ('Q' :: ds.reverse)
    | _ => ""

/-- `dateStr.match(/^(\d{4})/)`: the first four characters when they are all
digits. -/
def extractYear (dateStr : String) : Option String :=
  let cs := dateStr.toList.take 4
  if cs.length = 4 ∧ cs.all Char.isDigit then some (String.mk cs) else none

def isJsWhitespace (c : Char) : Bool :=
  c == ' ' || c == '\t' || c == '\n' || c == '\r'

def digitsVal (ds : List Char) : Nat :=
  ds.foldl (fun a c => a * 10 + (c.toNat - 48)) 0

/-- JS `parseFloat`: skip leading whitespace, optional sign, longest valid
`digits[.digits][e[±]digits]` prefix; no digits at all is `NaN`.  The parsed
value `±(ip.fp) * 10^exp` is represented exactly as a canonical `JsNumber`
with mantissa `±(ip ++ fp)` and exponent `exp - |fp|`.  (`Infinity` and
IEEE-754 rounding are not modelled — the claims only use whether a value
parses and its identity.) -/
def parseFloatJs (s : String) : Option JsNumber :=
  let cs := s.toList.dropWhile isJsWhitespace
  let signAndRest : Bool × List Char :=
    match cs with
    | '-' :: r => (true, r)
    | '+' :: r => (false, r)
    | _ => (false, cs)
  let neg := signAndRest.1
  let cs1 := signAndRest.2
  let ip := cs1.takeWhile Char.isDigit
  let cs2 := cs1.drop ip.length
  let fpAndRest : List Char × List Char :=
    match cs2 with
    | '.' :: r => (r.takeWhile Char.isDigit, r.drop (r.takeWhile Char.isDigit).length)
    | _ => ([], cs2)
  let fp := fpAndRest.1
  let cs3 := fpAndRest.2
  if ip.isEmpty ∧ fp.isEmpty then none
  else
    let expPart : Int :=
      match cs3 with
      | 'e' :: r | 'E' :: r =>
        match r with
        | '-' :: r2 =>
          let ds := r2.takeWhile Char.isDigit
          if ds.isEmpty then 0 else -(digitsVal ds : Int)
        | '+' :: r2 =>
          let ds := r2.takeWhile Char.isDigit
          if ds.isEmpty then 0 else (digitsVal ds : Int)
        | _ =>
          let ds := r.takeWhile Char.isDigit
          if ds.isEmpty then 0 else (digitsVal ds : Int)
      | _ => 0
    let mantNat := digitsVal (ip ++ fp)
    let mant : Int := if neg then -(mantNat : Int) else (mantNat : Int)
    some (canonJs mant (expPart - fp.length))

/-- `WikidataAdapter.parseNumericValue`: `if (!value) return null` (covers
`undefined` and the empty string), then `parseFloat` with the `NaN` check. -/
def parseNumericValue (value : Option String) : Option JsNumber :=
  match value with
  | none => none
  | some s => if s = "" then none else parseFloatJs s

/-- A successfully extracted (entity, label, year, value) tuple; bindings
with a missing/empty entity id, date, unparsable value, or unmatchable year
are skipped entirely. -/
structure WDExtract where
  entityId : String
  entityLabel : String
  t : String
  v : JsNumber
deriving Repr, DecidableEq

/-- The per-binding extraction of `normalizeTimeSeries`, including its
`continue` guards. -/
def wdExtract (b : SparqlBinding) : Option WDExtract :=
  let entityUri := b.entity.getD ""
  let entityId := extractEntityId entityUri
  let entityLabel := jsOr (b.entityLabel.getD "") entityId
  let dateStr := b.date.getD ""
  let value := parseNumericValue b.value
  if entityId = "" ∨ dateStr = "" then none
  else
    match value with
    | none => none
    | some v =>
      match extractYear dateStr with
      | none => none
      | some year => some ⟨entityId, entityLabel, year, v⟩

def wdExtracts (bindings : List SparqlBinding) : List WDExtract :=
  bindings.filterMap wdExtract

/-- Recursion worker for the grouping; the fuel (first argument) only bounds
the recursion depth so the definition stays structurally recursive.  Each
step removes at least the head, so fuel `l.length` never runs out. -/
def groupByEntityGo : Nat → List WDExtract → List (String × String × List WDExtract)
  | _, [] => []
  | 0, _ :: _ => []
  | Nat.succ n, x :: xs =>
    (x.entityId, x.entityLabel, x :: xs.filter (fun e => e.entityId == x.entityId)) ::
      groupByEntityGo n (xs.filter (fun e => !(e.entityId == x.entityId)))

/-- The `seriesByEntity` Map grouping: entities in first-occurrence order,
each carrying the label of its first binding and its extracts in response
order. -/
def groupByEntity (l : List WDExtract) : List (String × String × List WDExtract) :=
  groupByEntityGo l.length l

/-- `INDICATOR_LABELS`, with the `{label, unit}` pairs flattened. -/
def INDICATOR_LABELS : List (String × String × String) :=
  [("wikidata:population", "Population", ""),
   ("wikidata:gdp", "GDP (nominal)", "USD"),
   ("wikidata:gdp_per_capita", "GDP per capita", "USD"),
   ("wikidata:life_expectancy", "Life expectancy", "years"),
   ("wikidata:hdi", "Human Development Index", ""),
   ("wikidata:area", "Area", "km²"),
   ("wikidata:unemployment", "Unemployment rate", "%")]

/-- `INDICATOR_PROPERTY_MAP`, with the `WikidataProperties` values from the
registry inlined. -/
def INDICATOR_PROPERTY_MAP : List (String × String) :=
  [("wikidata:population", "P1082"),
   ("wikidata:gdp", "P2131"),
   ("wikidata:gdp_per_capita", "P2132"),
   ("wikidata:life_expectancy", "P2250"),
   ("wikidata:hdi", "P1081"),
   ("wikidata:area", "P2046"),
   ("wikidata:unemployment", "P1198")]

def wikidataAttribution : AttributionConfig :=
  ⟨"Source: Wikidata", "CC0", some "https://www.wikidata.org/wiki/Wikidata:Licensing"⟩

def wikidataProvenance (md : FetchMetadata) : Provenance :=
  ⟨"wikidata", "Wikidata", md.queryUrl, md.retrievedAt, wikidataAttribution⟩

/-- The year-deduplication loop over sorted points, advancing the kept point
(`uniquePoints[uniquePoints.length - 1] = point`) on a repeated year. -/
def dedupGo (cur : DataPoint) : List DataPoint → List DataPoint
  | [] => [cur]
  | q :: rest => if q.t == cur.t then dedupGo q rest else cur :: dedupGo q rest

/-- `// Remove duplicate years (keep last value)`.  The `lastYear = ''`
sentinel of the source never equals an extracted 4-digit year, so the first
point is always pushed, which is the `dedupGo` start. -/
def dedupPointsByYear : List DataPoint → List DataPoint
  | [] => []
  | p :: rest => dedupGo p rest

/-- Sort by year, then deduplicate keeping the last-seen value. -/
def wdSeriesPoints (es : List WDExtract) : List DataPoint :=
  dedupPointsByYear (sortPointsByT (es.map (fun e => ⟨e.t, some e.v⟩)))

/-- `WikidataAdapter.normalizeTimeSeries`. -/
def wdNormalizeTimeSeries (bindings : List SparqlBinding) (q : CanonicalQuery)
    (md : FetchMetadata) : TimeSeriesDataset :=
  let indicatorId := (y0 q).indicatorId
  let meta := (alookup indicatorId INDICATOR_LABELS).getD (indicatorId, "")
  { series := (groupByEntity (wdExtracts bindings)).map (fun g =>
      { entityId := g.1
        entityLabel := g.2.1
        indicatorId := indicatorId
        indicatorLabel := meta.1
        points := wdSeriesPoints g.2.2
        unit := jsOr ((y0 q).unit.getD "") meta.2 })
    provenance := wikidataProvenance md }

theorem dedupGo_subset : ∀ (rest : List DataPoint) (cur x : DataPoint),
    x ∈ dedupGo cur rest → x ∈ cur :: rest := by
  intro rest
  induction rest with
  | nil => intro cur x hx; simpa [dedupGo] using hx
  | cons q rs ih =>
    intro cur x hx
    rw [dedupGo] at hx
    by_cases hq : q.t == cur.t
    · rw [if_pos hq] at hx
      rcases List.mem_cons.mp (ih q x hx) with rfl | h3
      · exact List.mem_cons_of_mem _ (List.mem_cons_self _ _)
      · exact List.mem_cons_of_mem _ (List.mem_cons_of_mem _ h3)
    · rw [if_neg hq] at hx
      rcases List.mem_cons.mp hx with rfl | h3
      · exact List.mem_cons_self _ _
      · rcases List.mem_cons.mp (ih q x h3) with rfl | h4
        · exact List.mem_cons_of_mem _ (List.mem_cons_self _ _)
        · exact List.mem_cons_of_mem _ (List.mem_cons_of_mem _ h4)

theorem dedupPoints_subset {l : List DataPoint} {x : DataPoint}
    (hx : x ∈ dedupPointsByYear l) : x ∈ l := by
  cases l with
  | nil => simp [dedupPointsByYear] at hx
  | cons p rest => exact dedupGo_subset rest p x (by simpa [dedupPointsByYear] using hx)

theorem getLast?_map {α β : Type _} (f : α → β) : ∀ (l : List α),
    (l.map f).getLast? = l.getLast?.map f := by
  intro l
  induction l with
  | nil => rfl
  | cons a as ih =>
    cases as with
    | nil => rfl
    | cons b bs => simpa [List.getLast?_cons_cons] using ih

theorem dedupGo_filter (y : String) : ∀ (rest : List DataPoint) (cur : DataPoint),
    KSorted (fun p : DataPoint => p.t) (cur :: rest) →
    (dedupGo cur rest).filter (fun p => p.t == y) =
      ((cur :: rest).filter (fun p => p.t == y)).getLast?.toList := by
  intro rest
  induction rest with
  | nil =>
    intro cur _
    by_cases hc : cur.t == y <;> simp [dedupGo, List.filter_cons, hc]
  | cons q rs ih =>
    intro cur hsort
    rcases List.pairwise_cons.mp hsort with ⟨hcur, hq⟩
    rw [dedupGo]
    by_cases hqc : q.t == cur.t
    · rw [if_pos hqc]
      have heqt : q.t = cur.t := by simpa using hqc
      rw [ih q hq]
      by_cases hcy : cur.t == y
      · have hqy : (q.t == y) = true := by rw [heqt]; exact hcy
        simp [List.filter_cons, hcy, hqy, List.getLast?_cons_cons]
      · have hqy : (q.t == y) = false := by rw [heqt]; simpa using hcy
        simp [List.filter_cons, (by simpa using hcy : (cur.t == y) = false), hqy]
    · rw [if_neg hqc]
      have hne : cur.t ≠ q.t := fun h => hqc (by simp [h])
      by_cases hcy : cur.t == y
      · have hcy' : cur.t = y := by simpa using hcy
        have hfilter_nil : (q :: rs).filter (fun p => p.t == y) = [] := by
          rw [List.filter_eq_nil_iff]
          intro z hz
          simp only [beq_iff_eq]
          intro hzy
          have h1 : strLt q.t cur.t = false := hcur q (List.mem_cons_self _ _)
          rcases List.mem_cons.mp hz with rfl | hz'
          · exact hne (by rw [hcy', hzy])
          · have h2 : strLt z.t q.t = false := (List.pairwise_cons.mp hq).1 z hz'
            have hzc : z.t = cur.t := by rw [hzy, hcy']
            have h3 : strLt cur.t q.t = false := hzc ▸ h2
            exact hne (str_eq_of_not_lt h3 h1)
        simp [List.filter_cons, hcy, ih q hq, hfilter_nil]
      · simp [List.filter_cons, (by simpa using hcy : (cur.t == y) = false), ih q hq]

theorem dedupPointsByYear_filter {l : List DataPoint}
    (h : KSorted (fun p : DataPoint => p.t) l) (y : String) :
    (dedupPointsByYear l).filter (fun p => p.t == y) =
      (l.filter (fun p => p.t == y)).getLast?.toList := by
  cases l with
  | nil => rfl
  | cons p rest => exact dedupGo_filter y rest p h

theorem wdSeriesPoints_filter (es : List WDExtract) (y : String) :
    (wdSeriesPoints es).filter (fun p => p.t == y) =
      ((es.filter (fun e => e.t == y)).getLast?.map
        (fun e => (⟨e.t, some e.v⟩ : DataPoint))).toList := by
  rw [wdSeriesPoints]
  rw [show sortPointsByT (es.map fun e => (⟨e.t, some e.v⟩ : DataPoint)) =
    sortByKey (fun p : DataPoint => p.t) (es.map fun e => (⟨e.t, some e.v⟩ : DataPoint))
    from rfl]
  rw [dedupPointsByYear_filter (sortByKey_sorted _ _) y]
  rw [filter_sortByKey (fun p : DataPoint => p.t) y]
  rw [List.filter_map, getLast?_map]
  rfl

theorem groupByEntity_spec (l : List WDExtract) :
    ∀ g ∈ groupByEntity l, g.2.2 ≠ [] ∧ g.2.2 = l.filter (fun e => e.entityId == g.1) := by
  have main : ∀ (n : Nat) (l : List WDExtract), l.length ≤ n →
      ∀ g ∈ groupByEntityGo n l, g.2.2 ≠ [] ∧
        g.2.2 = l.filter (fun e => e.entityId == g.1) := by
    intro n
    induction n with
    | zero =>
      intro l hl g hg
      have : l = [] := List.length_eq_zero.mp (Nat.le_zero.mp hl)
      subst this
      simp [groupByEntityGo] at hg
    | succ m ih =>
      intro l hl g hg
      cases l with
      | nil => simp [groupByEntityGo] at hg
      | cons x xs =>
        rw [groupByEntityGo] at hg
        rcases List.mem_cons.mp hg with rfl | hg'
        · refine ⟨by simp, ?_⟩
          rw [List.filter_cons_of_pos (by simp)]
        · have hlen : (xs.filter (fun e => !(e.entityId == x.entityId))).length ≤ m := by
            have h1 := List.length_filter_le (fun e => !(e.entityId == x.entityId)) xs
            have h2 : xs.length ≤ m := by simpa using hl
            omega
          obtain ⟨hne, heq⟩ := ih _ hlen g hg'
          refine ⟨hne, ?_⟩
          have hkey : g.1 ≠ x.entityId := by
            obtain ⟨z, hz⟩ := List.exists_mem_of_ne_nil g.2.2 hne
            rw [heq] at hz
            have h1 := List.mem_filter.mp hz
            have h2 := List.mem_filter.mp h1.1
            intro hcon
            have hzg : z.entityId = g.1 := by simpa using h1.2
            have hzx : ¬ z.entityId = x.entityId := by simpa using h2.2
            exact hzx (by rw [hzg, hcon])
          rw [heq, List.filter_cons_of_neg (by simpa using fun h => hkey h.symm),
            List.filter_filter]
          apply List.filter_congr
          intro e _
          by_cases hez : e.entityId == g.1
          · have heg : e.entityId = g.1 := by simpa using hez
            have : ¬ (e.entityId == x.entityId) := by
              simpa [heg] using hkey
            simp [hez, this]
          · simp [hez]
  intro g hg
  exact main l.length l (le_refl _) g hg

/-- C6: each series of a Wikidata time-series normalization has, for every
year `y`, exactly the last-in-response-order valid binding for that entity
and year as its single point with `t = y` (or no such point when the year
never occurs): last-write-wins deduplication, at most one point per year. -/
theorem claim_C6_wd_dedup_last_write_wins (bindings : List SparqlBinding)
    (q : CanonicalQuery) (md : FetchMetadata) :
    ∀ s ∈ (wdNormalizeTimeSeries bindings q md).series, ∀ y : String,
      s.points.filter (fun p => p.t == y) =
        (((wdExtracts bindings).filter
            (fun e => e.entityId == s.entityId && e.t == y)).getLast?.map
          (fun e => (⟨e.t, some e.v⟩ : DataPoint))).toList := by
  intro s hs y
  rcases List.mem_map.mp hs with ⟨g, hg, hseq⟩
  obtain ⟨-, hgeq⟩ := groupByEntity_spec (wdExtracts bindings) g hg
  subst hseq
  show (wdSeriesPoints g.2.2).filter (fun p => p.t == y) =
    (((wdExtracts bindings).filter
        (fun e => e.entityId == g.1 && e.t == y)).getLast?.map
      (fun e => (⟨e.t, some e.v⟩ : DataPoint))).toList
  rw [wdSeriesPoints_filter, hgeq, List.filter_filter]
  have hcomm : ∀ e : WDExtract,
      (e.t == y && e.entityId == g.1) = (e.entityId == g.1 && e.t == y) :=
    fun e => Bool.and_comm _ _
  rw [List.filter_congr (fun e _ => hcomm e)]

/-- C10: no point emitted by the Wikidata time-series normalization carries
`v = null` — a binding with a missing or unparsable value is skipped, never
emitted as a null-valued point. -/
theorem claim_C10_wd_points_never_null (bindings : List SparqlBinding)
    (q : CanonicalQuery) (md : FetchMetadata) :
    ∀ s ∈ (wdNormalizeTimeSeries bindings q md).series, ∀ p ∈ s.points, p.v ≠ none := by
  intro s hs p hp
  rcases List.mem_map.mp hs with ⟨g, hg, hseq⟩
  subst hseq
  have hp' : p ∈ wdSeriesPoints g.2.2 := hp
  have hp2 : p ∈ sortPointsByT (g.2.2.map (fun e => (⟨e.t, some e.v⟩ : DataPoint))) :=
    dedupPoints_subset hp'
  have hp3 : p ∈ g.2.2.map (fun e => (⟨e.t, some e.v⟩ : DataPoint)) :=
    (mem_sortByKey (k := fun p : DataPoint => p.t)).mp hp2
  rcases List.mem_map.mp hp3 with ⟨e, -, hpe⟩
  rw [← hpe]
  simp

/-- Fixture bindings for Q183 (Germany): two statements for year 2022 with
different values, plus one unparsable binding that must be skipped. -/
def wdB1 : SparqlBinding :=
  ⟨some "http://www.wikidata.org/entity/Q183", some "Germany",
    some "2022-01-01T00:00:00Z", some "83000000"⟩

def wdB2 : SparqlBinding :=
  ⟨some "http://www.wikidata.org/entity/Q183", some "Germany",
    some "2022-06-01T00:00:00Z", some "83200000"⟩

def wdQuery : CanonicalQuery :=
  ⟨1, "wikidata", .time_series, none, ["DEU"],
    none, [⟨"wikidata:population", "Population", none⟩],
    ⟨⟨"2020", "2023"⟩, none, none⟩, ⟨.line, none, none⟩⟩

/-- Witness for C6: the two Q183/2022 bindings normalize to exactly one
point for `t = '2022'` holding the later-seen value. -/
theorem claim_C6_witness :
    (⟨"Q183", "Germany", "wikidata:population", "Population",
        [⟨"2022", some 83200000⟩], ""⟩ : SeriesData) ∈
      (wdNormalizeTimeSeries [wdB1, wdB2] wdQuery mdFixture).series ∧
    (([(⟨"2022", some 83200000⟩ : DataPoint)]).filter (fun p => p.t == "2022") =
      (((wdExtracts [wdB1, wdB2]).filter
          (fun e => e.entityId == "Q183" && e.t == "2022")).getLast?.map
        (fun e => (⟨e.t, some e.v⟩ : DataPoint))).toList) := by
  have hm : (⟨"Q183", "Germany", "wikidata:population", "Population",
      [⟨"2022", some 83200000⟩], ""⟩ : SeriesData) ∈
      (wdNormalizeTimeSeries [wdB1, wdB2] wdQuery mdFixture).series := by decide
  exact ⟨hm, claim_C6_wd_dedup_last_write_wins [wdB1, wdB2] wdQuery mdFixture _ hm "2022"⟩

/-- Witness for C10: a point of the normalized Q183 series has a non-null
value. -/
theorem claim_C10_witness : (⟨"2022", some 83000000⟩ : DataPoint).v ≠ none :=
  claim_C10_wd_points_never_null [wdB1] wdQuery mdFixture
    ⟨"Q183", "Germany", "wikidata:population", "Population",
      [⟨"2022", some 83000000⟩], ""⟩
    (by decide) ⟨"2022", some 83000000⟩ (by decide)

/-! ## Percent-encoding (`encodeURIComponent` / `decodeURIComponent`)

The URL-state codec and the SPARQL URL builder use the platform's
`encodeURIComponent`/`decodeURIComponent`; they are modelled from their
ECMAScript specification: unreserved characters (`A–Z a–z 0–9 - _ . ! ~ * '
( )`) pass through, every other character becomes the `%XX` uppercase-hex
encoding of each of its UTF-8 bytes. -/

/-- The UTF-8 bytes of a scalar value. -/
def utf8Bytes (c : Char) : List Nat :=
  let n := c.toNat
  if n < 0x80 then [n]
  else if n < 0x800 then [0xC0 + n / 64, 0x80 + n % 64]
  else if n < 0x10000 then [0xE0 + n / 4096, 0x80 + n / 64 % 64, 0x80 + n % 64]
  else [0xF0 + n / 262144, 0x80 + n / 4096 % 64, 0x80 + n / 64 % 64, 0x80 + n % 64]

/-- Uppercase hex digit (as emitted by `encodeURIComponent`). -/
def hexDigitChar (n : Nat) : Char :=
  if n < 10 then Char.ofNat (48 + n) else Char.ofNat (55 + n)

/-- Value of a hex digit (either case), `none` otherwise. -/
def hexVal (c : Char) : Option Nat :=
  if 48 ≤ c.toNat ∧ c.toNat ≤ 57 then some (c.toNat - 48)
  else if 65 ≤ c.toNat ∧ c.toNat ≤ 70 then some (c.toNat - 55)
  else if 97 ≤ c.toNat ∧ c.toNat ≤ 102 then some (c.toNat - 87)
  else none

/-- `encodeURIComponent`'s unreserved set `[A-Za-z0-9-_.!~*'()]` (39 is the
apostrophe). -/
def isUriUnreserved (c : Char) : Bool :=
  c.isAlpha || c.isDigit || c == '-' || c == '_' || c == '.' || c == '!' ||
    c == '~' || c == '*' || c == Char.ofNat 39 || c == '(' || c == ')'

def pctEncodeChar (c : Char) : List Char :=
  if isUriUnreserved c then [c]
  else (utf8Bytes c).flatMap (fun b => ['%', hexDigitChar (b / 16), hexDigitChar (b % 16)])

def encodeURIComponent (s : String) : String :=
  String.mk (s.toList.flatMap pctEncodeChar)

/-- A lexed component: a percent-decoded byte or a literal character. -/
inductive PctTok
  | byte (b : Nat)
  | chr (c : Char)
deriving Repr, DecidableEq

/-- First pass of `decodeURIComponent`: turn every `%XX` triplet into a
byte, pass other characters through; malformed `%` sequences throw
(`URIError`), modelled as `none`. -/
def pctTokenize : List Char → Option (List PctTok)
  | [] => some []
  | c :: rest =>
    if c = '%' then
      match rest with
      | h1 :: h2 :: rest2 =>
        match hexVal h1, hexVal h2 with
        | some a, some b => (pctTokenize rest2).map (fun ts => .byte (a * 16 + b) :: ts)
        | _, _ => none
      | _ => none
    else (pctTokenize rest).map (fun ts => .chr c :: ts)

/-- Second pass of `decodeURIComponent`: UTF-8-decode byte runs as a state
machine (`need` pending continuation bytes, `acc` the partial scalar value);
continuation bytes must be in `[0x80, 0xC0)`; literal characters pass
through; malformed sequences are `none`. -/
def pctDetokGo : List PctTok → Nat → Nat → Option (List Char)
  | [], 0, _ => some []
  | [], _+1, _ => none
  | .chr c :: ts, 0, _ => (pctDetokGo ts 0 0).map (fun l => c :: l)
  | .chr _ :: _, _+1, _ => none
  | .byte b :: ts, 0, _ =>
    if b < 0x80 then (pctDetokGo ts 0 0).map (fun l => Char.ofNat b :: l)
    else if b < 0xC0 then none
    else if b < 0xE0 then pctDetokGo ts 1 (b - 0xC0)
    else if b < 0xF0 then pctDetokGo ts 2 (b - 0xE0)
    else if b < 0xF8 then pctDetokGo ts 3 (b - 0xF0)
    else none
  | .byte b :: ts, 1, acc =>
    if 0x80 ≤ b ∧ b < 0xC0 then
      (pctDetokGo ts 0 0).map (fun l => Char.ofNat (acc * 64 + (b - 0x80)) :: l)
    else none
  | .byte b :: ts, n+2, acc =>
    if 0x80 ≤ b ∧ b < 0xC0 then pctDetokGo ts (n + 1) (acc * 64 + (b - 0x80))
    else none

def decodeURIComponentStr (s : String) : Option String :=
  (pctTokenize s.toList).bind (fun ts => (pctDetokGo ts 0 0).map String.mk)

/-! ## OWID adapter `buildUrl` (`src/data/adapters/OWIDAdapter.ts`) -/

structure OwidDataset where
  path : String
  valueColumn : String
  unit : String
deriving Repr, DecidableEq

/-- `owidDatasets` from the registry. -/
def owidDatasets : List (String × OwidDataset) :=
  [("life-expectancy",
    ⟨"Life%20expectancy/Life%20expectancy", "Life expectancy (years)", "years"⟩),
   ("co2-emissions",
    ⟨"CO%E2%82%82%20emissions/CO%E2%82%82%20emissions", "Annual CO₂ emissions", "tonnes"⟩),
   ("gdp-per-capita",
    ⟨"GDP%20per%20capita%20-%20Maddison%20Project%20Database%202020/GDP%20per%20capita%20-%20Maddison%20Project%20Database%202020",
      "GDP per capita", "international-$"⟩),
   ("energy-consumption",
    ⟨"Primary%20energy%20consumption/Primary%20energy%20consumption",
      "Primary energy consumption (TWh)", "TWh"⟩),
   ("renewable-energy-share",
    ⟨"Share%20of%20electricity%20from%20renewables/Share%20of%20electricity%20from%20renewables",
      "Renewables (% electricity)", "%"⟩)]

def owidBaseUrl : String :=
  "https://raw.githubusercontent.com/owid/owid-datasets/master"

/-- `OWIDAdapter.buildUrl`: unknown dataset ids throw synchronously.  (An
empty `y` in JS reads `y[0].indicatorId` as `undefined`, which also misses
the table; `y0`'s `""` default plays that role.) -/
def owidBuildUrl (q : CanonicalQuery) : Except String String :=
  let indicatorId := (y0 q).indicatorId
  match alookup indicatorId owidDatasets with
  | none => .error ("Unknown OWID dataset: " ++ indicatorId)
  | some ds => .ok (owidBaseUrl ++ "/datasets/" ++ ds.path ++ ".csv")

/-! ## Wikidata `buildUrl` / `buildSparqlQuery` -/

def wikidataPointInTime : String := "P585"

def wikidataSovereignState : String := "Q3624078"

def wikidataBaseUrl : String := "https://query.wikidata.org"

/-- `` `${parseInt(s)}` `` for the time-range strings interpolated into the
SPARQL text: decimal value of the (signed) digit prefix, or `NaN`. -/
def jsParseIntStr (s : String) : String :=
  let cs := s.toList.dropWhile isJsWhitespace
  let negAndRest : Bool × List Char :=
    match cs with
    | '-' :: r => (true, r)
    | '+' :: r => (false, r)
    | _ => (false, cs)
  let ds := negAndRest.2.takeWhile Char.isDigit
  if ds.isEmpty then "NaN"
  else (if negAndRest.1 then "-" else "") ++ Nat.repr (digitsVal ds)

/-- The `entityFilter` template: a `VALUES ?iso3 { ... }` block for specific
entities, or the sovereign-state triple for `ALL`/empty. -/
def wdEntityFilter (entities : List String) : String :=
  if entities.length > 0 ∧ entities.headD "" ≠ "ALL" then
    let entityValues := String.intercalate " " (entities.map (fun e => "\"" ++ e ++ "\""))
    "\n        VALUES ?iso3 \x7b " ++ entityValues ++ " \x7d\n        ?entity wdt:P298 ?iso3 .\n      "
  else "?entity wdt:P31 wd:" ++ wikidataSovereignState ++ " ."

/-- `WikidataAdapter.buildSparqlQuery`: the static indicator → property
lookup throws on a miss, before any URL exists. -/
def buildSparqlQuery (q : CanonicalQuery) : Except String String :=
  let indicatorId := (y0 q).indicatorId
  match alookup indicatorId INDICATOR_PROPERTY_MAP with
  | none => .error ("Unknown indicator: " ++ indicatorId)
  | some propertyId =>
    let start := q.filters.timeRange.start
    let stop := q.filters.timeRange.stop
    let entityFilter := wdEntityFilter q.entities
    if q.queryType = .time_series then
      .ok ("\n        SELECT ?entity ?entityLabel ?date ?value WHERE \x7b\n          "
        ++ entityFilter
        ++ "\n          ?entity p:" ++ propertyId ++ " ?statement .\n          ?statement ps:"
        ++ propertyId ++ " ?value .\n          ?statement pq:" ++ wikidataPointInTime
        ++ " ?date .\n\n          FILTER(YEAR(?date) >= " ++ jsParseIntStr start
        ++ " && YEAR(?date) <= " ++ jsParseIntStr stop
        ++ ")\n\n          SERVICE wikibase:label \x7b bd:serviceParam wikibase:language \"en\". \x7d\n        \x7d\n        ORDER BY ?entity ?date\n      ")
    else
      .ok ("\n      SELECT ?entity ?entityLabel ?value ?date WHERE \x7b\n        "
        ++ entityFilter
        ++ "\n        ?entity p:" ++ propertyId ++ " ?statement .\n        ?statement ps:"
        ++ propertyId ++ " ?value .\n        OPTIONAL \x7b ?statement pq:" ++ wikidataPointInTime
        ++ " ?date . \x7d\n\n        SERVICE wikibase:label \x7b bd:serviceParam wikibase:language \"en\". \x7d\n      \x7d\n      ORDER BY DESC(?date)\n    ")

/-- `WikidataAdapter.buildUrl`: the SPARQL text URI-encoded into the query
string; a `buildSparqlQuery` throw propagates before any fetch. -/
def wikidataBuildUrl (q : CanonicalQuery) : Except String String :=
  (buildSparqlQuery q).map (fun sparql =>
    wikidataBaseUrl ++ "/sparql?format=json&query=" ++ encodeURIComponent sparql)

/-- C7: a query whose first `y` indicator id is in neither static mapping
table makes the Wikidata and OWID `buildUrl`s throw synchronously, and the
`execute` template propagates that error untouched — the state (cache,
cache-lookup counter, transport counter) is exactly the input state, so no
cache lookup and no fetch ever happens. -/
theorem claim_C7_unknown_indicator_fails_fast (q : CanonicalQuery)
    (hwd : alookup (y0 q).indicatorId INDICATOR_PROPERTY_MAP = none)
    (howid : alookup (y0 q).indicatorId owidDatasets = none) :
    wikidataBuildUrl q = .error ("Unknown indicator: " ++ (y0 q).indicatorId) ∧
    owidBuildUrl q = .error ("Unknown OWID dataset: " ++ (y0 q).indicatorId) ∧
    (∀ (Raw Data : Type) (A : AdapterModel Raw Data), A.buildUrl = wikidataBuildUrl →
      ∀ (net : String → Raw) (now : Nat) (s : ExecState Data),
        executeAdapter A net q now s =
          (.error ("Unknown indicator: " ++ (y0 q).indicatorId), s)) ∧
    (∀ (Raw Data : Type) (A : AdapterModel Raw Data), A.buildUrl = owidBuildUrl →
      ∀ (net : String → Raw) (now : Nat) (s : ExecState Data),
        executeAdapter A net q now s =
          (.error ("Unknown OWID dataset: " ++ (y0 q).indicatorId), s)) := by
  have hwurl : wikidataBuildUrl q = .error ("Unknown indicator: " ++ (y0 q).indicatorId) := by
    simp [wikidataBuildUrl, buildSparqlQuery, hwd, Except.map]
  have hourl : owidBuildUrl q = .error ("Unknown OWID dataset: " ++ (y0 q).indicatorId) := by
    simp [owidBuildUrl, howid]
  refine ⟨hwurl, hourl, ?_, ?_⟩
  · intro Raw Data A hA net now s
    simp [executeAdapter, hA, hwurl]
  · intro Raw Data A hA net now s
    simp [executeAdapter, hA, hourl]

/-- Query with the unmapped indicator id `unknown:thing`. -/
def unknownQuery : CanonicalQuery :=
  ⟨1, "wikidata", .time_series, none, ["DEU"],
    none, [⟨"unknown:thing", "Mystery", none⟩],
    ⟨⟨"2000", "2020"⟩, none, none⟩, ⟨.line, none, none⟩⟩

/-- Witness for C7: building a URL for `unknown:thing` throws in both
adapters and `execute` leaves the state untouched. -/
theorem claim_C7_witness :
    wikidataBuildUrl unknownQuery = .error "Unknown indicator: unknown:thing" ∧
    owidBuildUrl unknownQuery = .error "Unknown OWID dataset: unknown:thing" ∧
    executeAdapter ⟨"wikidata", wikidataBuildUrl, fun (r : Nat) _ _ => r, 10⟩
        (fun _ => 0) unknownQuery 0 ⟨⟨[], [], false⟩, 0, 0⟩ =
      (.error "Unknown indicator: unknown:thing", ⟨⟨[], [], false⟩, 0, 0⟩) := by
  have h := claim_C7_unknown_indicator_fails_fast unknownQuery rfl rfl
  exact ⟨h.1, h.2.1, h.2.2.1 Nat Nat _ rfl (fun _ => 0) 0 ⟨⟨[], [], false⟩, 0, 0⟩⟩

/-! ## Curated catalog (`src/data/catalog/curated-indicators.ts`) -/

structure ExampleQuery where
  queryType : QueryType
  entities : List String
  timeRange : TimeRange
deriving Repr, DecidableEq

structure CatalogEntry where
  sourceId : String
  sourceName : String
  datasetId : String
  indicatorId : String
  title : String
  description : String
  unit : String
  topics : List String
  geography : String
  timeCoverage : Option TimeRange
  exampleQuery : Option ExampleQuery
deriving Repr, DecidableEq

/-- The first curated entry, named so witnesses can refer to it. -/
def wbGdpPcap : CatalogEntry :=
  { sourceId := "worldbank", sourceName := "World Bank Indicators"
    datasetId := "indicators", indicatorId := "NY.GDP.PCAP.CD"
    title := "GDP per capita (current US$)"
    description := "GDP per capita is gross domestic product divided by midyear population."
    unit := "current US$", topics := ["economy", "macroeconomics"]
    geography := "country", timeCoverage := some ⟨"1960", "2023"⟩
    exampleQuery := some ⟨.time_series, ["DEU", "FRA", "USA"], ⟨"2000", "2023"⟩⟩ }

def curatedIndicators : List CatalogEntry :=
  [wbGdpPcap,
   { sourceId := "worldbank", sourceName := "World Bank Indicators"
     datasetId := "indicators", indicatorId := "FP.CPI.TOTL.ZG"
     title := "Inflation, consumer prices (annual %)"
     description := "Inflation as measured by the consumer price index."
     unit := "%", topics := ["economy", "prices"]
     geography := "country", timeCoverage := some ⟨"1960", "2023"⟩
     exampleQuery := some ⟨.time_series, ["DEU", "USA"], ⟨"2010", "2023"⟩⟩ },
   { sourceId := "worldbank", sourceName := "World Bank Indicators"
     datasetId := "indicators", indicatorId := "SL.UEM.TOTL.ZS"
     title := "Unemployment, total (% of total labor force)"
     description := "Unemployment refers to the share of the labor force that is without work."
     unit := "%", topics := ["economy", "labor"]
     geography := "country", timeCoverage := some ⟨"1991", "2023"⟩
     exampleQuery := some ⟨.time_series, ["DEU", "FRA", "ESP"], ⟨"2000", "2023"⟩⟩ },
   { sourceId := "worldbank", sourceName := "World Bank Indicators"
     datasetId := "indicators", indicatorId := "SP.DYN.LE00.IN"
     title := "Life expectancy at birth, total (years)"
     description := "Life expectancy at birth indicates the number of years a newborn infant would live."
     unit := "years", topics := ["health", "demographics"]
     geography := "country", timeCoverage := some ⟨"1960", "2022"⟩
     exampleQuery := some ⟨.time_series, ["DEU", "JPN", "USA"], ⟨"1990", "2022"⟩⟩ },
   { sourceId := "worldbank", sourceName := "World Bank Indicators"
     datasetId := "indicators", indicatorId := "SP.DYN.IMRT.IN"
     title := "Mortality rate, infant (per 1,000 live births)"
     description := "Infant mortality rate is the number of infants dying before reaching one year of age."
     unit := "per 1,000 live births", topics := ["health", "demographics"]
     geography := "country", timeCoverage := some ⟨"1960", "2022"⟩
     exampleQuery := some ⟨.time_series, ["DEU", "IND", "NGA"], ⟨"1990", "2022"⟩⟩ },
   { sourceId := "worldbank", sourceName := "World Bank Indicators"
     datasetId := "indicators", indicatorId := "EG.USE.ELEC.KH.PC"
     title := "Electric power consumption (kWh per capita)"
     description := "Electric power consumption measures the production of power plants and combined heat and power plants."
     unit := "kWh per capita", topics := ["energy", "infrastructure"]
     geography := "country", timeCoverage := some ⟨"1960", "2014"⟩
     exampleQuery := some ⟨.time_series, ["DEU", "CHN", "USA"], ⟨"1990", "2014"⟩⟩ },
   { sourceId := "worldbank", sourceName := "World Bank Indicators"
     datasetId := "indicators", indicatorId := "EG.FEC.RNEW.ZS"
     title := "Renewable energy consumption (% of total)"
     description := "Renewable energy consumption is the share of renewable energy in total final energy consumption."
     unit := "%", topics := ["energy", "environment"]
     geography := "country", timeCoverage := some ⟨"1990", "2021"⟩
     exampleQuery := some ⟨.time_series, ["DEU", "DNK", "USA"], ⟨"2000", "2021"⟩⟩ },
   { sourceId := "worldbank", sourceName := "World Bank Indicators"
     datasetId := "indicators", indicatorId := "EN.ATM.CO2E.PC"
     title := "CO2 emissions (metric tons per capita)"
     description := "Carbon dioxide emissions are those stemming from the burning of fossil fuels."
     unit := "metric tons per capita", topics := ["environment", "climate"]
     geography := "country", timeCoverage := some ⟨"1960", "2020"⟩
     exampleQuery := some ⟨.time_series, ["DEU", "CHN", "USA", "IND"], ⟨"1990", "2020"⟩⟩ },
   { sourceId := "owid", sourceName := "Our World in Data"
     datasetId := "owid", indicatorId := "life-expectancy"
     title := "Life expectancy"
     description := "Period life expectancy at birth, measured in years."
     unit := "years", topics := ["health", "demographics"]
     geography := "country", timeCoverage := some ⟨"1543", "2021"⟩
     exampleQuery := some ⟨.time_series, ["Germany", "France", "United States"], ⟨"1950", "2021"⟩⟩ },
   { sourceId := "owid", sourceName := "Our World in Data"
     datasetId := "owid", indicatorId := "renewable-energy-share"
     title := "Share of electricity from renewables"
     description := "Share of electricity production from renewable sources."
     unit := "%", topics := ["energy", "environment"]
     geography := "country", timeCoverage := some ⟨"1965", "2022"⟩
     exampleQuery := some ⟨.time_series, ["Germany", "Denmark", "United States"], ⟨"2000", "2022"⟩⟩ },
   { sourceId := "owid", sourceName := "Our World in Data"
     datasetId := "owid", indicatorId := "energy-consumption"
     title := "Primary energy consumption"
     description := "Primary energy consumption, measured in terawatt-hours."
     unit := "TWh", topics := ["energy"]
     geography := "country", timeCoverage := some ⟨"1965", "2022"⟩
     exampleQuery := some ⟨.time_series, ["Germany", "China", "United States"], ⟨"1990", "2022"⟩⟩ },
   { sourceId := "eurostat", sourceName := "Eurostat"
     datasetId := "eurostat", indicatorId := "nama_10_gdp"
     title := "GDP and main components"
     description := "Gross domestic product at market prices for EU countries."
     unit := "million EUR", topics := ["economy", "macroeconomics"]
     geography := "country", timeCoverage := some ⟨"1975", "2023"⟩
     exampleQuery := some ⟨.time_series, ["DE", "FR", "IT"], ⟨"2000", "2023"⟩⟩ },
   { sourceId := "eurostat", sourceName := "Eurostat"
     datasetId := "eurostat", indicatorId := "nrg_bal_c"
     title := "Energy balances"
     description := "Complete energy balances for EU countries."
     unit := "TJ", topics := ["energy"]
     geography := "country", timeCoverage := some ⟨"1990", "2022"⟩
     exampleQuery := some ⟨.time_series, ["DE", "FR"], ⟨"2010", "2022"⟩⟩ },
   { sourceId := "wikidata", sourceName := "Wikidata"
     datasetId := "wikidata", indicatorId := "wikidata:population"
     title := "Population"
     description := "Total population of countries from Wikidata."
     unit := "", topics := ["demographics", "society"]
     geography := "country", timeCoverage := some ⟨"1900", "2023"⟩
     exampleQuery := some ⟨.time_series, ["DEU", "FRA", "USA"], ⟨"2000", "2023"⟩⟩ },
   { sourceId := "wikidata", sourceName := "Wikidata"
     datasetId := "wikidata", indicatorId := "wikidata:gdp"
     title := "GDP (nominal)"
     description := "Gross domestic product in nominal terms from Wikidata."
     unit := "USD", topics := ["economy", "macroeconomics"]
     geography := "country", timeCoverage := some ⟨"1960", "2023"⟩
     exampleQuery := some ⟨.time_series, ["DEU", "FRA", "USA"], ⟨"2000", "2023"⟩⟩ },
   { sourceId := "wikidata", sourceName := "Wikidata"
     datasetId := "wikidata", indicatorId := "wikidata:gdp_per_capita"
     title := "GDP per capita"
     description := "Gross domestic product per capita from Wikidata."
     unit := "USD", topics := ["economy", "macroeconomics"]
     geography := "country", timeCoverage := some ⟨"1960", "2023"⟩
     exampleQuery := some ⟨.time_series, ["DEU", "FRA", "USA"], ⟨"2000", "2023"⟩⟩ },
   { sourceId := "wikidata", sourceName := "Wikidata"
     datasetId := "wikidata", indicatorId := "wikidata:life_expectancy"
     title := "Life expectancy"
     description := "Life expectancy at birth from Wikidata."
     unit := "years", topics := ["health", "demographics"]
     geography := "country", timeCoverage := some ⟨"1950", "2023"⟩
     exampleQuery := some ⟨.time_series, ["DEU", "JPN", "USA"], ⟨"1990", "2023"⟩⟩ },
   { sourceId := "wikidata", sourceName := "Wikidata"
     datasetId := "wikidata", indicatorId := "wikidata:hdi"
     title := "Human Development Index"
     description := "Human Development Index (HDI) from Wikidata."
     unit := "", topics := ["development", "society"]
     geography := "country", timeCoverage := some ⟨"1990", "2022"⟩
     exampleQuery := some ⟨.time_series, ["DEU", "NOR", "USA"], ⟨"2000", "2022"⟩⟩ },
   { sourceId := "wikidata", sourceName := "Wikidata"
     datasetId := "wikidata", indicatorId := "wikidata:area"
     title := "Area"
     description := "Total area of countries from Wikidata."
     unit := "km²", topics := ["geography"]
     geography := "country", timeCoverage := none
     exampleQuery := some ⟨.cross_section, ["ALL"], ⟨"2023", "2023"⟩⟩ }]

structure CatalogSearchOpts where
  sourceId : Option String
  topics : Option (List String)
deriving Repr, DecidableEq

/-- `if (options?.sourceId && entry.sourceId !== options.sourceId)` — an
empty-string `sourceId` is falsy in JS and disables the filter. -/
def sourceMismatch (options : Option CatalogSearchOpts) (entry : CatalogEntry) : Bool :=
  match options.bind (·.sourceId) with
  | some sid => !(sid == "") && !(entry.sourceId == sid)
  | none => false

/-- `if (options?.topics && options.topics.length > 0)` … requiring some
requested topic to be included in the entry's topics. -/
def topicsMismatch (options : Option CatalogSearchOpts) (entry : CatalogEntry) : Bool :=
  match options.bind (·.topics) with
  | some ts => decide (ts.length > 0) && !(ts.any (fun t => entry.topics.contains t))
  | none => false

/-- The text filter: case-insensitive substring of title, description,
indicator id, or some topic. -/
def textMatches (term : String) (entry : CatalogEntry) : Bool :=
  strIncludes (toLowerStr entry.title) term ||
  strIncludes (toLowerStr entry.description) term ||
  strIncludes (toLowerStr entry.indicatorId) term ||
  entry.topics.any (fun t => strIncludes (toLowerStr t) term)

/-- `searchCatalog`. -/
def searchCatalog (searchTerm : String) (options : Option CatalogSearchOpts) :
    List CatalogEntry :=
  let term := toLowerStr searchTerm
  curatedIndicators.filter (fun entry =>
    if sourceMismatch options entry then false
    else if topicsMismatch options entry then false
    else textMatches term entry)

theorem sourceMismatch_false_iff (options : Option CatalogSearchOpts) (entry : CatalogEntry) :
    sourceMismatch options entry = false ↔
      ∀ sid, options.bind (·.sourceId) = some sid → sid ≠ "" → entry.sourceId = sid := by
  cases hb : options.bind (·.sourceId) with
  | none => simp [sourceMismatch, hb]
  | some sid =>
    simp only [sourceMismatch, hb]
    by_cases hsid : sid = ""
    · simp [hsid]
    · constructor
      · intro h sid' hs hne
        have : sid' = sid := by simpa using hs.symm
        subst this
        rcases (by simpa [hsid] using h : entry.sourceId = sid') with h2
        exact h2
      · intro h
        have := h sid rfl hsid
        simp [hsid, this]

theorem topicsMismatch_false_iff (options : Option CatalogSearchOpts) (entry : CatalogEntry) :
    topicsMismatch options entry = false ↔
      ∀ ts, options.bind (·.topics) = some ts → ts ≠ [] → ∃ t ∈ ts, t ∈ entry.topics := by
  cases hb : options.bind (·.topics) with
  | none => simp [topicsMismatch, hb]
  | some ts =>
    simp only [topicsMismatch, hb]
    cases ts with
    | nil => simp
    | cons t0 ts' =>
      have hdec : decide ((t0 :: ts').length > 0) = true := by simp
      constructor
      · intro h ts'' hts _
        have hts2 : ts'' = t0 :: ts' := by simpa using hts.symm
        subst hts2
        rw [hdec, Bool.true_and] at h
        have hany : ((t0 :: ts').any fun t => entry.topics.contains t) = true := by
          cases hX : ((t0 :: ts').any fun t => entry.topics.contains t) with
          | true => rfl
          | false => rw [hX] at h; simp at h
        rcases List.any_eq_true.mp hany with ⟨t, ht, htc⟩
        exact ⟨t, ht, by simpa using htc⟩
      · intro h
        rcases h (t0 :: ts') rfl (by simp) with ⟨t, ht, htm⟩
        have hany : ((t0 :: ts').any fun t => entry.topics.contains t) = true :=
          List.any_eq_true.mpr ⟨t, ht, by simpa using htm⟩
        rw [hany]
        simp

/-- C9: catalog search returns exactly the entries passing all supplied
filters — the case-insensitive text filter over title/description/id/topics,
ANDed with the `sourceId` and `topics` structural filters; `search('gdp')`
only returns text matches, and `search('', {sourceId:'worldbank'})` is
exactly the (non-empty) list of worldbank entries. -/
theorem claim_C9_catalog_search :
    (∀ (term : String) (opts : Option CatalogSearchOpts) (e : CatalogEntry),
      e ∈ searchCatalog term opts ↔
        e ∈ curatedIndicators ∧
        textMatches (toLowerStr term) e = true ∧
        (∀ sid, opts.bind (·.sourceId) = some sid → sid ≠ "" → e.sourceId = sid) ∧
        (∀ ts, opts.bind (·.topics) = some ts → ts ≠ [] → ∃ t ∈ ts, t ∈ e.topics)) ∧
    (∀ e, e ∈ searchCatalog "gdp" none → textMatches (toLowerStr "gdp") e = true) ∧
    searchCatalog "" (some ⟨some "worldbank", none⟩) =
      curatedIndicators.filter (fun e => e.sourceId == "worldbank") ∧
    searchCatalog "" (some ⟨some "worldbank", none⟩) ≠ [] := by
  have hmain : ∀ (term : String) (opts : Option CatalogSearchOpts) (e : CatalogEntry),
      e ∈ searchCatalog term opts ↔
        e ∈ curatedIndicators ∧
        textMatches (toLowerStr term) e = true ∧
        (∀ sid, opts.bind (·.sourceId) = some sid → sid ≠ "" → e.sourceId = sid) ∧
        (∀ ts, opts.bind (·.topics) = some ts → ts ≠ [] → ∃ t ∈ ts, t ∈ e.topics) := by
    intro term opts e
    rw [searchCatalog]
    rw [List.mem_filter]
    constructor
    · rintro ⟨hmem, hpred⟩
      by_cases hsm : sourceMismatch opts e = true
      · simp [hsm] at hpred
      · by_cases htm : topicsMismatch opts e = true
        · simp [hsm, htm] at hpred
        · refine ⟨hmem, ?_, (sourceMismatch_false_iff opts e).mp (by simpa using hsm),
            (topicsMismatch_false_iff opts e).mp (by simpa using htm)⟩
          simpa [hsm, htm] using hpred
    · rintro ⟨hmem, htext, hsrc, htop⟩
      refine ⟨hmem, ?_⟩
      have hsm := (sourceMismatch_false_iff opts e).mpr hsrc
      have htm := (topicsMismatch_false_iff opts e).mpr htop
      simp [hsm, htm, htext]
  refine ⟨hmain, ?_, by decide, by decide⟩
  intro e he
  exact ((hmain "gdp" none e).mp he).2.1

/-- Witness for C9: the GDP-per-capita worldbank entry is found by
`search('gdp', {sourceId:'worldbank'})`, via the characterization. -/
theorem claim_C9_witness :
    wbGdpPcap ∈ searchCatalog "gdp" (some ⟨some "worldbank", none⟩) := by
  refine (claim_C9_catalog_search.1 "gdp" (some ⟨some "worldbank", none⟩) wbGdpPcap).mpr
    ⟨by decide, by decide, ?_, ?_⟩
  · intro sid hs _
    have : sid = "worldbank" := by simpa using hs.symm
    subst this
    decide
  · intro ts hts
    simp at hts

/-- A concrete valid query used to instantiate hypothesis-bearing theorems. -/
def sampleQuery : CanonicalQuery :=
  ⟨1, "worldbank", .time_series, none, ["DEU"],
    none, [⟨"NY.GDP.PCAP.CD", "GDP per capita", some "USD"⟩],
    ⟨⟨"2000", "2020"⟩, none, none⟩, ⟨.line, none, none⟩⟩

/-! ## Retry-aware HTTP client (`src/services/fetch.ts`)

`fetchWithRetry` is modelled over an abstract transport `Nat → TransportResult`
giving the outcome of each attempt.  The async sleeps become a recorded list
of delays; `AbortError` is the timeout cancellation firing, and a `TypeError`
whose message contains `fetch` is the network-level (cross-origin) failure. -/

structure HttpResponse where
  status : Nat
  statusText : String
deriving Repr, DecidableEq

/-- `Response.ok`: status in `[200, 300)`. -/
def respOk (r : HttpResponse) : Bool := decide (200 ≤ r.status ∧ r.status < 300)

inductive TransportResult
  | response (r : HttpResponse)
  | abortError
  | typeError (msg : String)
  | otherError (msg : String)
deriving Repr, DecidableEq

/-- The classified `FetchError` (undefined optional constructor arguments
become `none`/`false`). -/
structure FetchErr where
  message : String
  status : Option Nat
  statusText : Option String
  isCorsError : Bool
  isTimeout : Bool
deriving Repr, DecidableEq

/-- `new FetchError(\`HTTP ${status}: ${statusText}\`, status, statusText)`. -/
def httpFetchErr (r : HttpResponse) : FetchErr :=
  ⟨"HTTP " ++ Nat.repr r.status ++ ": " ++ r.statusText,
    some r.status, some r.statusText, false, false⟩

/-- Observable outcome of `fetchWithRetry`: the result, the number of
transport invocations, and the sleeps performed (in order). -/
structure FetchOutcome where
  result : Except FetchErr HttpResponse
  calls : Nat
  delays : List Nat
deriving Repr

/-- The attempt loop of `fetchWithRetry`, from attempt number `attempt`
onward (`for attempt in 0..retries`).  A raw non-`FetchError` error that
survives the loop is rethrown as-is (`throw lastError`), modelled as an
unclassified `FetchErr`. -/
def fetchGo (transport : Nat → TransportResult) (retries retryDelay attempt : Nat) :
    FetchOutcome :=
  match transport attempt with
  | .response r =>
    if respOk r then ⟨.ok r, 1, []⟩
    else if 400 ≤ r.status ∧ r.status < 500 ∧ r.status ≠ 429 then
      ⟨.error (httpFetchErr r), 1, []⟩
    else if _h : attempt < retries then
      let delay := if r.status == 429 then retryDelay * 2 ^ attempt else retryDelay
      let rest := fetchGo transport retries retryDelay (attempt + 1)
      ⟨rest.result, rest.calls + 1, delay :: rest.delays⟩
    else ⟨.error (httpFetchErr r), 1, []⟩
  | .abortError =>
    if _h : attempt < retries then
      let rest := fetchGo transport retries retryDelay (attempt + 1)
      ⟨rest.result, rest.calls + 1, retryDelay :: rest.delays⟩
    else ⟨.error ⟨"Request timed out", none, none, false, true⟩, 1, []⟩
  | .typeError msg =>
    if strIncludes msg "fetch" then
      ⟨.error ⟨"Network error - possibly blocked by CORS", none, none, true, false⟩, 1, []⟩
    else if _h : attempt < retries then
      let rest := fetchGo transport retries retryDelay (attempt + 1)
      ⟨rest.result, rest.calls + 1, retryDelay * 2 ^ attempt :: rest.delays⟩
    else ⟨.error ⟨msg, none, none, false, false⟩, 1, []⟩
  | .otherError msg =>
    if _h : attempt < retries then
      let rest := fetchGo transport retries retryDelay (attempt + 1)
      ⟨rest.result, rest.calls + 1, retryDelay * 2 ^ attempt :: rest.delays⟩
    else ⟨.error ⟨msg, none, none, false, false⟩, 1, []⟩
termination_by retries + 1 - attempt
decreasing_by all_goals omega

/-- `fetchWithRetry(url, {retries, retryDelay})`. -/
def fetchWithRetry (transport : Nat → TransportResult) (retries retryDelay : Nat) :
    FetchOutcome :=
  fetchGo transport retries retryDelay 0

/-- C3: `fetchWithRetry` fails immediately (one transport invocation, no
sleep) on any status in `[400, 500)` other than 429; with attempts left it
retries a 429 after `retryDelayMs * 2 ^ attempt` and a 5xx after a flat
`retryDelayMs`; in particular a 500-then-200 transport yields the 200
response after exactly two invocations with one flat sleep. -/
theorem claim_C3_fetch_retry_policy (transport : Nat → TransportResult)
    (retries retryDelay : Nat) :
    (∀ r, transport 0 = .response r → 400 ≤ r.status → r.status < 500 → r.status ≠ 429 →
      fetchWithRetry transport retries retryDelay = ⟨.error (httpFetchErr r), 1, []⟩) ∧
    (∀ r0 r1, transport 0 = .response r0 → r0.status = 500 → transport 1 = .response r1 →
      r1.status = 200 → 1 ≤ retries →
      fetchWithRetry transport retries retryDelay = ⟨.ok r1, 2, [retryDelay]⟩) ∧
    (∀ attempt r, transport attempt = .response r → r.status = 429 → attempt < retries →
      fetchGo transport retries retryDelay attempt =
        ⟨(fetchGo transport retries retryDelay (attempt + 1)).result,
          (fetchGo transport retries retryDelay (attempt + 1)).calls + 1,
          retryDelay * 2 ^ attempt :: (fetchGo transport retries retryDelay (attempt + 1)).delays⟩) ∧
    (∀ attempt r, transport attempt = .response r → 500 ≤ r.status → attempt < retries →
      fetchGo transport retries retryDelay attempt =
        ⟨(fetchGo transport retries retryDelay (attempt + 1)).result,
          (fetchGo transport retries retryDelay (attempt + 1)).calls + 1,
          retryDelay :: (fetchGo transport retries retryDelay (attempt + 1)).delays⟩) := by
  refine ⟨?_, ?_, ?_, ?_⟩
  · intro r h0 h400 h500 h429
    have hok : respOk r = false := by simp [respOk]; omega
    rw [fetchWithRetry, fetchGo, h0]
    simp [hok, h400, h500, h429]
  · intro r0 r1 h0 hs0 h1 hs1 hret
    have hok0 : respOk r0 = false := by simp [respOk, hs0]
    have hok1 : respOk r1 = true := by simp [respOk, hs1]
    have hstep2 : fetchGo transport retries retryDelay 1 = ⟨.ok r1, 1, []⟩ := by
      rw [fetchGo, h1]
      simp [hok1]
    rw [fetchWithRetry, fetchGo, h0]
    simp only [hok0, Bool.false_eq_true, if_false, hs0]
    have h4 : ¬ (400 ≤ (500 : Nat) ∧ (500 : Nat) < 500 ∧ (500 : Nat) ≠ 429) := by omega
    rw [if_neg h4, dif_pos (by omega : 0 < retries), hstep2]
    simp
  · intro attempt r h0 hs hlt
    have hok : respOk r = false := by simp [respOk, hs]
    have h4 : ¬ (400 ≤ r.status ∧ r.status < 500 ∧ r.status ≠ 429) := by omega
    rw [fetchGo, h0]
    simp only [hok, Bool.false_eq_true, if_false]
    rw [if_neg h4, dif_pos hlt]
    simp [hs]
  · intro attempt r h0 hs hlt
    have hok : respOk r = false := by simp [respOk]; omega
    have h4 : ¬ (400 ≤ r.status ∧ r.status < 500 ∧ r.status ≠ 429) := by omega
    have h429 : (r.status == 429) = false := by
      simp only [beq_eq_false_iff_ne, ne_eq]
      omega
    rw [fetchGo, h0]
    simp only [hok, Bool.false_eq_true, if_false]
    rw [if_neg h4, dif_pos hlt]
    simp [h429]

/-- Witness for C3: a transport answering 500 then 200, with the default
`retries = 2` and `retryDelay = 1000`. -/
theorem claim_C3_witness :
    fetchWithRetry
        (fun n => if n = 0 then .response ⟨500, "Internal Server Error"⟩
                  else .response ⟨200, "OK"⟩) 2 1000 =
      ⟨.ok ⟨200, "OK"⟩, 2, [1000]⟩ := by
  exact (claim_C3_fetch_retry_policy _ 2 1000).2.1 ⟨500, "Internal Server Error"⟩ ⟨200, "OK"⟩
    rfl rfl rfl rfl (by decide)

/-! ## World Bank adapter (`src/data/adapters/WorldBankAdapter.ts`) -/

/-- An `{id, value}` reference pair (indicator / country). -/
structure WBRef where
  id : String
  value : String
deriving Repr, DecidableEq

structure WBDataPoint where
  indicator : WBRef
  country : WBRef
  countryiso3code : String
  date : String
  value : Option JsNumber
  unit : String
  obs_status : String
  decimal : Nat
deriving Repr, DecidableEq

/-- `point.countryiso3code || point.country.id`. -/
def wbEntityId (p : WBDataPoint) : String := jsOr p.countryiso3code p.country.id

/-- The `{label, value, year}` record held per entity while scanning. -/
structure WBEntityVal where
  label : String
  value : Option JsNumber
  year : String
deriving Repr, DecidableEq

def worldbankAttribution : AttributionConfig :=
  ⟨"Source: World Bank", "CC BY 4.0", some "https://datacatalog.worldbank.org/public-licenses"⟩

def worldbankProvenance (md : FetchMetadata) : Provenance :=
  ⟨"worldbank", "World Bank Indicators", md.queryUrl, md.retrievedAt, worldbankAttribution⟩

/-- One step of `normalizeCrossSection`'s scan:
`if (!existing || point.date >= existing.year) entityValues.set(...)`. -/
def wbCrossStep (m : List (String × WBEntityVal)) (p : WBDataPoint) :
    List (String × WBEntityVal) :=
  let entityId := wbEntityId p
  match alookup entityId m with
  | none => aset entityId ⟨p.country.value, p.value, p.date⟩ m
  | some existing =>
    if strGe p.date existing.year then aset entityId ⟨p.country.value, p.value, p.date⟩ m
    else m

/-- `WorldBankAdapter.normalizeCrossSection`.  `normalize` only calls it with
a non-empty `dataPoints`; the `[]` head fallback mirrors that guard. -/
def wbNormalizeCrossSection (dataPoints : List WBDataPoint) (q : CanonicalQuery)
    (metadata : FetchMetadata) : CrossSectionDataset :=
  let indicator := match dataPoints with
    | [] => (⟨"", ""⟩ : WBRef)
    | p :: _ => p.indicator
  let targetYear := q.filters.timeRange.stop
  let entityValues := dataPoints.foldl wbCrossStep []
  { indicatorId := indicator.id
    indicatorLabel := indicator.value
    time := targetYear
    rows := entityValues.map (fun ev => ⟨ev.1, ev.2.label, ev.2.value⟩)
    unit := (y0 q).unit.getD ""
    provenance := worldbankProvenance metadata }

theorem strGe_refl (a : String) : strGe a a = true := by
  simp [strGe, strLt_irrefl]

theorem strGe_of_not_ge {a b : String} (h : strGe a b = false) : strGe b a = true := by
  simp only [strGe, Bool.not_eq_false'] at h
  simp [strGe, strLt_asymm h]

theorem alookup_eq_of_mem_nodup {β : Type _} {m : List (String × β)} {ev : String × β}
    (hmem : ev ∈ m) (hnd : (m.map Prod.fst).Nodup) : alookup ev.1 m = some ev.2 := by
  induction m with
  | nil => simp at hmem
  | cons h t ih =>
    have hnd' : h.1 ∉ t.map Prod.fst ∧ (t.map Prod.fst).Nodup := by
      rw [List.map_cons] at hnd
      exact List.nodup_cons.mp hnd
    rcases List.mem_cons.mp hmem with rfl | hm
    · simp [alookup]
    · have hne : h.1 ≠ ev.1 := by
        intro he
        exact hnd'.1 (he ▸ List.mem_map_of_mem Prod.fst hm)
      have hbeq : (h.1 == ev.1) = false := by simpa using hne
      simp [alookup, hbeq, ih hm hnd'.2]

theorem keys_aset_nodup {β : Type _} {k : String} {v : β} {m : List (String × β)}
    (h : (m.map Prod.fst).Nodup) : ((aset k v m).map Prod.fst).Nodup := by
  induction m with
  | nil => simp [aset]
  | cons hd t ih =>
    have h' : hd.1 ∉ t.map Prod.fst ∧ (t.map Prod.fst).Nodup := by
      rw [List.map_cons] at h
      exact List.nodup_cons.mp h
    obtain ⟨hh, ht⟩ := h'
    by_cases hk : hd.1 == k
    · have hdk : hd.1 = k := by simpa using hk
      simp only [aset, hk, if_pos, List.map_cons]
      exact List.nodup_cons.mpr ⟨by simpa [hdk] using hh, ht⟩
    · simp only [aset, hk, Bool.false_eq_true, if_false, List.map_cons]
      refine List.nodup_cons.mpr ⟨?_, ih ht⟩
      intro hcon
      rcases List.mem_map.mp hcon with ⟨ev, hev, heq⟩
      rcases mem_aset hev with rfl | hev'
      · have : hd.1 = k := by simpa using heq.symm
        exact absurd this (by simpa using hk)
      · exact hh (heq ▸ List.mem_map_of_mem Prod.fst hev')

/-- The scan invariant for `normalizeCrossSection`: every held entry comes
from a seen row, every seen row's entity has an entry at least as late as
that row, and keys are unique. -/
def WBInv (seen : List WBDataPoint) (m : List (String × WBEntityVal)) : Prop :=
  (∀ ev ∈ m, ∃ p ∈ seen, wbEntityId p = ev.1 ∧ p.value = ev.2.value ∧
      p.country.value = ev.2.label ∧ p.date = ev.2.year) ∧
  (∀ p' ∈ seen, ∃ d, alookup (wbEntityId p') m = some d ∧ strGe d.year p'.date = true) ∧
  (m.map Prod.fst).Nodup

theorem wbCrossStep_inv {seen : List WBDataPoint} {m : List (String × WBEntityVal)}
    (hinv : WBInv seen m) (p : WBDataPoint) : WBInv (seen ++ [p]) (wbCrossStep m p) := by
  obtain ⟨h1, h2, h3⟩ := hinv
  have hconj1 : ∀ ev ∈ aset (wbEntityId p) ⟨p.country.value, p.value, p.date⟩ m,
      ∃ p' ∈ seen ++ [p], wbEntityId p' = ev.1 ∧ p'.value = ev.2.value ∧
        p'.country.value = ev.2.label ∧ p'.date = ev.2.year := by
    intro ev hev
    rcases mem_aset hev with rfl | hev'
    · exact ⟨p, by simp, rfl, rfl, rfl, rfl⟩
    · obtain ⟨p', hp', hrest⟩ := h1 ev hev'
      exact ⟨p', by simp [hp'], hrest⟩
  cases halo : alookup (wbEntityId p) m with
  | none =>
    refine ⟨by simpa [wbCrossStep, halo] using hconj1, ?_, ?_⟩
    · intro p' hp'
      simp only [wbCrossStep, halo]
      rcases List.mem_append.mp hp' with hp'' | hp''
      · obtain ⟨d, hd, hge⟩ := h2 p' hp''
        by_cases hkey : wbEntityId p' = wbEntityId p
        · rw [hkey, halo] at hd; exact absurd hd (by simp)
        · exact ⟨d, by rw [alookup_aset_ne _ _ (fun he => hkey he.symm)]; exact hd, hge⟩
      · have hpp : p' = p := by simpa using hp''
        subst hpp
        exact ⟨⟨p'.country.value, p'.value, p'.date⟩, alookup_aset_self _ _ _, strGe_refl _⟩
    · simpa [wbCrossStep, halo] using keys_aset_nodup h3
  | some ex =>
    by_cases hge : strGe p.date ex.year = true
    · refine ⟨by simpa [wbCrossStep, halo, hge] using hconj1, ?_, ?_⟩
      · intro p' hp'
        simp only [wbCrossStep, halo, hge, if_pos]
        rcases List.mem_append.mp hp' with hp'' | hp''
        · obtain ⟨d, hd, hdge⟩ := h2 p' hp''
          by_cases hkey : wbEntityId p' = wbEntityId p
          · rw [hkey, halo] at hd
            have hdx : ex = d := by simpa using hd
            refine ⟨⟨p.country.value, p.value, p.date⟩, by rw [hkey, alookup_aset_self], ?_⟩
            have hdge' : strGe ex.year p'.date = true := by rw [hdx]; exact hdge
            exact strGe_trans hge hdge'
          · exact ⟨d, by rw [alookup_aset_ne _ _ (fun he => hkey he.symm)]; exact hd, hdge⟩
        · have hpp : p' = p := by simpa using hp''
          subst hpp
          exact ⟨⟨p'.country.value, p'.value, p'.date⟩, alookup_aset_self _ _ _, strGe_refl _⟩
      · simpa [wbCrossStep, halo, hge] using keys_aset_nodup h3
    · have hgef : strGe p.date ex.year = false := by simpa using hge
      refine ⟨?_, ?_, ?_⟩
      · intro ev hev
        have hev' : ev ∈ m := by simpa [wbCrossStep, halo, hgef] using hev
        obtain ⟨p', hp', hrest⟩ := h1 ev hev'
        exact ⟨p', by simp [hp'], hrest⟩
      · intro p' hp'
        simp only [wbCrossStep, halo, hgef, Bool.false_eq_true, if_false]
        rcases List.mem_append.mp hp' with hp'' | hp''
        · exact h2 p' hp''
        · have hpp : p' = p := by simpa using hp''
          subst hpp
          exact ⟨ex, halo, strGe_of_not_ge hgef⟩
      · simpa [wbCrossStep, halo, hgef] using h3

theorem wbCross_foldl_inv : ∀ (l seen : List WBDataPoint) (m : List (String × WBEntityVal)),
    WBInv seen m → WBInv (seen ++ l) (l.foldl wbCrossStep m) := by
  intro l
  induction l with
  | nil => intro seen m h; simpa using h
  | cons p ps ih =>
    intro seen m h
    have := ih (seen ++ [p]) (wbCrossStep m p) (wbCrossStep_inv h p)
    simpa [List.append_assoc] using this

/-- C5: for a cross-section normalization of fetched World Bank rows, every
returned row holds the value of a fetched row whose date string is
lexicographically `>=` every other date seen for that entity (the latest
fetched observation, not necessarily the requested end year), while the
dataset's `time` field is set to the query's requested end year. -/
theorem claim_C5_wb_cross_latest (dataPoints : List WBDataPoint) (q : CanonicalQuery)
    (md : FetchMetadata) :
    (wbNormalizeCrossSection dataPoints q md).time = q.filters.timeRange.stop ∧
    ∀ row ∈ (wbNormalizeCrossSection dataPoints q md).rows,
      ∃ p ∈ dataPoints, wbEntityId p = row.entityId ∧ p.value = row.value ∧
        p.country.value = row.entityLabel ∧
        ∀ p' ∈ dataPoints, wbEntityId p' = row.entityId → strGe p.date p'.date = true := by
  have hinv : WBInv dataPoints (dataPoints.foldl wbCrossStep []) := by
    simpa using wbCross_foldl_inv dataPoints [] []
      ⟨by simp, by simp, by simp⟩
  obtain ⟨h1, h2, h3⟩ := hinv
  constructor
  · rfl
  · intro row hrow
    have hrow' : row ∈ (dataPoints.foldl wbCrossStep []).map
        (fun ev => (⟨ev.1, ev.2.label, ev.2.value⟩ : CrossSectionRow)) := hrow
    rcases List.mem_map.mp hrow' with ⟨ev, hev, hroweq⟩
    obtain ⟨p, hp, hpid, hpval, hplabel, hpdate⟩ := h1 ev hev
    refine ⟨p, hp, ?_, ?_, ?_, ?_⟩
    · rw [hpid, ← hroweq]
    · rw [hpval, ← hroweq]
    · rw [hplabel, ← hroweq]
    · intro p' hp' hpe
      obtain ⟨d, hd, hge⟩ := h2 p' hp'
      have hpe' : wbEntityId p' = ev.1 := by rw [hpe, ← hroweq]
      rw [hpe'] at hd
      have hlook : alookup ev.1 (dataPoints.foldl wbCrossStep []) = some ev.2 :=
        alookup_eq_of_mem_nodup hev h3
      have hdev : d = ev.2 := by
        rw [hlook] at hd
        simpa using hd.symm
      rw [hdev] at hge
      rw [← hpdate] at hge
      exact hge

/-- Fixture rows for the C5 witness: Germany observed in 2020 and 2022. -/
def wbP1 : WBDataPoint :=
  ⟨⟨"NY.GDP.PCAP.CD", "GDP per capita"⟩, ⟨"DE", "Germany"⟩, "DEU", "2020", some 1, "", "", 0⟩

def wbP2 : WBDataPoint :=
  ⟨⟨"NY.GDP.PCAP.CD", "GDP per capita"⟩, ⟨"DE", "Germany"⟩, "DEU", "2022", some 2, "", "", 0⟩

def crossQuery : CanonicalQuery :=
  ⟨1, "worldbank", .cross_section, none, ["DEU"],
    none, [⟨"NY.GDP.PCAP.CD", "GDP", none⟩],
    ⟨⟨"2020", "2022"⟩, none, none⟩, ⟨.bar, none, none⟩⟩

/-- Witness for C5: the kept Germany row carries the 2022 (latest) value and
the dataset's time is the requested end year. -/
theorem claim_C5_witness :
    (wbNormalizeCrossSection [wbP1, wbP2] crossQuery mdFixture).time = "2022" ∧
    ∃ p ∈ [wbP1, wbP2], wbEntityId p = "DEU" ∧ p.value = some 2 ∧
      p.country.value = "Germany" ∧
      ∀ p' ∈ [wbP1, wbP2], wbEntityId p' = "DEU" → strGe p.date p'.date = true := by
  have h := claim_C5_wb_cross_latest [wbP1, wbP2] crossQuery mdFixture
  refine ⟨h.1, ?_⟩
  have hrow : (⟨"DEU", "Germany", some 2⟩ : CrossSectionRow) ∈
      (wbNormalizeCrossSection [wbP1, wbP2] crossQuery mdFixture).rows := by decide
  simpa using h.2 ⟨"DEU", "Germany", some 2⟩ hrow

/-! ## Eurostat JSON-stat adapter (`src/data/adapters/EurostatAdapter.ts`)

The JSON-stat response: an ordered dimension id list, per-dimension sizes,
per-dimension category index/label objects (JS objects: distinct keys in
insertion order), and a flat value array or sparse map.  The fields
`version`/`source`/`updated`/`status`, unused by `parseJsonStat`, are
omitted. -/

structure EurostatDimension where
  label : String
  catIndex : List (String × Nat)
  catLabel : List (String × String)
deriving Repr, DecidableEq

inductive EurostatValues
  | arr (values : List (Option JsNumber))
  | map (values : List (String × Option JsNumber))
deriving Repr, DecidableEq

structure EurostatResponse where
  label : String
  id : List String
  size : List Nat
  dimension : List (String × EurostatDimension)
  value : EurostatValues
deriving Repr, DecidableEq

/-- The stride loop: `for (i = n-1; i >= 0; i--) { strides.unshift(stride);
stride *= dimSizes[i] }`, processed right-to-left with the running stride. -/
def computeStrides (sizes : List Nat) : List Nat :=
  (sizes.foldr (fun sz acc => (acc.2 :: acc.1, acc.2 * sz)) ([], 1)).1

/-- `values[flatIndex] ?? null` for the array form, and
`values[flatIndex.toString()] ?? null` (decimal string key) for the sparse
map form. -/
def readJsonStatValue : EurostatValues → Nat → Option JsNumber
  | .arr vs, i => (vs[i]?).join
  | .map vs, i => (alookup (Nat.repr i) vs).join

/-- `indices` is all zeroes except `indices[geoIdx] = geoIndex` and then
`indices[timeIdx] = timeIndex` (the later write wins, hence `timeIdx` is
tested first); `flatIndex = Σ indices[i] * strides[i]`. -/
def flatIndexAt (n geoIdx timeIdx geoIndex timeIndex : Nat) (strides : List Nat) : Nat :=
  let indices := (List.range n).map
    (fun i => if i == timeIdx then timeIndex else if i == geoIdx then geoIndex else 0)
  (indices.zip strides).foldl (fun acc p => acc + p.1 * p.2) 0

def eurostatAttribution : AttributionConfig :=
  ⟨"Source: Eurostat", "Eurostat copyright policy",
    some "https://ec.europa.eu/eurostat/web/main/about-us/policies/copyright"⟩

def eurostatProvenance (md : FetchMetadata) : Provenance :=
  ⟨"eurostat", "Eurostat", md.queryUrl, md.retrievedAt, eurostatAttribution⟩

def emptyDim : EurostatDimension := ⟨"", [], []⟩

/-- The series built for one geo category entry `gp = (geoCode, geoIndex)`:
one point per time category entry, each read from the flat store at the
computed flat index, sorted ascending by `t`. -/
def eurostatSeriesFor (data : EurostatResponse) (q : CanonicalQuery)
    (geoIdx timeIdx : Nat) (gp : String × Nat) : SeriesData :=
  let geoDim := (alookup "geo" data.dimension).getD emptyDim
  let timeDim := (alookup "time" data.dimension).getD emptyDim
  let strides := computeStrides data.size
  let n := data.id.length
  { entityId := gp.1
    entityLabel := jsOr ((alookup gp.1 geoDim.catLabel).getD "") gp.1
    indicatorId := (y0 q).indicatorId
    indicatorLabel := jsOr (y0 q).label data.label
    points := sortPointsByT (timeDim.catIndex.map (fun tp =>
      ⟨tp.1, readJsonStatValue data.value
        (flatIndexAt n geoIdx timeIdx gp.2 tp.2 strides)⟩))
    unit := (y0 q).unit.getD "" }

/-- `EurostatAdapter.parseJsonStat`.  `Object.entries` of a category index
yields distinct keys, so the `seriesMap` grouping is exactly one series per
geo entry; missing `geo`/`time` dimension ids give `[]`. -/
def parseJsonStat (data : EurostatResponse) (q : CanonicalQuery) : List SeriesData :=
  match List.findIdx? (· == "geo") data.id, List.findIdx? (· == "time") data.id with
  | some geoIdx, some timeIdx =>
    ((alookup "geo" data.dimension).getD emptyDim).catIndex.map
      (eurostatSeriesFor data q geoIdx timeIdx)
  | _, _ => []

/-- `EurostatAdapter.normalize`. -/
def eurostatNormalize (rawData : EurostatResponse) (q : CanonicalQuery)
    (md : FetchMetadata) : NormalizedDataset :=
  .timeSeries ⟨parseJsonStat rawData q, eurostatProvenance md⟩

/-- Truncating dot-product used to evaluate the flat-index sum. -/
def zipSum : List Nat → List Nat → Nat
  | a :: as, b :: bs => a * b + zipSum as bs
  | _, _ => 0

theorem foldl_zip_eq_zipSum :
    ∀ (l1 l2 : List Nat) (acc : Nat),
      (l1.zip l2).foldl (fun acc p => acc + p.1 * p.2) acc = acc + zipSum l1 l2 := by
  intro l1
  induction l1 with
  | nil => intro l2 acc; simp [zipSum]
  | cons a as ih =>
    intro l2 acc
    cases l2 with
    | nil => simp [zipSum]
    | cons b bs =>
      simp only [List.zip_cons_cons, List.foldl_cons, zipSum]
      rw [ih]
      omega

theorem computeStrides_snd (sizes : List Nat) :
    (sizes.foldr (fun sz acc => (acc.2 :: acc.1, acc.2 * sz)) ([], 1)).2 = sizes.prod := by
  induction sizes with
  | nil => simp
  | cons s rest ih => simp [List.foldr_cons, ih]; ring

theorem computeStrides_cons (s : Nat) (rest : List Nat) :
    computeStrides (s :: rest) = rest.prod :: computeStrides rest := by
  simp [computeStrides, List.foldr_cons, computeStrides_snd]

theorem computeStrides_closed (sizes : List Nat) :
    computeStrides sizes =
      (List.range sizes.length).map (fun i => (sizes.drop (i + 1)).prod) := by
  induction sizes with
  | nil => simp [computeStrides]
  | cons s rest ih =>
    rw [computeStrides_cons, ih]
    simp only [List.length_cons, List.range_succ_eq_map, List.map_cons, List.map_map]
    rfl

theorem computeStrides_length (sizes : List Nat) :
    (computeStrides sizes).length = sizes.length := by
  rw [computeStrides_closed]; simp

theorem zipSum_range_zero :
    ∀ (ss : List Nat) (n : Nat) (f : Nat → Nat), (∀ i, f i = 0) →
      zipSum ((List.range n).map f) ss = 0 := by
  intro ss
  induction ss with
  | nil => intro n f _; cases n <;> simp [zipSum, List.range_succ_eq_map]
  | cons s ss' ih =>
    intro n f hf
    cases n with
    | zero => simp [zipSum]
    | succ m =>
      rw [List.range_succ_eq_map, List.map_cons, List.map_map]
      simp only [zipSum, hf 0]
      rw [ih m (f ∘ Nat.succ) (fun i => hf (i + 1))]
      simp

theorem zipSum_range_single :
    ∀ (ss : List Nat) (n : Nat) (f : Nat → Nat) (t ti : Nat),
      (∀ i, i ≠ t → f i = 0) → f t = ti → t < n → n = ss.length →
      zipSum ((List.range n).map f) ss = ti * (ss[t]?).getD 0 := by
  intro ss
  induction ss with
  | nil => intro n f t ti _ _ ht hn; simp at hn; omega
  | cons s ss' ih =>
    intro n f t ti hf hft ht hn
    cases n with
    | zero => omega
    | succ m =>
      rw [List.range_succ_eq_map, List.map_cons, List.map_map]
      cases t with
      | zero =>
        simp only [zipSum, hft]
        rw [zipSum_range_zero ss' m (f ∘ Nat.succ) (fun i => hf (i + 1) (by omega))]
        simp
      | succ t' =>
        simp only [zipSum, hf 0 (by omega)]
        rw [ih m (f ∘ Nat.succ) t' ti (fun i hi => hf (i + 1) (by omega)) hft
          (by omega) (by simpa using hn)]
        simp

theorem zipSum_range_pair :
    ∀ (ss : List Nat) (n : Nat) (f : Nat → Nat) (g t gi ti : Nat),
      g ≠ t → (∀ i, i ≠ g → i ≠ t → f i = 0) → f g = gi → f t = ti →
      g < n → t < n → n = ss.length →
      zipSum ((List.range n).map f) ss = gi * (ss[g]?).getD 0 + ti * (ss[t]?).getD 0 := by
  intro ss
  induction ss with
  | nil => intro n f g t gi ti _ _ _ _ hg _ hn; simp at hn; omega
  | cons s ss' ih =>
    intro n f g t gi ti hgt hf hfg hft hg ht hn
    cases n with
    | zero => omega
    | succ m =>
      rw [List.range_succ_eq_map, List.map_cons, List.map_map]
      cases g with
      | zero =>
        cases t with
        | zero => omega
        | succ t' =>
          simp only [zipSum, hfg]
          rw [zipSum_range_single ss' m (f ∘ Nat.succ) t' ti
            (fun i hi => hf (i + 1) (by omega) (by omega)) hft (by omega)
            (by simpa using hn)]
          simp
      | succ g' =>
        cases t with
        | zero =>
          simp only [zipSum, hft]
          rw [zipSum_range_single ss' m (f ∘ Nat.succ) g' gi
            (fun i hi => hf (i + 1) (by omega) (by omega)) hfg (by omega)
            (by simpa using hn)]
          simp
          omega
        | succ t' =>
          simp only [zipSum, hf 0 (by omega) (by omega)]
          rw [ih m (f ∘ Nat.succ) g' t' gi ti (by omega)
            (fun i hi1 hi2 => hf (i + 1) (by omega) (by omega)) hfg hft
            (by omega) (by omega) (by simpa using hn)]
          simp

theorem flatIndexAt_closed (n geoIdx timeIdx gi ti : Nat) (strides : List Nat)
    (hne : geoIdx ≠ timeIdx) (hg : geoIdx < n) (ht : timeIdx < n)
    (hn : n = strides.length) :
    flatIndexAt n geoIdx timeIdx gi ti strides =
      gi * (strides[geoIdx]?).getD 0 + ti * (strides[timeIdx]?).getD 0 := by
  rw [flatIndexAt, foldl_zip_eq_zipSum]
  simp only [Nat.zero_add]
  exact zipSum_range_pair strides n _ geoIdx timeIdx gi ti hne
    (fun i hi1 hi2 => by simp [hi1, hi2, (by simpa using hi2 : ¬ (i == timeIdx) = true)])
    (by simp [hne]) (by simp) hg ht hn

theorem computeStrides_getD {sizes : List Nat} {j : Nat} (hj : j < sizes.length) :
    ((computeStrides sizes)[j]?).getD 0 = (sizes.drop (j + 1)).prod := by
  rw [computeStrides_closed, List.getElem?_map, List.getElem?_range hj]
  rfl

theorem findIdx?_facts {p : String → Bool} :
    ∀ (l : List String) (s i : Nat), List.findIdx? p l s = some i →
      s ≤ i ∧ i - s < l.length ∧ ∃ a, l[i - s]? = some a ∧ p a = true := by
  intro l
  induction l with
  | nil => intro s i h; simp [List.findIdx?] at h
  | cons x xs ih =>
    intro s i h
    rw [List.findIdx?] at h
    by_cases hp : p x
    · simp only [hp, if_pos] at h
      have : s = i := by simpa using h
      subst this
      exact ⟨le_refl _, by simp, x, by simp, hp⟩
    · simp only [hp, Bool.false_eq_true, if_false] at h
      obtain ⟨h1, h2, a, h3, h4⟩ := ih (s + 1) i h
      refine ⟨by omega, by simp; omega, a, ?_, h4⟩
      have : i - s = (i - (s + 1)) + 1 := by omega
      rw [this]
      simpa using h3

/-- C2: the Eurostat normalizer computes strides generically
(`stride[i] = Π sizes[i+1..]`, any dimension count), and the point emitted
for each `(geo, time)` category pair reads the flat value store at
`flatIndex = geoIndex * stride[geoIdx] + timeIndex * stride[timeIdx]` (all
other dimensions' indices are zero), through the array or decimal-keyed
sparse map. -/
theorem claim_C2_eurostat_stride_indexing (data : EurostatResponse) (q : CanonicalQuery)
    (geoIdx timeIdx gi ti : Nat) (geoCode timeCode : String)
    (hgeo : List.findIdx? (· == "geo") data.id = some geoIdx)
    (htime : List.findIdx? (· == "time") data.id = some timeIdx)
    (hlen : data.size.length = data.id.length)
    (hg : (geoCode, gi) ∈ ((alookup "geo" data.dimension).getD emptyDim).catIndex)
    (ht : (timeCode, ti) ∈ ((alookup "time" data.dimension).getD emptyDim).catIndex) :
    computeStrides data.size =
      (List.range data.size.length).map (fun i => (data.size.drop (i + 1)).prod) ∧
    ∃ s ∈ parseJsonStat data q, s.entityId = geoCode ∧
      (⟨timeCode, readJsonStatValue data.value
          (gi * (data.size.drop (geoIdx + 1)).prod +
            ti * (data.size.drop (timeIdx + 1)).prod)⟩ : DataPoint) ∈ s.points := by
  obtain ⟨-, hglt, ag, hag, hagp⟩ := findIdx?_facts data.id 0 geoIdx hgeo
  obtain ⟨-, htlt, at', hat, hatp⟩ := findIdx?_facts data.id 0 timeIdx htime
  simp only [Nat.sub_zero] at hglt htlt hag hat
  have hagv : ag = "geo" := by simpa using hagp
  have hatv : at' = "time" := by simpa using hatp
  have hne : geoIdx ≠ timeIdx := by
    intro he
    rw [he, hat] at hag
    simp [hagv, hatv] at hag
  refine ⟨computeStrides_closed data.size, ?_⟩
  have hflat : flatIndexAt data.id.length geoIdx timeIdx gi ti (computeStrides data.size) =
      gi * (data.size.drop (geoIdx + 1)).prod + ti * (data.size.drop (timeIdx + 1)).prod := by
    rw [flatIndexAt_closed data.id.length geoIdx timeIdx gi ti (computeStrides data.size)
      hne hglt htlt (by rw [computeStrides_length, hlen]),
      computeStrides_getD (by omega), computeStrides_getD (by omega)]
  have hps : parseJsonStat data q =
      ((alookup "geo" data.dimension).getD emptyDim).catIndex.map
        (eurostatSeriesFor data q geoIdx timeIdx) := by
    unfold parseJsonStat
    rw [hgeo, htime]
  refine ⟨eurostatSeriesFor data q geoIdx timeIdx (geoCode, gi),
    by rw [hps]; exact List.mem_map_of_mem _ hg, rfl, ?_⟩
  rw [← hflat]
  show (⟨timeCode, readJsonStatValue data.value
      (flatIndexAt data.id.length geoIdx timeIdx gi ti (computeStrides data.size))⟩ : DataPoint) ∈
    sortPointsByT ((((alookup "time" data.dimension).getD emptyDim).catIndex).map (fun tp =>
      ⟨tp.1, readJsonStatValue data.value
        (flatIndexAt data.id.length geoIdx timeIdx gi tp.2 (computeStrides data.size))⟩))
  exact (mem_sortByKey (k := fun p : DataPoint => p.t)).mpr (List.mem_map_of_mem _ ht)

/-- A synthetic 3-dimensional cube (freq × geo × time) exercising the stride
math beyond two dimensions: sizes `[1, 2, 2]`, strides `[4, 2, 1]`, flat
array `[10, 11, 12, 13]`. -/
def eurostatFixture : EurostatResponse :=
  { label := "Synthetic cube"
    id := ["freq", "geo", "time"]
    size := [1, 2, 2]
    dimension :=
      [("freq", ⟨"Frequency", [("A", 0)], [("A", "Annual")]⟩),
       ("geo", ⟨"Geo", [("DE", 0), ("FR", 1)], [("DE", "Germany"), ("FR", "France")]⟩),
       ("time", ⟨"Time", [("2020", 0), ("2021", 1)], []⟩)]
    value := .arr [some 10, some 11, some 12, some 13] }

/-- Witness for C2: in the 3-dimensional fixture the France/2021 point reads
flat index `1 * stride[1] + 1 * stride[2] = 3`, the value 13. -/
theorem claim_C2_witness :
    computeStrides eurostatFixture.size = [4, 2, 1] ∧
    ∃ s ∈ parseJsonStat eurostatFixture sampleQuery, s.entityId = "FR" ∧
      (⟨"2021", some 13⟩ : DataPoint) ∈ s.points := by
  have h := claim_C2_eurostat_stride_indexing eurostatFixture sampleQuery
    1 2 1 1 "FR" "2021" rfl rfl rfl (by decide) (by decide)
  obtain ⟨s, hs, hid, hpt⟩ := h.2
  have he : readJsonStatValue eurostatFixture.value
      (1 * (eurostatFixture.size.drop 2).prod + 1 * (eurostatFixture.size.drop 3).prod) =
      some 13 := by decide
  rw [he] at hpt
  exact ⟨by decide, s, hs, hid, hpt⟩

/-- A concrete adapter instance over `ℕ` payloads. -/
def natAdapter : AdapterModel ℕ ℕ := ⟨"src", fun _ => .ok "u", fun r _ _ => r, 10⟩

/-- Witness for C1: two back-to-back `execute` calls on a cold cache return
the fetched value and perform exactly one transport invocation in total. -/
theorem claim_C1_witness :
    (executeAdapter natAdapter (fun _ => 7) sampleQuery 0 ⟨⟨[], [], false⟩, 0, 0⟩).1 = .ok 7 ∧
    (executeAdapter natAdapter (fun _ => 7) sampleQuery 5
      (executeAdapter natAdapter (fun _ => 7) sampleQuery 0
        ⟨⟨[], [], false⟩, 0, 0⟩).2).2.fetchCount = 1 := by
  have h := claim_C1_execute_idempotent natAdapter (fun _ => 7) sampleQuery 0 5
    ⟨⟨[], [], false⟩, 0, 0⟩ "u" rfl rfl rfl (by decide)
  refine ⟨h.1, ?_⟩
  rw [h.2.2.2.2, h.2.1]

/-! ## URL state codec (`src/hooks/useUrlState.ts` `encodeState`/`decodeState`)

`encodeState` is `btoa(encodeURIComponent(JSON.stringify(state)))` made
URL-safe (`+` to `-`, `/` to `_`, trailing `=` stripped); `decodeState`
reverses the three layers inside a `try`/`catch` modelled as `Option`.
`btoa`/`atob` are modelled over byte lists (RFC 4648), `JSON.stringify` as
the exact-shape printer of the `CanonicalQuery` schema (fields in interface
order, `undefined` optionals omitted, standard string escaping), and
`JSON.parse` as the matching consuming parser. -/

def pctEncTok (c : Char) : List PctTok :=
  if isUriUnreserved c then [.chr c] else (utf8Bytes c).map .byte

theorem char_toNat_lt (c : Char) : c.toNat < 0x110000 := by
  have h := c.valid
  unfold UInt32.isValidChar Nat.isValidChar at h
  show c.val.toNat < 0x110000
  rcases h with h | ⟨_, h2⟩
  · omega
  · exact h2

theorem hexVal_hexDigitChar {n : Nat} (h : n < 16) :
    hexVal (hexDigitChar n) = some n := by
  interval_cases n <;> decide

theorem pctTokenize_triplets (bs : List Nat) (hb : ∀ b ∈ bs, b < 256)
    (rest : List Char) :
    pctTokenize (bs.flatMap (fun b => ['%', hexDigitChar (b / 16), hexDigitChar (b % 16)]) ++ rest) =
      (pctTokenize rest).map (fun ts => bs.map PctTok.byte ++ ts) := by
  induction bs with
  | nil => simp [Option.map_id]
  | cons b tl ih =>
    have hblt : b < 256 := hb b (by simp)
    have h1 : hexVal (hexDigitChar (b / 16)) = some (b / 16) :=
      hexVal_hexDigitChar (by omega)
    have h2 : hexVal (hexDigitChar (b % 16)) = some (b % 16) :=
      hexVal_hexDigitChar (by omega)
    have htl : ∀ x ∈ tl, x < 256 := fun x hx => hb x (by simp [hx])
    simp only [List.flatMap_cons, List.append_assoc, List.cons_append, List.nil_append]
    rw [pctTokenize]
    simp only [if_pos rfl, h1, h2, ih htl]
    have hrec : b / 16 * 16 + b % 16 = b := by omega
    rw [hrec]
    cases pctTokenize rest <;> simp

theorem pctTokenize_enc (c : Char) (rest : List Char) :
    pctTokenize (pctEncodeChar c ++ rest) =
      (pctTokenize rest).map (fun ts => pctEncTok c ++ ts) := by
  by_cases hu : isUriUnreserved c
  · have hne : c ≠ '%' := by
      intro he; rw [he] at hu; exact absurd hu (by decide)
    simp only [pctEncodeChar, pctEncTok, if_pos hu, List.cons_append, List.nil_append]
    rcases rest with _ | ⟨h1, _ | ⟨h2, rest2⟩⟩ <;> simp only [pctTokenize, if_neg hne]
  · simp only [pctEncodeChar, pctEncTok, if_neg hu]
    apply pctTokenize_triplets
    intro b hbmem
    have hlt := char_toNat_lt c
    simp only [utf8Bytes] at hbmem
    split at hbmem
    · simp only [List.mem_cons, List.mem_nil_iff, or_false] at hbmem
      omega
    · split at hbmem
      · simp only [List.mem_cons, List.mem_nil_iff, or_false] at hbmem
        omega
      · split at hbmem <;>
          simp only [List.mem_cons, List.mem_nil_iff, or_false] at hbmem <;>
          omega

theorem pctDetokGo_utf8 (c : Char) (ts : List PctTok) :
    pctDetokGo ((utf8Bytes c).map PctTok.byte ++ ts) 0 0 =
      (pctDetokGo ts 0 0).map (fun l => c :: l) := by
  have hlt := char_toNat_lt c
  have hofn : Char.ofNat c.toNat = c := Char.ofNat_toNat c
  unfold utf8Bytes
  by_cases h1 : c.toNat < 0x80
  · rw [if_pos h1]
    simp only [List.map_cons, List.map_nil, List.cons_append, List.nil_append]
    rw [pctDetokGo, if_pos h1, hofn]
  · rw [if_neg h1]
    by_cases h2 : c.toNat < 0x800
    · rw [if_pos h2]
      simp only [List.map_cons, List.map_nil, List.cons_append, List.nil_append]
      rw [pctDetokGo, if_neg (by omega), if_neg (by omega), if_pos (by omega)]
      rw [pctDetokGo, if_pos (by omega)]
      have : (0xC0 + c.toNat / 64 - 0xC0) * 64 + (0x80 + c.toNat % 64 - 0x80) = c.toNat := by
        omega
      rw [this, hofn]
    · rw [if_neg h2]
      by_cases h3 : c.toNat < 0x10000
      · rw [if_pos h3]
        simp only [List.map_cons, List.map_nil, List.cons_append, List.nil_append]
        rw [pctDetokGo, if_neg (by omega), if_neg (by omega), if_neg (by omega),
          if_pos (by omega)]
        rw [pctDetokGo, if_pos (by omega)]
        rw [pctDetokGo, if_pos (by omega)]
        have : ((0xE0 + c.toNat / 4096 - 0xE0) * 64 + (0x80 + c.toNat / 64 % 64 - 0x80)) * 64 +
            (0x80 + c.toNat % 64 - 0x80) = c.toNat := by omega
        rw [this, hofn]
      · rw [if_neg h3]
        simp only [List.map_cons, List.map_nil, List.cons_append, List.nil_append]
        rw [pctDetokGo, if_neg (by omega), if_neg (by omega), if_neg (by omega),
          if_neg (by omega), if_pos (by omega)]
        rw [pctDetokGo, if_pos (by omega)]
        rw [pctDetokGo, if_pos (by omega)]
        rw [pctDetokGo, if_pos (by omega)]
        have : (((0xF0 + c.toNat / 262144 - 0xF0) * 64 + (0x80 + c.toNat / 4096 % 64 - 0x80)) * 64 +
            (0x80 + c.toNat / 64 % 64 - 0x80)) * 64 + (0x80 + c.toNat % 64 - 0x80) = c.toNat := by
          omega
        rw [this, hofn]

theorem pctDetokGo_encTok (l : List Char) :
    pctDetokGo (l.flatMap pctEncTok) 0 0 = some l := by
  induction l with
  | nil => rfl
  | cons c tl ih =>
    rw [List.flatMap_cons]
    by_cases hu : isUriUnreserved c
    · simp only [pctEncTok, if_pos hu, List.cons_append, List.nil_append]
      rw [pctDetokGo, ih]
      rfl
    · simp only [pctEncTok, if_neg hu]
      rw [pctDetokGo_utf8, ih]
      rfl

/-- RFC 4648 base64 alphabet, by sextet value. -/
def b64Char (n : Nat) : Char :=
  if n < 26 then Char.ofNat (65 + n)
  else if n < 52 then Char.ofNat (97 + (n - 26))
  else if n < 62 then Char.ofNat (48 + (n - 52))
  else if n = 62 then '+' else '/'

def b64Val (c : Char) : Option Nat :=
  if 65 ≤ c.toNat ∧ c.toNat ≤ 90 then some (c.toNat - 65)
  else if 97 ≤ c.toNat ∧ c.toNat ≤ 122 then some (c.toNat - 97 + 26)
  else if 48 ≤ c.toNat ∧ c.toNat ≤ 57 then some (c.toNat - 48 + 52)
  else if c = '+' then some 62
  else if c = '/' then some 63
  else none

def btoaGo : List Nat → List Char
  | [] => []
  | [a] => [b64Char (a / 4), b64Char (a % 4 * 16), '=', '=']
  | [a, b] => [b64Char (a / 4), b64Char (a % 4 * 16 + b / 16), b64Char (b % 16 * 4), '=']
  | a :: b :: c :: rest =>
    b64Char (a / 4) :: b64Char (a % 4 * 16 + b / 16) :: b64Char (b % 16 * 4 + c / 64) ::
      b64Char (c % 64) :: btoaGo rest

def atobGo : List Char → Option (List Nat)
  | [] => some []
  | c1 :: c2 :: c3 :: c4 :: rest =>
    match b64Val c1, b64Val c2 with
    | some v1, some v2 =>
      if c3 = '=' then
        if c4 = '=' ∧ rest = [] then some [v1 * 4 + v2 / 16] else none
      else
        match b64Val c3 with
        | some v3 =>
          if c4 = '=' then
            if rest = [] then some [v1 * 4 + v2 / 16, v2 % 16 * 16 + v3 / 4] else none
          else
            match b64Val c4 with
            | some v4 =>
              (atobGo rest).map (fun tl =>
                (v1 * 4 + v2 / 16) :: (v2 % 16 * 16 + v3 / 4) :: (v3 % 4 * 64 + v4) :: tl)
            | none => none
        | none => none
    | _, _ => none
  | _ => none

def urlSafeChar (c : Char) : Char :=
  if c = '+' then '-' else if c = '/' then '_' else c

def unUrlSafeChar (c : Char) : Char :=
  if c = '-' then '+' else if c = '_' then '/' else c

def stripTrailEq (l : List Char) : List Char :=
  (l.reverse.dropWhile (fun c => c = '=')).reverse

def padB64 (l : List Char) : List Char :=
  l ++ List.replicate ((4 - l.length % 4) % 4) '='

theorem b64Val_b64Char {n : Nat} (h : n < 64) : b64Val (b64Char n) = some n := by
  interval_cases n <;> decide

theorem b64Char_ne_eq {n : Nat} (h : n < 64) : b64Char n ≠ '=' := by
  interval_cases n <;> decide

theorem unUrl_url_b64Char {n : Nat} (h : n < 64) :
    unUrlSafeChar (urlSafeChar (b64Char n)) = b64Char n := by
  interval_cases n <;> decide

theorem url_b64Char_ne_eq {n : Nat} (h : n < 64) : urlSafeChar (b64Char n) ≠ '=' := by
  interval_cases n <;> decide

theorem atobGo_btoaGo (bs : List Nat) (hb : ∀ b ∈ bs, b < 256) :
    atobGo (btoaGo bs) = some bs := by
  induction bs using btoaGo.induct with
  | case1 => rw [btoaGo, atobGo]
  | case2 a =>
    have ha : a < 256 := hb a (by simp)
    have h1 : a / 4 * 4 + a % 4 * 16 / 16 = a := by omega
    rw [btoaGo, atobGo, b64Val_b64Char (show a / 4 < 64 by omega),
      b64Val_b64Char (show a % 4 * 16 < 64 by omega)]
    simp
    omega
  | case3 a b =>
    have ha : a < 256 := hb a (by simp)
    have hbb : b < 256 := hb b (by simp)
    have hne : b64Char (b % 16 * 4) ≠ '=' := b64Char_ne_eq (by omega)
    have h1 : a / 4 * 4 + (a % 4 * 16 + b / 16) / 16 = a := by omega
    have h2 : (a % 4 * 16 + b / 16) % 16 * 16 + b % 16 * 4 / 4 = b := by omega
    rw [btoaGo, atobGo, b64Val_b64Char (show a / 4 < 64 by omega),
      b64Val_b64Char (show a % 4 * 16 + b / 16 < 64 by omega),
      b64Val_b64Char (show b % 16 * 4 < 64 by omega)]
    simp [hne]
    omega
  | case4 a b c rest ih =>
    have ha : a < 256 := hb a (by simp)
    have hbb : b < 256 := hb b (by simp)
    have hc : c < 256 := hb c (by simp)
    have hrest : ∀ x ∈ rest, x < 256 := fun x hx => hb x (by simp [hx])
    have hne3 : b64Char (b % 16 * 4 + c / 64) ≠ '=' := b64Char_ne_eq (by omega)
    have hne4 : b64Char (c % 64) ≠ '=' := b64Char_ne_eq (by omega)
    have h1 : a / 4 * 4 + (a % 4 * 16 + b / 16) / 16 = a := by omega
    have h2 : (a % 4 * 16 + b / 16) % 16 * 16 + (b % 16 * 4 + c / 64) / 4 = b := by omega
    have h3 : (b % 16 * 4 + c / 64) % 4 * 64 + c % 64 = c := by omega
    rw [btoaGo, atobGo, b64Val_b64Char (show a / 4 < 64 by omega),
      b64Val_b64Char (show a % 4 * 16 + b / 16 < 64 by omega),
      b64Val_b64Char (show b % 16 * 4 + c / 64 < 64 by omega),
      b64Val_b64Char (show c % 64 < 64 by omega),
      ih hrest]
    simp [hne3, hne4]
    omega

theorem btoaGo_struct (bs : List Nat) (hb : ∀ b ∈ bs, b < 256) :
    ∃ p k, btoaGo bs = p ++ List.replicate k '=' ∧ k ≤ 2 ∧
      (∀ c ∈ p, ∃ n, n < 64 ∧ c = b64Char n) ∧ (p.length + k) % 4 = 0 := by
  induction bs using btoaGo.induct with
  | case1 =>
    refine ⟨[], 0, ?_, by omega, by simp, by simp⟩
    rw [btoaGo]
    rfl
  | case2 a =>
    have ha : a < 256 := hb a (by simp)
    refine ⟨[b64Char (a / 4), b64Char (a % 4 * 16)], 2, by rw [btoaGo]; rfl, by omega, ?_, by simp⟩
    intro c hc
    simp only [List.mem_cons, List.mem_nil_iff, or_false] at hc
    rcases hc with rfl | rfl
    · exact ⟨a / 4, by omega, rfl⟩
    · exact ⟨a % 4 * 16, by omega, rfl⟩
  | case3 a b =>
    have ha : a < 256 := hb a (by simp)
    have hbb : b < 256 := hb b (by simp)
    refine ⟨[b64Char (a / 4), b64Char (a % 4 * 16 + b / 16), b64Char (b % 16 * 4)], 1,
      by rw [btoaGo]; rfl, by omega, ?_, by simp⟩
    intro c hc
    simp only [List.mem_cons, List.mem_nil_iff, or_false] at hc
    rcases hc with rfl | rfl | rfl
    · exact ⟨a / 4, by omega, rfl⟩
    · exact ⟨a % 4 * 16 + b / 16, by omega, rfl⟩
    · exact ⟨b % 16 * 4, by omega, rfl⟩
  | case4 a b c rest ih =>
    have ha : a < 256 := hb a (by simp)
    have hbb : b < 256 := hb b (by simp)
    have hc : c < 256 := hb c (by simp)
    obtain ⟨p, k, heq, hk, hp, hmod⟩ := ih (fun x hx => hb x (by simp [hx]))
    refine ⟨b64Char (a / 4) :: b64Char (a % 4 * 16 + b / 16) ::
      b64Char (b % 16 * 4 + c / 64) :: b64Char (c % 64) :: p, k, ?_, hk, ?_, ?_⟩
    · rw [btoaGo, heq]; rfl
    · intro x hx
      simp only [List.mem_cons] at hx
      rcases hx with rfl | rfl | rfl | rfl | hx
      · exact ⟨a / 4, by omega, rfl⟩
      · exact ⟨a % 4 * 16 + b / 16, by omega, rfl⟩
      · exact ⟨b % 16 * 4 + c / 64, by omega, rfl⟩
      · exact ⟨c % 64, by omega, rfl⟩
      · exact hp x hx
    · simp only [List.length_cons]
      omega

theorem dropWhile_replicate_eq (k : Nat) (l : List Char) :
    (List.replicate k '=' ++ l).dropWhile (fun c => c = '=') =
      l.dropWhile (fun c => c = '=') := by
  induction k with
  | zero => rfl
  | succ n ih => simp [List.replicate_succ, List.dropWhile_cons, ih]

theorem stripTrailEq_append_replicate (p : List Char) (k : Nat)
    (hp : ∀ c ∈ p, c ≠ '=') :
    stripTrailEq (p ++ List.replicate k '=') = p := by
  unfold stripTrailEq
  rw [List.reverse_append, List.reverse_replicate, dropWhile_replicate_eq]
  have : p.reverse.dropWhile (fun c => c = '=') = p.reverse := by
    cases hrev : p.reverse with
    | nil => rfl
    | cons c tl =>
      have hc : c ∈ p := by
        rw [← List.mem_reverse, hrev]; simp
      rw [List.dropWhile_cons, if_neg (by simp [hp c hc])]
  rw [this, List.reverse_reverse]

def jsB64UrlEncode (bs : List Nat) : List Char :=
  stripTrailEq ((btoaGo bs).map urlSafeChar)

def jsB64UrlDecode (s : List Char) : Option (List Nat) :=
  atobGo (padB64 (s.map unUrlSafeChar))

theorem jsB64_roundtrip (bs : List Nat) (hb : ∀ b ∈ bs, b < 256) :
    jsB64UrlDecode (jsB64UrlEncode bs) = some bs := by
  obtain ⟨p, k, heq, hk, hp, hmod⟩ := btoaGo_struct bs hb
  unfold jsB64UrlEncode jsB64UrlDecode
  rw [heq, List.map_append, List.map_replicate]
  have hurleq : urlSafeChar '=' = '=' := by decide
  rw [hurleq]
  rw [stripTrailEq_append_replicate _ k (by
    intro c hc
    rw [List.mem_map] at hc
    obtain ⟨x, hx, rfl⟩ := hc
    obtain ⟨n, hn, rfl⟩ := hp x hx
    exact url_b64Char_ne_eq hn)]
  have hmapback : (p.map urlSafeChar).map unUrlSafeChar = p := by
    rw [List.map_map]
    conv_rhs => rw [← List.map_id p]
    apply List.map_congr_left
    intro x hx
    obtain ⟨n, hn, rfl⟩ := hp x hx
    exact unUrl_url_b64Char hn
  rw [hmapback]
  unfold padB64
  have hlen : (4 - p.length % 4) % 4 = k := by omega
  rw [hlen, ← heq]
  exact atobGo_btoaGo bs hb

def hexDigitCharLower (n : Nat) : Char :=
  if n < 10 then Char.ofNat (48 + n) else Char.ofNat (87 + n)

/-- `JSON.stringify`'s string escaping: quote, backslash, the named control
escapes, and `\u00XX` for the remaining control characters. -/
def jsonEscapeChar (c : Char) : List Char :=
  if c = '"' then ['\\', '"']
  else if c = '\\' then ['\\', '\\']
  else if c.toNat = 8 then ['\\', 'b']
  else if c.toNat = 9 then ['\\', 't']
  else if c.toNat = 10 then ['\\', 'n']
  else if c.toNat = 12 then ['\\', 'f']
  else if c.toNat = 13 then ['\\', 'r']
  else if c.toNat < 32 then
    ['\\', 'u', '0', '0', hexDigitCharLower (c.toNat / 16), hexDigitCharLower (c.toNat % 16)]
  else [c]

def jsonEscape (s : List Char) : List Char := s.flatMap jsonEscapeChar

def parseHex4 : List Char → Option (Nat × List Char)
  | h1 :: h2 :: h3 :: h4 :: rest =>
    match hexVal h1, hexVal h2, hexVal h3, hexVal h4 with
    | some a, some b, some c, some d => some ((((a * 16 + b) * 16 + c) * 16 + d), rest)
    | _, _, _, _ => none
  | _ => none

/-- String-body scanner for the JSON parser: `mode = true` is the
just-seen-a-backslash state.  Fuel decreases every step. -/
def parseStrBodyGo : Nat → Bool → List Char → Option (List Char × List Char)
  | 0, _, _ => none
  | _+1, _, [] => none
  | fuel+1, false, c :: rest =>
    if c = '"' then some ([], rest)
    else if c = '\\' then parseStrBodyGo fuel true rest
    else (parseStrBodyGo fuel false rest).map (fun p => (c :: p.1, p.2))
  | fuel+1, true, e :: rest =>
    if e = '"' then (parseStrBodyGo fuel false rest).map (fun p => ('"' :: p.1, p.2))
    else if e = '\\' then (parseStrBodyGo fuel false rest).map (fun p => ('\\' :: p.1, p.2))
    else if e = 'b' then (parseStrBodyGo fuel false rest).map (fun p => (Char.ofNat 8 :: p.1, p.2))
    else if e = 't' then (parseStrBodyGo fuel false rest).map (fun p => (Char.ofNat 9 :: p.1, p.2))
    else if e = 'n' then (parseStrBodyGo fuel false rest).map (fun p => (Char.ofNat 10 :: p.1, p.2))
    else if e = 'f' then (parseStrBodyGo fuel false rest).map (fun p => (Char.ofNat 12 :: p.1, p.2))
    else if e = 'r' then (parseStrBodyGo fuel false rest).map (fun p => (Char.ofNat 13 :: p.1, p.2))
    else if e = 'u' then
      (parseHex4 rest).bind (fun q =>
        (parseStrBodyGo fuel false q.2).map (fun p => (Char.ofNat q.1 :: p.1, p.2)))
    else none

def parseStrBody (input : List Char) : Option (List Char × List Char) :=
  parseStrBodyGo (input.length + 1) false input

theorem hexVal_lower {n : Nat} (h : n < 16) : hexVal (hexDigitCharLower n) = some n := by
  interval_cases n <;> decide

theorem char_ofNat_of_toNat {c : Char} {n : Nat} (h : c.toNat = n) :
    Char.ofNat n = c := by
  rw [← h]
  exact Char.ofNat_toNat c

theorem parseStrBodyGo_escape (s : List Char) :
    ∀ fuel rest, (jsonEscape s).length < fuel →
      parseStrBodyGo fuel false (jsonEscape s ++ '"' :: rest) = some (s, rest) := by
  induction s with
  | nil =>
    intro fuel rest hf
    obtain ⟨f, rfl⟩ : ∃ f, fuel = f + 1 := ⟨fuel - 1, by omega⟩
    rw [jsonEscape, List.flatMap_nil, List.nil_append, parseStrBodyGo, if_pos rfl]
  | cons c tl ih =>
    intro fuel rest hf
    rw [jsonEscape, List.flatMap_cons] at hf ⊢
    rw [List.append_assoc]
    rw [show (tl.flatMap jsonEscapeChar : List Char) = jsonEscape tl from rfl] at hf ⊢
    by_cases h1 : c = '"'
    · subst h1
      have hesc : jsonEscapeChar '"' = ['\\', '"'] := by decide
      rw [hesc] at hf ⊢
      simp only [List.length_append, List.length_cons, List.length_nil] at hf
      obtain ⟨g, rfl⟩ : ∃ g, fuel = g + 2 := ⟨fuel - 2, by omega⟩
      simp only [List.cons_append, List.nil_append]
      rw [parseStrBodyGo, if_neg (by decide), if_pos rfl,
        parseStrBodyGo, if_pos rfl, ih _ rest (by omega)]
      rfl
    · by_cases h2 : c = '\\'
      · subst h2
        have hesc : jsonEscapeChar '\\' = ['\\', '\\'] := by decide
        rw [hesc] at hf ⊢
        simp only [List.length_append, List.length_cons, List.length_nil] at hf
        obtain ⟨g, rfl⟩ : ∃ g, fuel = g + 2 := ⟨fuel - 2, by omega⟩
        simp only [List.cons_append, List.nil_append]
        rw [parseStrBodyGo, if_neg (by decide), if_pos rfl,
          parseStrBodyGo, if_neg (by decide), if_pos rfl, ih _ rest (by omega)]
        rfl
      · by_cases h8 : c.toNat = 8
        · have hesc : jsonEscapeChar c = ['\\', 'b'] := by
            rw [jsonEscapeChar, if_neg h1, if_neg h2, if_pos h8]
          rw [hesc] at hf ⊢
          simp only [List.length_append, List.length_cons, List.length_nil] at hf
          obtain ⟨g, rfl⟩ : ∃ g, fuel = g + 2 := ⟨fuel - 2, by omega⟩
          simp only [List.cons_append, List.nil_append]
          rw [parseStrBodyGo, if_neg (by decide), if_pos rfl,
            parseStrBodyGo, if_neg (by decide), if_neg (by decide), if_pos rfl,
            ih _ rest (by omega), char_ofNat_of_toNat h8]
          rfl
        · by_cases h9 : c.toNat = 9
          · have hesc : jsonEscapeChar c = ['\\', 't'] := by
              rw [jsonEscapeChar, if_neg h1, if_neg h2, if_neg h8, if_pos h9]
            rw [hesc] at hf ⊢
            simp only [List.length_append, List.length_cons, List.length_nil] at hf
            obtain ⟨g, rfl⟩ : ∃ g, fuel = g + 2 := ⟨fuel - 2, by omega⟩
            simp only [List.cons_append, List.nil_append]
            rw [parseStrBodyGo, if_neg (by decide), if_pos rfl,
              parseStrBodyGo, if_neg (by decide), if_neg (by decide), if_neg (by decide),
              if_pos rfl, ih _ rest (by omega), char_ofNat_of_toNat h9]
            rfl
          · by_cases h10 : c.toNat = 10
            · have hesc : jsonEscapeChar c = ['\\', 'n'] := by
                rw [jsonEscapeChar, if_neg h1, if_neg h2, if_neg h8, if_neg h9, if_pos h10]
              rw [hesc] at hf ⊢
              simp only [List.length_append, List.length_cons, List.length_nil] at hf
              obtain ⟨g, rfl⟩ : ∃ g, fuel = g + 2 := ⟨fuel - 2, by omega⟩
              simp only [List.cons_append, List.nil_append]
              rw [parseStrBodyGo, if_neg (by decide), if_pos rfl,
                parseStrBodyGo, if_neg (by decide), if_neg (by decide), if_neg (by decide),
                if_neg (by decide), if_pos rfl, ih _ rest (by omega), char_ofNat_of_toNat h10]
              rfl
            · by_cases h12 : c.toNat = 12
              · have hesc : jsonEscapeChar c = ['\\', 'f'] := by
                  rw [jsonEscapeChar, if_neg h1, if_neg h2, if_neg h8, if_neg h9, if_neg h10,
                    if_pos h12]
                rw [hesc] at hf ⊢
                simp only [List.length_append, List.length_cons, List.length_nil] at hf
                obtain ⟨g, rfl⟩ : ∃ g, fuel = g + 2 := ⟨fuel - 2, by omega⟩
                simp only [List.cons_append, List.nil_append]
                rw [parseStrBodyGo, if_neg (by decide), if_pos rfl,
                  parseStrBodyGo, if_neg (by decide), if_neg (by decide), if_neg (by decide),
                  if_neg (by decide), if_neg (by decide), if_pos rfl,
                  ih _ rest (by omega), char_ofNat_of_toNat h12]
                rfl
              · by_cases h13 : c.toNat = 13
                · have hesc : jsonEscapeChar c = ['\\', 'r'] := by
                    rw [jsonEscapeChar, if_neg h1, if_neg h2, if_neg h8, if_neg h9, if_neg h10,
                      if_neg h12, if_pos h13]
                  rw [hesc] at hf ⊢
                  simp only [List.length_append, List.length_cons, List.length_nil] at hf
                  obtain ⟨g, rfl⟩ : ∃ g, fuel = g + 2 := ⟨fuel - 2, by omega⟩
                  simp only [List.cons_append, List.nil_append]
                  rw [parseStrBodyGo, if_neg (by decide), if_pos rfl,
                    parseStrBodyGo, if_neg (by decide), if_neg (by decide), if_neg (by decide),
                    if_neg (by decide), if_neg (by decide), if_neg (by decide), if_pos rfl,
                    ih _ rest (by omega), char_ofNat_of_toNat h13]
                  rfl
                · by_cases hlow : c.toNat < 32
                  · have hesc : jsonEscapeChar c = ['\\', 'u', '0', '0',
                        hexDigitCharLower (c.toNat / 16), hexDigitCharLower (c.toNat % 16)] := by
                      rw [jsonEscapeChar, if_neg h1, if_neg h2, if_neg h8, if_neg h9, if_neg h10,
                        if_neg h12, if_neg h13, if_pos hlow]
                    rw [hesc] at hf ⊢
                    simp only [List.length_append, List.length_cons, List.length_nil] at hf
                    obtain ⟨g, rfl⟩ : ∃ g, fuel = g + 2 := ⟨fuel - 2, by omega⟩
                    simp only [List.cons_append, List.nil_append]
                    rw [parseStrBodyGo, if_neg (by decide), if_pos rfl,
                      parseStrBodyGo, if_neg (by decide), if_neg (by decide), if_neg (by decide),
                      if_neg (by decide), if_neg (by decide), if_neg (by decide),
                      if_neg (by decide), if_pos rfl]
                    rw [parseHex4]
                    rw [show hexVal '0' = some 0 from by decide,
                      hexVal_lower (show c.toNat / 16 < 16 by omega),
                      hexVal_lower (show c.toNat % 16 < 16 by omega)]
                    simp only [Option.bind_eq_bind, Option.some_bind]
                    rw [ih _ rest (by omega)]
                    have harith : ((0 * 16 + 0) * 16 + c.toNat / 16) * 16 + c.toNat % 16 =
                        c.toNat := by omega
                    rw [harith, Char.ofNat_toNat]
                    rfl
                  · have hesc : jsonEscapeChar c = [c] := by
                      rw [jsonEscapeChar, if_neg h1, if_neg h2, if_neg h8, if_neg h9, if_neg h10,
                        if_neg h12, if_neg h13, if_neg hlow]
                    rw [hesc] at hf ⊢
                    simp only [List.length_append, List.length_cons, List.length_nil] at hf
                    obtain ⟨g, rfl⟩ : ∃ g, fuel = g + 1 := ⟨fuel - 1, by omega⟩
                    simp only [List.cons_append, List.nil_append]
                    rw [parseStrBodyGo, if_neg h1, if_neg h2, ih _ rest (by omega)]
                    rfl

theorem parseStrBody_escape (s rest : List Char) :
    parseStrBody (jsonEscape s ++ '"' :: rest) = some (s, rest) := by
  unfold parseStrBody
  apply parseStrBodyGo_escape
  simp only [List.length_append, List.length_cons]
  omega


def parseLit : List Char → List Char → Option (List Char)
  | [], input => some input
  | _ :: _, [] => none
  | l :: ls, c :: cs => if c = l then parseLit ls cs else none

theorem parseLit_append (l r : List Char) : parseLit l (l ++ r) = some r := by
  induction l with
  | nil => rfl
  | cons c cs ih => rw [List.cons_append, parseLit, if_pos rfl, ih]

theorem parseLit_mismatch (p t1 t2 r : List Char) (a b : Char) (hab : a ≠ b) :
    parseLit (p ++ a :: t1) ((p ++ b :: t2) ++ r) = none := by
  induction p with
  | nil =>
    simp only [List.nil_append, List.cons_append]
    rw [parseLit, if_neg (fun h => hab h.symm)]
  | cons c cs ih =>
    simp only [List.cons_append]
    rw [parseLit, if_pos rfl]
    exact ih

def digitChar (n : Nat) : Char := Char.ofNat (48 + n)

def natDigitsGo : Nat → Nat → List Char
  | 0, _ => []
  | fuel + 1, n =>
    if n < 10 then [digitChar n] else natDigitsGo fuel (n / 10) ++ [digitChar (n % 10)]

def natDigits (n : Nat) : List Char := natDigitsGo (n + 1) n

def isDigitChar (c : Char) : Bool := decide (48 ≤ c.toNat ∧ c.toNat ≤ 57)

def spanDigits : List Char → List Char × List Char
  | [] => ([], [])
  | c :: cs =>
    if isDigitChar c then ((spanDigits cs).1.cons c, (spanDigits cs).2)
    else ([], c :: cs)

def digitsToNat (ds : List Char) : Nat := ds.foldl (fun a c => a * 10 + (c.toNat - 48)) 0

def parseNat (input : List Char) : Option (Nat × List Char) :=
  match spanDigits input with
  | ([], _) => none
  | (ds, r) => some (digitsToNat ds, r)

theorem digitChar_toNat {n : Nat} (h : n < 10) : (digitChar n).toNat = 48 + n := by
  interval_cases n <;> decide

theorem digitChar_isDigit {n : Nat} (h : n < 10) : isDigitChar (digitChar n) = true := by
  interval_cases n <;> decide

theorem natDigitsGo_digits {fuel n : Nat} : ∀ c ∈ natDigitsGo fuel n, isDigitChar c = true := by
  induction fuel generalizing n with
  | zero => intro c hc; simp [natDigitsGo] at hc
  | succ f ih =>
    intro c hc
    rw [natDigitsGo] at hc
    by_cases h : n < 10
    · rw [if_pos h] at hc
      simp only [List.mem_singleton] at hc
      subst hc
      exact digitChar_isDigit h
    · rw [if_neg h] at hc
      rw [List.mem_append] at hc
      rcases hc with hc | hc
      · exact ih c hc
      · simp only [List.mem_singleton] at hc
        subst hc
        exact digitChar_isDigit (by omega)

theorem spanDigits_digits_append (ds : List Char) (hds : ∀ c ∈ ds, isDigitChar c = true)
    (rest : List Char) (hr : ∀ c, rest.head? = some c → isDigitChar c = false) :
    spanDigits (ds ++ rest) = (ds, rest) := by
  induction ds with
  | nil =>
    cases rest with
    | nil => rfl
    | cons c cs =>
      rw [List.nil_append, spanDigits, if_neg (by simp [hr c rfl])]
  | cons d ds2 ih =>
    rw [List.cons_append, spanDigits,
      if_pos (hds d (by simp)), ih (fun c hc => hds c (by simp [hc]))]

theorem digitsToNat_append_one (l : List Char) (c : Char) :
    digitsToNat (l ++ [c]) = digitsToNat l * 10 + (c.toNat - 48) := by
  unfold digitsToNat
  rw [List.foldl_append]
  rfl

theorem digitsToNat_natDigitsGo {fuel n : Nat} (h : n < fuel) :
    digitsToNat (natDigitsGo fuel n) = n := by
  induction fuel generalizing n with
  | zero => omega
  | succ f ih =>
    rw [natDigitsGo]
    by_cases hn : n < 10
    · rw [if_pos hn]
      show 0 * 10 + ((digitChar n).toNat - 48) = n
      rw [digitChar_toNat hn]
      omega
    · rw [if_neg hn, digitsToNat_append_one, ih (by omega), digitChar_toNat (by omega)]
      omega

theorem parseNat_natDigits (n : Nat) (rest : List Char)
    (hr : ∀ c, rest.head? = some c → isDigitChar c = false) :
    parseNat (natDigits n ++ rest) = some (n, rest) := by
  unfold parseNat
  rw [natDigits, spanDigits_digits_append _ (fun c hc => natDigitsGo_digits c hc) rest hr]
  have hne : natDigitsGo (n + 1) n ≠ [] := by
    rw [natDigitsGo]
    by_cases hn : n < 10
    · rw [if_pos hn]; simp
    · rw [if_neg hn]; simp
  cases hd : natDigitsGo (n + 1) n with
  | nil => exact absurd hd hne
  | cons x xs =>
    rw [← hd]
    have : digitsToNat (natDigitsGo (n + 1) n) = n := digitsToNat_natDigitsGo (by omega)
    rw [hd] at this ⊢
    simp only [this]

def queryTypeStr : QueryType → String
  | .time_series => "time_series"
  | .cross_section => "cross_section"
  | .scatter => "scatter"
  | .ranking => "ranking"

def queryTypeOfToList (s : List Char) : Option QueryType :=
  if s = "time_series".toList then some .time_series
  else if s = "cross_section".toList then some .cross_section
  else if s = "scatter".toList then some .scatter
  else if s = "ranking".toList then some .ranking
  else none

def chartTypeStr : ChartType → String
  | .line => "line"
  | .bar => "bar"
  | .scatter => "scatter"

def chartTypeOfToList (s : List Char) : Option ChartType :=
  if s = "line".toList then some .line
  else if s = "bar".toList then some .bar
  else if s = "scatter".toList then some .scatter
  else none

def printBoolJs (b : Bool) : List Char :=
  if b then "true".toList else "false".toList

def parseBool (input : List Char) : Option (Bool × List Char) :=
  match parseLit "true".toList input with
  | some r => some (true, r)
  | none =>
    match parseLit "false".toList input with
    | some r => some (false, r)
    | none => none

theorem parseBool_print (b : Bool) (rest : List Char) :
    parseBool (printBoolJs b ++ rest) = some (b, rest) := by
  cases b
  · have hm : parseLit "true".toList ("false".toList ++ rest) = none :=
      parseLit_mismatch [] "rue".toList "alse".toList rest 't' 'f' (by decide)
    rw [printBoolJs, if_neg (by decide), parseBool, hm, parseLit_append]
  · rw [printBoolJs, if_pos rfl, parseBool, parseLit_append]

theorem queryType_roundtrip (qt : QueryType) :
    queryTypeOfToList (queryTypeStr qt).toList = some qt := by
  cases qt <;> rfl

theorem queryType_noEscape (qt : QueryType) :
    jsonEscape (queryTypeStr qt).toList = (queryTypeStr qt).toList := by
  cases qt <;> rfl

theorem chartType_roundtrip (ct : ChartType) :
    chartTypeOfToList (chartTypeStr ct).toList = some ct := by
  cases ct <;> rfl

theorem chartType_noEscape (ct : ChartType) :
    jsonEscape (chartTypeStr ct).toList = (chartTypeStr ct).toList := by
  cases ct <;> rfl

def printUnitField : Option String → List Char
  | some u => "\",\"unit\":\"".toList ++ jsonEscape u.toList ++ "\"\x7d".toList
  | none => "\"\x7d".toList

def printIndicator (c : IndicatorConfig) : List Char :=
  "\x7b\"indicatorId\":\"".toList ++ jsonEscape c.indicatorId.toList
    ++ "\",\"label\":\"".toList ++ jsonEscape c.label.toList
    ++ printUnitField c.unit

def parseIndicator (input : List Char) : Option (IndicatorConfig × List Char) :=
  (parseLit "\x7b\"indicatorId\":\"".toList input).bind fun r1 =>
  (parseStrBody r1).bind fun p1 =>
  (parseLit ",\"label\":\"".toList p1.2).bind fun r2 =>
  (parseStrBody r2).bind fun p2 =>
  (parseLit ",\"unit\":\"".toList p2.2).elim
    ((parseLit "\x7d".toList p2.2).map fun r4 =>
      ({ indicatorId := String.mk p1.1, label := String.mk p2.1, unit := none }, r4))
    (fun r3 =>
      (parseStrBody r3).bind fun p3 =>
      (parseLit "\x7d".toList p3.2).map fun r4 =>
        ({ indicatorId := String.mk p1.1, label := String.mk p2.1,
           unit := some (String.mk p3.1) }, r4))

theorem parseIndicator_print (c : IndicatorConfig) (rest : List Char) :
    parseIndicator (printIndicator c ++ rest) = some (c, rest) := by
  unfold printIndicator parseIndicator
  cases hu : c.unit with
  | some u =>
    rw [printUnitField]
    simp only [List.append_assoc]
    rw [parseLit_append, Option.some_bind]
    rw [show ("\",\"label\":\"".toList ++ (jsonEscape c.label.toList ++
        ("\",\"unit\":\"".toList ++ (jsonEscape u.toList ++ ("\"\x7d".toList ++ rest)))) : List Char) =
      '"' :: (",\"label\":\"".toList ++ (jsonEscape c.label.toList ++
        ('"' :: (",\"unit\":\"".toList ++ (jsonEscape u.toList ++
          ('"' :: ("\x7d".toList ++ rest))))) : List Char)) from rfl]
    rw [parseStrBody_escape, Option.some_bind, parseLit_append, Option.some_bind,
      parseStrBody_escape, Option.some_bind, parseLit_append, Option.elim_some,
      parseStrBody_escape, Option.some_bind]
    dsimp only
    rw [parseLit_append, Option.map_some']
    exact congrArg some (by
      rw [show String.mk c.indicatorId.toList = c.indicatorId from rfl,
        show String.mk c.label.toList = c.label from rfl,
        show String.mk u.toList = u from rfl, ← hu])
  | none =>
    rw [printUnitField]
    simp only [List.append_assoc]
    rw [parseLit_append, Option.some_bind]
    rw [show ("\",\"label\":\"".toList ++ (jsonEscape c.label.toList ++
        ("\"\x7d".toList ++ rest)) : List Char) =
      '"' :: (",\"label\":\"".toList ++ (jsonEscape c.label.toList ++
        ('"' :: ("\x7d".toList ++ rest)) : List Char)) from rfl]
    rw [parseStrBody_escape, Option.some_bind, parseLit_append, Option.some_bind,
      parseStrBody_escape, Option.some_bind]
    have hm : parseLit ",\"unit\":\"".toList ("\x7d".toList ++ rest) = none :=
      parseLit_mismatch [] "\"unit\":\"".toList [] rest ',' '\x7d' (by decide)
    rw [hm, Option.elim_none]
    dsimp only
    rw [parseLit_append, Option.map_some']
    exact congrArg some (by
      rw [show String.mk c.indicatorId.toList = c.indicatorId from rfl,
        show String.mk c.label.toList = c.label from rfl, ← hu])

def printStrListGo : List String → List Char
  | [] => []
  | [s] => "\"".toList ++ jsonEscape s.toList ++ "\"]".toList
  | s :: tl => "\"".toList ++ jsonEscape s.toList ++ "\",".toList ++ printStrListGo tl

def printStrList : List String → List Char
  | [] => "[]".toList
  | xs => "[".toList ++ printStrListGo xs

def parseStrListGo : Nat → List Char → Option (List String × List Char)
  | 0, _ => none
  | fuel + 1, input =>
    (parseLit "\"".toList input).bind fun r1 =>
    (parseStrBody r1).bind fun p =>
    (parseLit ",".toList p.2).elim
      ((parseLit "]".toList p.2).map fun r3 => ([String.mk p.1], r3))
      (fun r2 => (parseStrListGo fuel r2).map fun q => (String.mk p.1 :: q.1, q.2))

def parseStrList (input : List Char) : Option (List String × List Char) :=
  (parseLit "[".toList input).bind fun r1 =>
  (parseLit "]".toList r1).elim
    (parseStrListGo (r1.length + 1) r1)
    (fun r2 => some ([], r2))

theorem parseStrListGo_print (xs : List String) (hne : xs ≠ []) :
    ∀ fuel, xs.length ≤ fuel → ∀ rest,
      parseStrListGo fuel (printStrListGo xs ++ rest) = some (xs, rest) := by
  induction xs with
  | nil => exact absurd rfl hne
  | cons s tl ih =>
    intro fuel hf rest
    obtain ⟨f, rfl⟩ : ∃ f, fuel = f + 1 := ⟨fuel - 1, by simp at hf; omega⟩
    cases tl with
    | nil =>
      rw [printStrListGo]
      simp only [List.append_assoc]
      rw [parseStrListGo, parseLit_append, Option.some_bind]
      rw [show ("\"]".toList ++ rest : List Char) = '"' :: ("]".toList ++ rest) from rfl,
        parseStrBody_escape, Option.some_bind]
      have hm : parseLit ",".toList ("]".toList ++ rest) = none :=
        parseLit_mismatch [] [] "".toList rest ',' ']' (by decide)
      rw [hm, Option.elim_none]
      dsimp only
      rw [parseLit_append, Option.map_some']
      rfl
    | cons s2 tl2 =>
      rw [printStrListGo]
      simp only [List.append_assoc]
      rw [parseStrListGo, parseLit_append, Option.some_bind]
      rw [show ("\",".toList ++ (printStrListGo (s2 :: tl2) ++ rest) : List Char) =
        '"' :: (",".toList ++ (printStrListGo (s2 :: tl2) ++ rest)) from rfl,
        parseStrBody_escape, Option.some_bind]
      dsimp only
      rw [parseLit_append, Option.elim_some,
        ih (fun h => List.noConfusion h) f (by simp at hf ⊢; omega) rest, Option.map_some']
      rfl
      exact fun h => List.noConfusion h

theorem printStrListGo_length (xs : List String) : xs.length ≤ (printStrListGo xs).length := by
  induction xs with
  | nil => simp [printStrListGo]
  | cons s tl ih =>
    cases tl with
    | nil => simp [printStrListGo]
    | cons s2 tl2 =>
      rw [printStrListGo]
      simp only [List.length_append, List.length_cons]
      have h1 : ("\"".toList : List Char).length = 1 := rfl
      have h2 : ("\",".toList : List Char).length = 2 := rfl
      simp only [List.length_cons] at ih
      omega
      exact fun h => List.noConfusion h

theorem parseStrList_print (xs : List String) (rest : List Char) :
    parseStrList (printStrList xs ++ rest) = some (xs, rest) := by
  cases xs with
  | nil =>
    rw [printStrList, parseStrList]
    rw [show ("[]".toList ++ rest : List Char) = "[".toList ++ ("]".toList ++ rest) from rfl,
      parseLit_append, Option.some_bind, parseLit_append, Option.elim_some]
  | cons s tl =>
    rw [printStrList, parseStrList]
    simp only [List.append_assoc]
    rw [parseLit_append, Option.some_bind]
    have hhead : ∃ X, printStrListGo (s :: tl) = '"' :: X := by
      cases tl <;> exact ⟨_, rfl⟩
    obtain ⟨X, hX⟩ := hhead
    have hm : parseLit "]".toList (printStrListGo (s :: tl) ++ rest) = none := by
      rw [hX]
      exact parseLit_mismatch [] [] X rest ']' '"' (by decide)
    rw [hm, Option.elim_none]
    refine parseStrListGo_print (s :: tl) (fun h => List.noConfusion h) _ ?_ rest
    have := printStrListGo_length (s :: tl)
    simp only [List.length_append, List.length_cons] at this ⊢
    omega
    exact fun h => List.noConfusion h

def printIndListGo : List IndicatorConfig → List Char
  | [] => []
  | [c] => printIndicator c ++ "]".toList
  | c :: tl => printIndicator c ++ ",".toList ++ printIndListGo tl

def printIndList : List IndicatorConfig → List Char
  | [] => "[]".toList
  | xs => "[".toList ++ printIndListGo xs

def parseIndListGo : Nat → List Char → Option (List IndicatorConfig × List Char)
  | 0, _ => none
  | fuel + 1, input =>
    (parseIndicator input).bind fun p =>
    (parseLit ",".toList p.2).elim
      ((parseLit "]".toList p.2).map fun r3 => ([p.1], r3))
      (fun r2 => (parseIndListGo fuel r2).map fun q => (p.1 :: q.1, q.2))

def parseIndList (input : List Char) : Option (List IndicatorConfig × List Char) :=
  (parseLit "[".toList input).bind fun r1 =>
  (parseLit "]".toList r1).elim
    (parseIndListGo (r1.length + 1) r1)
    (fun r2 => some ([], r2))

theorem parseIndListGo_print (xs : List IndicatorConfig) (hne : xs ≠ []) :
    ∀ fuel, xs.length ≤ fuel → ∀ rest,
      parseIndListGo fuel (printIndListGo xs ++ rest) = some (xs, rest) := by
  induction xs with
  | nil => exact absurd rfl hne
  | cons c tl ih =>
    intro fuel hf rest
    obtain ⟨f, rfl⟩ : ∃ f, fuel = f + 1 := ⟨fuel - 1, by simp at hf; omega⟩
    cases tl with
    | nil =>
      rw [printIndListGo]
      simp only [List.append_assoc]
      rw [parseIndListGo, parseIndicator_print, Option.some_bind]
      have hm : parseLit ",".toList ("]".toList ++ rest) = none :=
        parseLit_mismatch [] [] "".toList rest ',' ']' (by decide)
      rw [hm, Option.elim_none]
      dsimp only
      rw [parseLit_append, Option.map_some']
    | cons c2 tl2 =>
      rw [printIndListGo]
      simp only [List.append_assoc]
      rw [parseIndListGo, parseIndicator_print, Option.some_bind]
      dsimp only
      rw [parseLit_append, Option.elim_some,
        ih (fun h => List.noConfusion h) f (by simp at hf ⊢; omega) rest, Option.map_some']
      exact fun h => List.noConfusion h

theorem printIndListGo_length (xs : List IndicatorConfig) :
    xs.length ≤ (printIndListGo xs).length := by
  induction xs with
  | nil => simp [printIndListGo]
  | cons c tl ih =>
    cases tl with
    | nil =>
      rw [printIndListGo]
      simp only [List.length_append, List.length_cons, List.length_nil]
      have h1 : ∃ X, printIndicator c = '\x7b' :: X := ⟨_, rfl⟩
      obtain ⟨X, hX⟩ := h1
      rw [hX]
      simp
    | cons c2 tl2 =>
      rw [printIndListGo]
      simp only [List.length_append, List.length_cons] at ih ⊢
      have h1 : ∃ X, printIndicator c = '\x7b' :: X := ⟨_, rfl⟩
      obtain ⟨X, hX⟩ := h1
      rw [hX]
      simp only [List.length_cons]
      omega
      exact fun h => List.noConfusion h

theorem parseIndList_print (xs : List IndicatorConfig) (rest : List Char) :
    parseIndList (printIndList xs ++ rest) = some (xs, rest) := by
  cases xs with
  | nil =>
    rw [printIndList, parseIndList]
    rw [show ("[]".toList ++ rest : List Char) = "[".toList ++ ("]".toList ++ rest) from rfl,
      parseLit_append, Option.some_bind, parseLit_append, Option.elim_some]
  | cons c tl =>
    rw [printIndList, parseIndList]
    simp only [List.append_assoc]
    rw [parseLit_append, Option.some_bind]
    have hhead : ∃ X, printIndListGo (c :: tl) = '\x7b' :: X := by
      cases tl <;> exact ⟨_, rfl⟩
    obtain ⟨X, hX⟩ := hhead
    have hm : parseLit "]".toList (printIndListGo (c :: tl) ++ rest) = none := by
      rw [hX]
      exact parseLit_mismatch [] [] X rest ']' '\x7b' (by decide)
    rw [hm, Option.elim_none]
    refine parseIndListGo_print (c :: tl) (fun h => List.noConfusion h) _ ?_ rest
    have := printIndListGo_length (c :: tl)
    simp only [List.length_append, List.length_cons] at this ⊢
    omega
    exact fun h => List.noConfusion h

def printTimeRange (tr : TimeRange) : List Char :=
  "\x7b\"start\":\"".toList ++ jsonEscape tr.start.toList
    ++ "\",\"end\":\"".toList ++ jsonEscape tr.stop.toList ++ "\"\x7d".toList

def parseTimeRange (input : List Char) : Option (TimeRange × List Char) :=
  (parseLit "\x7b\"start\":\"".toList input).bind fun r1 =>
  (parseStrBody r1).bind fun p1 =>
  (parseLit ",\"end\":\"".toList p1.2).bind fun r2 =>
  (parseStrBody r2).bind fun p2 =>
  (parseLit "\x7d".toList p2.2).map fun r3 =>
    ({ start := String.mk p1.1, stop := String.mk p2.1 }, r3)

theorem parseTimeRange_print (tr : TimeRange) (rest : List Char) :
    parseTimeRange (printTimeRange tr ++ rest) = some (tr, rest) := by
  unfold printTimeRange parseTimeRange
  simp only [List.append_assoc]
  rw [parseLit_append, Option.some_bind]
  rw [show ("\",\"end\":\"".toList ++ (jsonEscape tr.stop.toList ++
      ("\"\x7d".toList ++ rest)) : List Char) =
    '"' :: (",\"end\":\"".toList ++ (jsonEscape tr.stop.toList ++
      ('"' :: ("\x7d".toList ++ rest)))) from rfl]
  rw [parseStrBody_escape, Option.some_bind, parseLit_append, Option.some_bind,
    parseStrBody_escape, Option.some_bind]
  dsimp only
  rw [parseLit_append, Option.map_some']
  rfl

def printRegionField : Option String → List Char
  | some s => ",\"regionFilter\":\"".toList ++ jsonEscape s.toList ++ "\"".toList
  | none => []

def printTopNField : Option Nat → List Char
  | some n => ",\"topN\":".toList ++ natDigits n
  | none => []

def printFilters (f : QueryFilters) : List Char :=
  "\x7b\"timeRange\":".toList ++ printTimeRange f.timeRange
    ++ printRegionField f.regionFilter ++ printTopNField f.topN ++ "\x7d".toList

def parseFilters (input : List Char) : Option (QueryFilters × List Char) :=
  (parseLit "\x7b\"timeRange\":".toList input).bind fun r1 =>
  (parseTimeRange r1).bind fun p1 =>
  (parseLit ",\"regionFilter\":\"".toList p1.2).elim
    ((parseLit ",\"topN\":".toList p1.2).elim
      ((parseLit "\x7d".toList p1.2).map fun r4 =>
        ({ timeRange := p1.1, regionFilter := none, topN := none }, r4))
      (fun r3 => (parseNat r3).bind fun p3 =>
        (parseLit "\x7d".toList p3.2).map fun r4 =>
          ({ timeRange := p1.1, regionFilter := none, topN := some p3.1 }, r4)))
    (fun r2 => (parseStrBody r2).bind fun p2 =>
      (parseLit ",\"topN\":".toList p2.2).elim
        ((parseLit "\x7d".toList p2.2).map fun r4 =>
          ({ timeRange := p1.1, regionFilter := some (String.mk p2.1), topN := none }, r4))
        (fun r3 => (parseNat r3).bind fun p3 =>
          (parseLit "\x7d".toList p3.2).map fun r4 =>
            ({ timeRange := p1.1, regionFilter := some (String.mk p2.1),
               topN := some p3.1 }, r4)))

theorem parseFilters_print (f : QueryFilters) (rest : List Char) :
    parseFilters (printFilters f ++ rest) = some (f, rest) := by
  unfold printFilters parseFilters
  cases hr : f.regionFilter with
  | none =>
    rw [printRegionField]
    cases ht : f.topN with
    | none =>
      rw [printTopNField]
      simp only [List.append_assoc, List.nil_append]
      rw [parseLit_append, Option.some_bind, parseTimeRange_print, Option.some_bind]
      have hm1 : parseLit ",\"regionFilter\":\"".toList ("\x7d".toList ++ rest) = none :=
        parseLit_mismatch [] "\"regionFilter\":\"".toList [] rest ',' '\x7d' (by decide)
      have hm2 : parseLit ",\"topN\":".toList ("\x7d".toList ++ rest) = none :=
        parseLit_mismatch [] "\"topN\":".toList [] rest ',' '\x7d' (by decide)
      rw [hm1, Option.elim_none, hm2, Option.elim_none]
      dsimp only
      rw [parseLit_append, Option.map_some']
      exact congrArg some (by rw [← hr, ← ht])
    | some n =>
      rw [printTopNField]
      simp only [List.append_assoc, List.nil_append]
      rw [parseLit_append, Option.some_bind, parseTimeRange_print, Option.some_bind]
      have hm1 : parseLit ",\"regionFilter\":\"".toList
          (",\"topN\":".toList ++ (natDigits n ++ ("\x7d".toList ++ rest))) = none :=
        parseLit_mismatch [',', '"'] "egionFilter\":\"".toList "opN\":".toList
          (natDigits n ++ ("\x7d".toList ++ rest)) 'r' 't' (by decide)
      rw [hm1, Option.elim_none, parseLit_append, Option.elim_some]
      rw [parseNat_natDigits n ("\x7d".toList ++ rest) (by
        intro c hc
        rw [show (("\x7d".toList ++ rest : List Char)).head? = some '\x7d' from rfl] at hc
        cases hc
        decide), Option.some_bind]
      dsimp only
      rw [parseLit_append, Option.map_some']
      exact congrArg some (by rw [← hr, ← ht])
  | some s =>
    rw [printRegionField]
    cases ht : f.topN with
    | none =>
      rw [printTopNField]
      simp only [List.append_assoc, List.append_nil]
      rw [parseLit_append, Option.some_bind, parseTimeRange_print, Option.some_bind,
        parseLit_append, Option.elim_some]
      rw [show (jsonEscape s.toList ++ ("\"".toList ++ ("\x7d".toList ++ rest)) : List Char) =
        jsonEscape s.toList ++ '"' :: ("\x7d".toList ++ rest) from rfl,
        parseStrBody_escape, Option.some_bind]
      have hm2 : parseLit ",\"topN\":".toList ("\x7d".toList ++ rest) = none :=
        parseLit_mismatch [] "\"topN\":".toList [] rest ',' '\x7d' (by decide)
      rw [hm2, Option.elim_none]
      dsimp only
      rw [parseLit_append, Option.map_some']
      exact congrArg some (by rw [show String.mk s.toList = s from rfl, ← hr, ← ht])
    | some n =>
      rw [printTopNField]
      simp only [List.append_assoc]
      rw [parseLit_append, Option.some_bind, parseTimeRange_print, Option.some_bind,
        parseLit_append, Option.elim_some]
      rw [show (jsonEscape s.toList ++ ("\"".toList ++ (",\"topN\":".toList ++
          (natDigits n ++ ("\x7d".toList ++ rest)))) : List Char) =
        jsonEscape s.toList ++ '"' :: (",\"topN\":".toList ++
          (natDigits n ++ ("\x7d".toList ++ rest))) from rfl,
        parseStrBody_escape, Option.some_bind]
      dsimp only
      rw [parseLit_append, Option.elim_some]
      rw [parseNat_natDigits n ("\x7d".toList ++ rest) (by
        intro c hc
        rw [show (("\x7d".toList ++ rest : List Char)).head? = some '\x7d' from rfl] at hc
        cases hc
        decide), Option.some_bind]
      dsimp only
      rw [parseLit_append, Option.map_some']
      exact congrArg some (by rw [show String.mk s.toList = s from rfl, ← hr, ← ht])

def printStackField : Option Bool → List Char
  | some b => ",\"stack\":".toList ++ printBoolJs b
  | none => []

def printLogField : Option Bool → List Char
  | some b => ",\"logScaleY\":".toList ++ printBoolJs b
  | none => []

def printRender (r : RenderConfig) : List Char :=
  "\x7b\"chartType\":\"".toList ++ jsonEscape (chartTypeStr r.chartType).toList
    ++ "\"".toList ++ printStackField r.stack ++ printLogField r.logScaleY ++ "\x7d".toList

def parseRender (input : List Char) : Option (RenderConfig × List Char) :=
  (parseLit "\x7b\"chartType\":\"".toList input).bind fun r1 =>
  (parseStrBody r1).bind fun p1 =>
  (chartTypeOfToList p1.1).bind fun ct =>
  (parseLit ",\"stack\":".toList p1.2).elim
    ((parseLit ",\"logScaleY\":".toList p1.2).elim
      ((parseLit "\x7d".toList p1.2).map fun r4 =>
        ({ chartType := ct, stack := none, logScaleY := none }, r4))
      (fun r3 => (parseBool r3).bind fun p3 =>
        (parseLit "\x7d".toList p3.2).map fun r4 =>
          ({ chartType := ct, stack := none, logScaleY := some p3.1 }, r4)))
    (fun r2 => (parseBool r2).bind fun p2 =>
      (parseLit ",\"logScaleY\":".toList p2.2).elim
        ((parseLit "\x7d".toList p2.2).map fun r4 =>
          ({ chartType := ct, stack := some p2.1, logScaleY := none }, r4))
        (fun r3 => (parseBool r3).bind fun p3 =>
          (parseLit "\x7d".toList p3.2).map fun r4 =>
            ({ chartType := ct, stack := some p2.1, logScaleY := some p3.1 }, r4)))

theorem parseRender_print (r : RenderConfig) (rest : List Char) :
    parseRender (printRender r ++ rest) = some (r, rest) := by
  obtain ⟨ct0, st0, lg0⟩ := r
  unfold printRender parseRender
  dsimp only
  cases hs : st0 with
  | none =>
    rw [printStackField]
    cases hl : lg0 with
    | none =>
      rw [printLogField]
      simp only [List.append_assoc, List.nil_append]
      rw [parseLit_append, Option.some_bind]
      rw [show (jsonEscape (chartTypeStr ct0).toList ++ ("\"".toList ++
          ("\x7d".toList ++ rest)) : List Char) =
        jsonEscape (chartTypeStr ct0).toList ++ '"' :: ("\x7d".toList ++ rest) from rfl,
        parseStrBody_escape, Option.some_bind, chartType_roundtrip, Option.some_bind]
      have hm1 : parseLit ",\"stack\":".toList ("\x7d".toList ++ rest) = none :=
        parseLit_mismatch [] "\"stack\":".toList [] rest ',' '\x7d' (by decide)
      have hm2 : parseLit ",\"logScaleY\":".toList ("\x7d".toList ++ rest) = none :=
        parseLit_mismatch [] "\"logScaleY\":".toList [] rest ',' '\x7d' (by decide)
      rw [hm1, Option.elim_none, hm2, Option.elim_none]
      dsimp only
      rw [parseLit_append, Option.map_some']
    | some b2 =>
      rw [printLogField]
      simp only [List.append_assoc, List.nil_append]
      rw [parseLit_append, Option.some_bind]
      rw [show (jsonEscape (chartTypeStr ct0).toList ++ ("\"".toList ++
          (",\"logScaleY\":".toList ++ (printBoolJs b2 ++ ("\x7d".toList ++ rest)))) : List Char) =
        jsonEscape (chartTypeStr ct0).toList ++ '"' :: (",\"logScaleY\":".toList ++
          (printBoolJs b2 ++ ("\x7d".toList ++ rest))) from rfl,
        parseStrBody_escape, Option.some_bind, chartType_roundtrip, Option.some_bind]
      have hm1 : parseLit ",\"stack\":".toList (",\"logScaleY\":".toList ++
          (printBoolJs b2 ++ ("\x7d".toList ++ rest))) = none :=
        parseLit_mismatch [',', '"'] "tack\":".toList "ogScaleY\":".toList
          (printBoolJs b2 ++ ("\x7d".toList ++ rest)) 's' 'l' (by decide)
      rw [hm1, Option.elim_none]
      dsimp only
      rw [parseLit_append, Option.elim_some, parseBool_print, Option.some_bind]
      dsimp only
      rw [parseLit_append, Option.map_some']
  | some b1 =>
    rw [printStackField]
    cases hl : lg0 with
    | none =>
      rw [printLogField]
      simp only [List.append_assoc, List.append_nil]
      rw [parseLit_append, Option.some_bind]
      rw [show (jsonEscape (chartTypeStr ct0).toList ++ ("\"".toList ++
          (",\"stack\":".toList ++ (printBoolJs b1 ++ ("\x7d".toList ++ rest)))) : List Char) =
        jsonEscape (chartTypeStr ct0).toList ++ '"' :: (",\"stack\":".toList ++
          (printBoolJs b1 ++ ("\x7d".toList ++ rest))) from rfl,
        parseStrBody_escape, Option.some_bind, chartType_roundtrip, Option.some_bind]
      dsimp only
      rw [parseLit_append, Option.elim_some, parseBool_print, Option.some_bind]
      have hm2 : parseLit ",\"logScaleY\":".toList ("\x7d".toList ++ rest) = none :=
        parseLit_mismatch [] "\"logScaleY\":".toList [] rest ',' '\x7d' (by decide)
      rw [hm2, Option.elim_none]
      dsimp only
      rw [parseLit_append, Option.map_some']
    | some b2 =>
      rw [printLogField]
      simp only [List.append_assoc]
      rw [parseLit_append, Option.some_bind]
      rw [show (jsonEscape (chartTypeStr ct0).toList ++ ("\"".toList ++
          (",\"stack\":".toList ++ (printBoolJs b1 ++ (",\"logScaleY\":".toList ++
            (printBoolJs b2 ++ ("\x7d".toList ++ rest)))))) : List Char) =
        jsonEscape (chartTypeStr ct0).toList ++ '"' :: (",\"stack\":".toList ++
          (printBoolJs b1 ++ (",\"logScaleY\":".toList ++
            (printBoolJs b2 ++ ("\x7d".toList ++ rest))))) from rfl,
        parseStrBody_escape, Option.some_bind, chartType_roundtrip, Option.some_bind]
      dsimp only
      rw [parseLit_append, Option.elim_some, parseBool_print, Option.some_bind]
      dsimp only
      rw [parseLit_append, Option.elim_some, parseBool_print, Option.some_bind]
      dsimp only
      rw [parseLit_append, Option.map_some']

def printTitleField : Option String → List Char
  | some t => ",\"title\":\"".toList ++ jsonEscape t.toList ++ "\"".toList
  | none => []

def printXField : Option AxisConfig → List Char
  | some a => ",\"x\":\x7b\"field\":\"".toList ++ jsonEscape a.field.toList ++ "\"\x7d".toList
  | none => []

def printQuery (q : CanonicalQuery) : List Char :=
  "\x7b\"version\":".toList ++ natDigits q.version
    ++ ",\"sourceId\":\"".toList ++ jsonEscape q.sourceId.toList
    ++ "\",\"queryType\":\"".toList ++ jsonEscape (queryTypeStr q.queryType).toList
    ++ "\"".toList ++ printTitleField q.title
    ++ ",\"entities\":".toList ++ printStrList q.entities
    ++ printXField q.x
    ++ ",\"y\":".toList ++ printIndList q.y
    ++ ",\"filters\":".toList ++ printFilters q.filters
    ++ ",\"render\":".toList ++ printRender q.render
    ++ "\x7d".toList


def parseTitleOpt (input : List Char) : Option (Option String × List Char) :=
  (parseLit ",\"title\":\"".toList input).elim (some (none, input))
    (fun r => (parseStrBody r).map fun pt => (some (String.mk pt.1), pt.2))

def parseXOpt (input : List Char) : Option (Option AxisConfig × List Char) :=
  (parseLit ",\"x\":\x7b\"field\":\"".toList input).elim (some (none, input))
    (fun r => (parseStrBody r).bind fun pf =>
      (parseLit "\x7d".toList pf.2).map fun r7 =>
        ((some { field := String.mk pf.1 } : Option AxisConfig), r7))

def parseQueryTail (v : Nat) (sid : List Char) (qt : QueryType) (tt : Option String)
    (input : List Char) : Option (CanonicalQuery × List Char) :=
  (parseLit ",\"entities\":".toList input).bind fun r5 =>
  (parseStrList r5).bind fun pe =>
  (parseXOpt pe.2).bind fun xx =>
  (parseLit ",\"y\":".toList xx.2).bind fun r8 =>
  (parseIndList r8).bind fun py =>
  (parseLit ",\"filters\":".toList py.2).bind fun r9 =>
  (parseFilters r9).bind fun pfl =>
  (parseLit ",\"render\":".toList pfl.2).bind fun r10 =>
  (parseRender r10).bind fun pr =>
  (parseLit "\x7d".toList pr.2).map fun r11 =>
    ({ version := v, sourceId := String.mk sid, queryType := qt, title := tt,
       entities := pe.1, x := xx.1, y := py.1, filters := pfl.1,
       render := pr.1 }, r11)

def parseQuery (input : List Char) : Option (CanonicalQuery × List Char) :=
  (parseLit "\x7b\"version\":".toList input).bind fun r1 =>
  (parseNat r1).bind fun pv =>
  (parseLit ",\"sourceId\":\"".toList pv.2).bind fun r2 =>
  (parseStrBody r2).bind fun ps =>
  (parseLit ",\"queryType\":\"".toList ps.2).bind fun r3 =>
  (parseStrBody r3).bind fun pq =>
  (queryTypeOfToList pq.1).bind fun qt =>
  (parseTitleOpt pq.2).bind fun tt =>
  parseQueryTail pv.1 ps.1 qt tt.1 tt.2

theorem parseTitleOpt_absent (X : List Char) :
    parseTitleOpt (",\"entities\":".toList ++ X) = some (none, ",\"entities\":".toList ++ X) := by
  unfold parseTitleOpt
  have hmt : parseLit ",\"title\":\"".toList (",\"entities\":".toList ++ X) = none :=
    parseLit_mismatch [',', '"'] "itle\":\"".toList "ntities\":".toList X 't' 'e' (by decide)
  rw [hmt, Option.elim_none]

theorem parseTitleOpt_present (t : String) (X : List Char) :
    parseTitleOpt (",\"title\":\"".toList ++ (jsonEscape t.toList ++ '"' :: X)) =
      some (some t, X) := by
  unfold parseTitleOpt
  rw [parseLit_append, Option.elim_some, parseStrBody_escape, Option.map_some']
  rfl

theorem parseXOpt_absent (X : List Char) :
    parseXOpt (",\"y\":".toList ++ X) = some (none, ",\"y\":".toList ++ X) := by
  unfold parseXOpt
  have hmx : parseLit ",\"x\":\x7b\"field\":\"".toList (",\"y\":".toList ++ X) = none :=
    parseLit_mismatch [',', '"'] "x\":\x7b\"field\":\"".toList "y\":".toList X 'x' 'y' (by decide)
  rw [hmx, Option.elim_none]

theorem parseXOpt_present (f : String) (X : List Char) :
    parseXOpt (",\"x\":\x7b\"field\":\"".toList ++
      (jsonEscape f.toList ++ '"' :: ("\x7d".toList ++ X))) =
      some (some { field := f }, X) := by
  unfold parseXOpt
  rw [parseLit_append, Option.elim_some, parseStrBody_escape, Option.some_bind]
  dsimp only
  rw [parseLit_append, Option.map_some']
  rfl

theorem parseQueryTail_print (v : Nat) (sid : String) (qt : QueryType) (ti : Option String)
    (ents : List String) (xx : Option AxisConfig) (ys : List IndicatorConfig)
    (fl : QueryFilters) (rd : RenderConfig) (rest : List Char) :
    parseQueryTail v sid.toList qt ti
      (",\"entities\":".toList ++ (printStrList ents ++ (printXField xx ++
        (",\"y\":".toList ++ (printIndList ys ++ (",\"filters\":".toList ++
          (printFilters fl ++ (",\"render\":".toList ++ (printRender rd ++
            ("\x7d".toList ++ rest)))))))))) =
      some ({ version := v
              sourceId := sid
              queryType := qt
              title := ti
              entities := ents
              x := xx
              y := ys
              filters := fl
              render := rd }, rest) := by
  unfold parseQueryTail
  cases xx with
  | none =>
    rw [printXField]
    simp only [List.nil_append]
    rw [parseLit_append, Option.some_bind, parseStrList_print, Option.some_bind]
    dsimp only
    rw [parseXOpt_absent, Option.some_bind]
    dsimp only
    rw [parseLit_append, Option.some_bind, parseIndList_print, Option.some_bind,
      parseLit_append, Option.some_bind, parseFilters_print, Option.some_bind,
      parseLit_append, Option.some_bind, parseRender_print, Option.some_bind]
    dsimp only
    rw [parseLit_append, Option.map_some']
    rfl
  | some ax =>
    obtain ⟨axf⟩ := ax
    rw [printXField]
    rw [show (",\"x\":\x7b\"field\":\"".toList ++ jsonEscape axf.toList ++
        "\"\x7d".toList : List Char) ++ (",\"y\":".toList ++ (printIndList ys ++
          (",\"filters\":".toList ++ (printFilters fl ++ (",\"render\":".toList ++
            (printRender rd ++ ("\x7d".toList ++ rest))))))) =
      ",\"x\":\x7b\"field\":\"".toList ++ (jsonEscape axf.toList ++ '"' ::
        ("\x7d".toList ++ (",\"y\":".toList ++ (printIndList ys ++
          (",\"filters\":".toList ++ (printFilters fl ++ (",\"render\":".toList ++
            (printRender rd ++ ("\x7d".toList ++ rest))))))))) from by
      simp only [List.append_assoc]
      rfl]
    rw [parseLit_append, Option.some_bind, parseStrList_print, Option.some_bind]
    dsimp only
    rw [parseXOpt_present, Option.some_bind]
    dsimp only
    rw [parseLit_append, Option.some_bind, parseIndList_print, Option.some_bind,
      parseLit_append, Option.some_bind, parseFilters_print, Option.some_bind,
      parseLit_append, Option.some_bind, parseRender_print, Option.some_bind]
    dsimp only
    rw [parseLit_append, Option.map_some']
    rfl

theorem quoteSplit_queryType (X : List Char) :
    "\",\"queryType\":\"".toList ++ X = '"' :: (",\"queryType\":\"".toList ++ X) := rfl

theorem quoteSplit_quote (X : List Char) : "\"".toList ++ X = '"' :: X := rfl

theorem parseQuery_print (q : CanonicalQuery) (rest : List Char) :
    parseQuery (printQuery q ++ rest) = some (q, rest) := by
  obtain ⟨v, sid, qt, ti, ents, xx, ys, fl, rd⟩ := q
  unfold printQuery parseQuery
  dsimp only
  cases ti with
  | none =>
    rw [printTitleField]
    simp only [List.append_assoc, List.cons_append, List.nil_append, quoteSplit_queryType,
      quoteSplit_quote]
    rw [parseLit_append, Option.some_bind]
    rw [parseNat_natDigits v _ (by intro c hc; cases hc; decide), Option.some_bind]
    rw [parseLit_append, Option.some_bind]
    rw [parseStrBody_escape, Option.some_bind, parseLit_append, Option.some_bind,
      parseStrBody_escape, Option.some_bind, queryType_roundtrip, Option.some_bind]
    dsimp only
    rw [parseTitleOpt_absent, Option.some_bind]
    dsimp only
    rw [parseQueryTail_print]
  | some t =>
    rw [printTitleField]
    simp only [List.append_assoc, List.cons_append, List.nil_append, quoteSplit_queryType,
      quoteSplit_quote]
    rw [parseLit_append, Option.some_bind]
    rw [parseNat_natDigits v _ (by intro c hc; cases hc; decide), Option.some_bind]
    rw [parseLit_append, Option.some_bind]
    rw [parseStrBody_escape, Option.some_bind, parseLit_append, Option.some_bind,
      parseStrBody_escape, Option.some_bind, queryType_roundtrip, Option.some_bind]
    dsimp only
    rw [parseTitleOpt_present, Option.some_bind]
    dsimp only
    rw [parseQueryTail_print]

theorem toList_mk (l : List Char) : (String.mk l).toList = l := rfl

theorem mk_toList (s : String) : String.mk s.toList = s := rfl

theorem decodeURIComponent_encode (s : String) :
    decodeURIComponentStr (encodeURIComponent s) = some s := by
  unfold decodeURIComponentStr encodeURIComponent
  rw [toList_mk]
  have ht : pctTokenize (s.toList.flatMap pctEncodeChar) =
      some (s.toList.flatMap pctEncTok) := by
    generalize s.toList = l
    induction l with
    | nil => rfl
    | cons c tl ih =>
      rw [List.flatMap_cons, pctTokenize_enc, ih, List.flatMap_cons]
      rfl
  rw [ht, Option.some_bind, pctDetokGo_encTok, Option.map_some', mk_toList]

theorem encodeURIComponent_bytes (s : String) :
    ∀ c ∈ (encodeURIComponent s).toList, c.toNat < 256 := by
  intro c hc
  rw [show encodeURIComponent s = String.mk (s.toList.flatMap pctEncodeChar) from rfl,
    toList_mk] at hc
  rw [List.mem_flatMap] at hc
  obtain ⟨c0, _, hc⟩ := hc
  rw [pctEncodeChar] at hc
  by_cases hu : isUriUnreserved c0
  · rw [if_pos hu] at hc
    simp only [List.mem_singleton] at hc
    subst hc
    simp only [isUriUnreserved, Bool.or_eq_true, beq_iff_eq] at hu
    rcases hu with ((((((((((h | h) | h) | h) | h) | h) | h) | h) | h) | h) | h)
    · unfold Char.isAlpha Char.isUpper Char.isLower at h
      simp only [Bool.or_eq_true, Bool.and_eq_true, decide_eq_true_eq] at h
      show c.val.toNat < 256
      rcases h with ⟨_, h2⟩ | ⟨_, h2⟩ <;>
        exact Nat.lt_of_le_of_lt (show c.val.toNat ≤ _ from h2) (by decide)
    · unfold Char.isDigit at h
      simp only [Bool.and_eq_true, decide_eq_true_eq] at h
      show c.val.toNat < 256
      exact Nat.lt_of_le_of_lt (show c.val.toNat ≤ _ from h.2) (by decide)
    all_goals subst h
    all_goals decide
  · rw [if_neg hu] at hc
    rw [List.mem_flatMap] at hc
    obtain ⟨b, hb, hc⟩ := hc
    have hblt : b < 256 := by
      have hlt := char_toNat_lt c0
      simp only [utf8Bytes] at hb
      split at hb
      · simp only [List.mem_cons, List.mem_nil_iff, or_false] at hb
        omega
      · split at hb
        · simp only [List.mem_cons, List.mem_nil_iff, or_false] at hb
          omega
        · split at hb <;>
            simp only [List.mem_cons, List.mem_nil_iff, or_false] at hb <;>
            omega
    simp only [List.mem_cons, List.mem_nil_iff, or_false] at hc
    have hhex : ∀ n : Nat, n < 16 → (hexDigitChar n).toNat < 256 := by decide
    rcases hc with rfl | rfl | rfl
    · decide
    · exact hhex _ (by omega)
    · exact hhex _ (by omega)

def jsonStringifyQuery (q : CanonicalQuery) : String :=
  String.mk (printQuery q)

def jsonParseQuery (s : String) : Option CanonicalQuery :=
  match parseQuery s.toList with
  | some (q, []) => some q
  | _ => none

theorem jsonParseQuery_stringify (q : CanonicalQuery) :
    jsonParseQuery (jsonStringifyQuery q) = some q := by
  unfold jsonParseQuery jsonStringifyQuery
  have h := parseQuery_print q []
  rw [List.append_nil] at h
  rw [toList_mk, h]

def jsBtoa (s : String) : Option String :=
  if s.toList.all (fun c => c.toNat < 256) then
    some (String.mk (btoaGo (s.toList.map Char.toNat)))
  else none

def jsAtob (s : String) : Option String :=
  (atobGo s.toList).map (fun bs => String.mk (bs.map Char.ofNat))

def encodeState (q : CanonicalQuery) : Option String :=
  (jsBtoa (encodeURIComponent (jsonStringifyQuery q))).map (fun base64 =>
    String.mk (stripTrailEq (base64.toList.map urlSafeChar)))

def decodeState (s : String) : Option CanonicalQuery :=
  match jsAtob (String.mk (padB64 (s.toList.map unUrlSafeChar))) with
  | none => none
  | some bin =>
    match decodeURIComponentStr bin with
    | none => none
    | some json => jsonParseQuery json

/-- C8: for every `CanonicalQuery` `q`, `decodeState` inverts `encodeState`:
`encodeState` JSON-stringifies the query, URI-encodes and base64-encodes it
(URL-safe: `+` becomes `-`, `/` becomes `_`, trailing `=` stripped), the
encoding always succeeds, and `decodeState` restores padding and characters,
base64-decodes, URI-decodes and JSON-parses it back to a value equal to `q`,
including titles and labels with special characters. -/
theorem claim_C8_encode_decode_roundtrip (q : CanonicalQuery) :
    (encodeState q).bind decodeState = some q := by
  have hbytes := encodeURIComponent_bytes (jsonStringifyQuery q)
  have hall : (encodeURIComponent (jsonStringifyQuery q)).toList.all
      (fun c => c.toNat < 256) = true := by
    rw [List.all_eq_true]
    intro c hc
    simp only [decide_eq_true_eq]
    exact hbytes c hc
  have hmap : ∀ b ∈ (encodeURIComponent (jsonStringifyQuery q)).toList.map Char.toNat,
      b < 256 := by
    intro b hb
    rw [List.mem_map] at hb
    obtain ⟨c, hc, rfl⟩ := hb
    exact hbytes c hc
  have hb64 := jsB64_roundtrip ((encodeURIComponent (jsonStringifyQuery q)).toList.map
    Char.toNat) hmap
  unfold jsB64UrlDecode jsB64UrlEncode at hb64
  have hencSt : encodeState q = some (String.mk (stripTrailEq ((btoaGo
      ((encodeURIComponent (jsonStringifyQuery q)).toList.map Char.toNat)).map
        urlSafeChar))) := by
    unfold encodeState
    rw [jsBtoa, if_pos hall, Option.map_some', toList_mk]
  rw [hencSt, Option.some_bind]
  unfold decodeState
  rw [toList_mk, jsAtob, toList_mk, hb64, Option.map_some']
  dsimp only
  have hback : ((encodeURIComponent (jsonStringifyQuery q)).toList.map Char.toNat).map
      Char.ofNat = (encodeURIComponent (jsonStringifyQuery q)).toList := by
    rw [List.map_map]
    conv_rhs => rw [← List.map_id ((encodeURIComponent (jsonStringifyQuery q)).toList)]
    apply List.map_congr_left
    intro c _
    exact Char.ofNat_toNat c
  rw [hback, mk_toList, decodeURIComponent_encode]
  dsimp only
  exact jsonParseQuery_stringify q

end Visualizer
